import Mathlib

/-!
# SevenDB-go client transport: framed channel, retry budget, retry executor, connection

A shallow embedding of `internal/tcp_wire.go`, `internal/protobuf_wire.go`, `retrier.go`,
`client_wire.go` and `main.go`.

Conventions of the embedding.

* A Go method with a pointer receiver becomes a function that takes the receiver's state and
  returns the new state next to the Go return values.
* `net.Conn` is an external collaborator.  It is modelled as a scripted socket: a list of the
  results its coming `Read` calls deliver, a list of the results its coming `Write` calls give,
  and a log of what the code did to it (bytes accepted, number of `Write` and `Close` calls).
* Go `error` values are modelled by the classes the code tells apart (`GoErr`).
* `time.Sleep` is logged (in milliseconds); the clock read by `time.Now` is part of the world
  the retry executor runs in.
* Loops without a syntactic bound take a fuel argument and return `none` when it runs out.
* A call that can raise a Go run-time panic returns an `Outcome`; the background task of the
  watch half (`go c.watch()`) is a function of its own, run when the scenario says so.
-/

namespace SevenDB

/-! ## wire/error.go -/

/-- A byte of a Go `[]byte`. -/
abbrev Byte := Nat

/-- Go `wire.ErrKind`. -/
inductive ErrKind
  | NotEstablished
  | Empty
  | Terminated
  | CorruptMessage
  deriving DecidableEq, Repr

/-- The classes of Go `error` values that the code distinguishes:
`io.EOF`, `io.ErrUnexpectedEOF`, `io.ErrShortWrite`, `io.ErrClosedPipe`, an error whose text
contains "use of closed network connection", a `*net.OpError` that is `Timeout()` or
`Temporary()`, and every other error. -/
inductive GoErr
  | eof
  | unexpectedEOF
  | shortWrite
  | closedPipe
  | closedConn
  | transient
  | other
  deriving DecidableEq, Repr

/-- The `Cause` field of a `wire.WireError`: an I/O error passed through, or one of the errors
the code builds itself (`errors.New`, `fmt.Errorf`). -/
inductive ErrCause
  | io (e : GoErr)
  | closedWire
  | invalidSize (size : Nat)
  | tooLarge (size : Nat) (max : Int)
  | maxBackoff (e : GoErr)
  | maxPartialWrite (e : Option GoErr)
  | codec
  | dial
  deriving DecidableEq, Repr

/-- Go `wire.WireError`. -/
structure WireError where
  Kind : ErrKind
  Cause : ErrCause
  deriving DecidableEq, Repr

/-! ## The socket (`net.Conn`) and `io.ReadFull` -/

/-- What one stretch of the incoming stream delivers: a chunk of bytes, or an error. -/
inductive ReadEvent
  | data (bs : List Byte)
  | fail (e : GoErr)
  deriving DecidableEq, Repr

/-- The result the socket gives to one `Write` call: it accepts at most `limit` bytes of the
slice and returns `err`. -/
structure WriteResp where
  limit : Nat
  err : Option GoErr
  deriving DecidableEq, Repr

/-- The scripted socket.  `incoming` is the stream seen through `w.reader` (the `bufio.Reader`
and the socket behind it); once it is exhausted every read gives `io.EOF`.  `outgoing` holds the
results of the coming `Write` calls; once it is exhausted every write is accepted in full. -/
structure Conn where
  incoming : List ReadEvent
  outgoing : List WriteResp
  written : List Byte
  writeCalls : Nat
  closeCalls : Nat
  deriving DecidableEq, Repr

/-- Go `conn.Write(p)`: returns `(n, err)` with `0 ≤ n ≤ len(p)`. -/
def Conn.Write (c : Conn) (p : List Byte) : (Nat × Option GoErr) × Conn :=
  match c.outgoing with
  | [] =>
    ((p.length, none),
      { c with written := c.written ++ p, writeCalls := c.writeCalls + 1 })
  | r :: rest =>
    ((min r.limit p.length, r.err),
      { c with outgoing := rest, written := c.written ++ p.take r.limit,
               writeCalls := c.writeCalls + 1 })

/-- Go `conn.Close()`; the error it may return is only logged by the caller. -/
def Conn.Close (c : Conn) : Conn :=
  { c with closeCalls := c.closeCalls + 1 }

/-- Go `io.ReadFull(r, buf)` with `need` bytes still missing and `acc` the bytes read so far:
    for n < min && err == nil { nn, err = r.Read(buf[n:]); n += nn }
    if n >= min { err = nil } else if n > 0 && err == EOF { err = ErrUnexpectedEOF }
Returns the bytes read, the error, and the rest of the stream. -/
def readFull : List ReadEvent → Nat → List Byte → (List Byte × Option GoErr) × List ReadEvent
  | evs, 0, acc => ((acc, none), evs)
  | [], _ + 1, acc =>
    ((acc, some (if acc = [] then GoErr.eof else GoErr.unexpectedEOF)), [])
  | ReadEvent.data bs :: evs, need + 1, acc =>
    if bs.length ≤ need + 1 then readFull evs (need + 1 - bs.length) (acc ++ bs)
    else ((acc ++ bs.take (need + 1), none), ReadEvent.data (bs.drop (need + 1)) :: evs)
  | ReadEvent.fail e :: evs, _ + 1, acc =>
    ((acc, some (if e = GoErr.eof ∧ acc ≠ [] then GoErr.unexpectedEOF else e)), evs)

/-- Go `binary.BigEndian.PutUint32(b, v)`. -/
def putUint32 (v : Nat) : List Byte :=
  [v / 16777216 % 256, v / 65536 % 256, v / 256 % 256, v % 256]

/-- Go `binary.BigEndian.Uint32(b)` on a 4-byte slice. -/
def getUint32 : List Byte → Nat
  | [b0, b1, b2, b3] =>
    (b0 % 256) * 16777216 + (b1 % 256) * 65536 + (b2 % 256) * 256 + b3 % 256
  | _ => 0

/-- Go conversion `uint32(x)` of an `int`. -/
def uint32 (x : Int) : Nat := (x % 4294967296).toNat

/-! ## internal/tcp_wire.go -/

/-- Go `const prefixSize = 4`. -/
def prefixSize : Nat := 4

/-- Go `Status`. -/
inductive Status
  | Open
  | Closed
  deriving DecidableEq, Repr

/-- Go `TCPWire`.  `reader` is `conn.incoming`; the two mutexes are not modelled (one call at a
time).  `slept` logs the `time.Sleep` calls of the wire's methods, in milliseconds. -/
structure TCPWire where
  status : Status
  maxMsgSize : Int
  conn : Conn
  slept : List Nat
  deriving DecidableEq, Repr

/-- A socket that has seen no call yet. -/
def Conn.fresh (incoming : List ReadEvent) (outgoing : List WriteResp) : Conn :=
  { incoming := incoming, outgoing := outgoing, written := [], writeCalls := 0, closeCalls := 0 }

/-- Go `NewTCPWire`. -/
def NewTCPWire (maxMsgSize : Int) (conn : Conn) : TCPWire :=
  { status := Status.Open, maxMsgSize := maxMsgSize, conn := conn, slept := [] }

/-- Go `prefix(msgSize, buffer)`: the four bytes it stores in `buffer[:prefixSize]`. -/
def putPrefix (msgSize : Nat) : List Byte :=
  putUint32 (msgSize % 4294967296)

/-- Go `TCPWire.Close`. -/
def TCPWire.Close (w : TCPWire) : TCPWire :=
  if w.status = Status.Closed then w
  else { w with status := Status.Closed, conn := w.conn.Close }

/-- Go `maxPartialWriteRetries` of `TCPWire.write`. -/
def maxPartialWriteRetries : Nat := 10

/-- Go `maxBackoffRetries` of `TCPWire.write`. -/
def maxBackoffRetries : Nat := 5

/-- The `for totalWritten < len(buffer)` loop of Go `TCPWire.write`, with its loop variables
`totalWritten`, `partialWriteRetries`, `backoffRetries`, `backoffDelay` (ms). -/
def TCPWire.writeLoop (buffer : List Byte) :
    Nat → Nat → Nat → Nat → Nat → TCPWire → Option (Option WireError × TCPWire)
  | 0, _, _, _, _, _ => none
  | fuel + 1, totalWritten, partialWriteRetries, backoffRetries, backoffDelay, w =>
    if totalWritten < buffer.length then
      let res := w.conn.Write (buffer.drop totalWritten)
      let n := res.1.1
      let err := res.1.2
      let w1 := { w with conn := res.2 }
      let isPartial :=
        n == 0 || decide (n < (buffer.drop totalWritten).length) || err == some GoErr.shortWrite
      let totalWritten1 := totalWritten + n
      match err with
      | some e =>
        if e ≠ GoErr.shortWrite then
          if e = GoErr.closedPipe then
            some (some ⟨ErrKind.Terminated, ErrCause.io e⟩, { w1 with status := Status.Closed })
          else if e = GoErr.transient then
            if backoffRetries > maxBackoffRetries then
              some (some ⟨ErrKind.Terminated, ErrCause.maxBackoff e⟩,
                { w1 with status := Status.Closed })
            else
              TCPWire.writeLoop buffer fuel totalWritten1 partialWriteRetries
                (backoffRetries + 1) (backoffDelay * 2)
                { w1 with slept := w1.slept ++ [backoffDelay] }
          else
            some (some ⟨ErrKind.Terminated, ErrCause.io e⟩, { w1 with status := Status.Closed })
        else if partialWriteRetries ≥ maxPartialWriteRetries then
          some (some ⟨ErrKind.Terminated, ErrCause.maxPartialWrite err⟩,
            { w1 with status := Status.Closed })
        else
          TCPWire.writeLoop buffer fuel totalWritten1 (partialWriteRetries + 1)
            backoffRetries backoffDelay w1
      | none =>
        if isPartial then
          if partialWriteRetries ≥ maxPartialWriteRetries then
            some (some ⟨ErrKind.Terminated, ErrCause.maxPartialWrite err⟩,
              { w1 with status := Status.Closed })
          else
            TCPWire.writeLoop buffer fuel totalWritten1 (partialWriteRetries + 1)
              backoffRetries backoffDelay w1
        else
          TCPWire.writeLoop buffer fuel totalWritten1 partialWriteRetries
            backoffRetries backoffDelay w1
    else some (none, w)

/-- Fuel of the write loop.  No run needs more than 18 iterations: at most 6 iterations
continue after a backoff, at most 10 after a partial write, one completes the buffer and one
leaves the loop (`writeLoop_total` below). -/
def writeFuel : Nat := 18

/-- Go `TCPWire.write`.  The loop never runs out of `writeFuel` (`writeLoop_total`), so the
value given to `getD` is never returned. -/
def TCPWire.write (w : TCPWire) (buffer : List Byte) : Option WireError × TCPWire :=
  (TCPWire.writeLoop buffer writeFuel 0 0 0 5 w).getD (none, w)

/-- Go `TCPWire.Send`. -/
def TCPWire.Send (w : TCPWire) (msg : List Byte) : Option WireError × TCPWire :=
  if w.status = Status.Closed then
    (some ⟨ErrKind.Terminated, ErrCause.closedWire⟩, w)
  else
    w.write (putPrefix msg.length ++ msg)

/-- What `io.ReadFull(w.reader, buffer)` leaves in `buffer`: the bytes read over the old
contents. -/
def overlay (fresh old : List Byte) : List Byte :=
  fresh ++ old.drop fresh.length

/-- The `for attempt := 0; attempt < maxRetries; attempt++` loop of Go `TCPWire.readPrefix`,
with `attempts` the iterations left, `delay` in ms and `lastErr`.  It returns the value the
loop returns from inside (`some size`), or `none` with the last error when the loop is left. -/
def TCPWire.readPrefixLoop :
    Nat → Nat → Option GoErr → TCPWire → (Option Nat × Option GoErr) × TCPWire
  | 0, _, lastErr, w => ((none, lastErr), w)
  | attempts + 1, delay, _, w =>
    let res := readFull w.conn.incoming prefixSize []
    let w1 := { w with conn := { w.conn with incoming := res.2 } }
    match res.1.2 with
    | none => ((some (getUint32 res.1.1), none), w1)
    | some e =>
      if e = GoErr.transient then
        TCPWire.readPrefixLoop attempts (delay * 2) (some e)
          { w1 with slept := w1.slept ++ [delay] }
      else ((none, some e), w1)

/-- Go `TCPWire.readPrefix`.  (`lastErr` is never nil after the loop, which runs at least
once; the model sends a nil `lastErr` to the `default` case.) -/
def TCPWire.readPrefix (w : TCPWire) : (Nat × Option WireError) × TCPWire :=
  match TCPWire.readPrefixLoop 5 5 none w with
  | ((some size, _), w1) => ((size, none), w1)
  | ((none, lastErr), w1) =>
    if lastErr = some GoErr.eof then
      ((0, some ⟨ErrKind.Empty, ErrCause.io GoErr.eof⟩), w1)
    else if lastErr = some GoErr.unexpectedEOF then
      ((0, some ⟨ErrKind.Terminated, ErrCause.io GoErr.unexpectedEOF⟩), w1.Close)
    else if lastErr = some GoErr.closedConn then
      ((0, some ⟨ErrKind.Terminated, ErrCause.io GoErr.closedConn⟩), w1.Close)
    else if lastErr = some GoErr.transient then
      ((0, some ⟨ErrKind.Terminated, ErrCause.io GoErr.transient⟩), w1.Close)
    else
      ((0, some ⟨ErrKind.Terminated, ErrCause.io (lastErr.getD GoErr.other)⟩), w1.Close)

/-- The retry loop of Go `TCPWire.readMessage`; `buffer` is the slice the reads fill. -/
def TCPWire.readMessageLoop (size : Nat) :
    Nat → Nat → Option GoErr → List Byte → TCPWire →
      (Option (List Byte) × Option GoErr × List Byte) × TCPWire
  | 0, _, lastErr, buffer, w => ((none, lastErr, buffer), w)
  | attempts + 1, delay, _, buffer, w =>
    let res := readFull w.conn.incoming size []
    let w1 := { w with conn := { w.conn with incoming := res.2 } }
    let buffer1 := overlay res.1.1 buffer
    match res.1.2 with
    | none => ((some buffer1, none, buffer1), w1)
    | some e =>
      if e = GoErr.transient ∨ e = GoErr.eof then
        TCPWire.readMessageLoop size attempts (delay * 2) (some e) buffer1
          { w1 with slept := w1.slept ++ [delay] }
      else ((none, some e, buffer1), w1)

/-- Go `TCPWire.readMessage`. -/
def TCPWire.readMessage (w : TCPWire) (size : Nat) : (List Byte × Option WireError) × TCPWire :=
  match TCPWire.readMessageLoop size 5 5 none (List.replicate size 0) w with
  | ((some buffer, _, _), w1) => ((buffer, none), w1)
  | ((none, lastErr, buffer), w1) =>
    if lastErr = some GoErr.eof then
      ((buffer, some ⟨ErrKind.CorruptMessage, ErrCause.io GoErr.eof⟩),
        { w1 with status := Status.Closed })
    else if lastErr = some GoErr.unexpectedEOF then
      ((buffer, some ⟨ErrKind.Terminated, ErrCause.io GoErr.unexpectedEOF⟩),
        { w1 with status := Status.Closed })
    else if lastErr = some GoErr.closedConn then
      ((buffer, some ⟨ErrKind.Terminated, ErrCause.io GoErr.closedConn⟩),
        { w1 with status := Status.Closed })
    else if lastErr = some GoErr.transient then
      ((buffer, some ⟨ErrKind.Terminated, ErrCause.io GoErr.transient⟩),
        { w1 with status := Status.Closed })
    else
      ((buffer, some ⟨ErrKind.Terminated, ErrCause.io (lastErr.getD GoErr.other)⟩),
        { w1 with status := Status.Closed })

/-- Go `TCPWire.Receive`: the payload (`none` is Go's nil slice), the error, the new state. -/
def TCPWire.Receive (w : TCPWire) : (Option (List Byte) × Option WireError) × TCPWire :=
  match w.readPrefix with
  | ((_, some err), w1) => ((none, some err), w1)
  | ((size, none), w1) =>
    if size ≤ 0 then
      ((none, some ⟨ErrKind.CorruptMessage, ErrCause.invalidSize size⟩), w1.Close)
    else if size > uint32 w1.maxMsgSize then
      ((none, some ⟨ErrKind.CorruptMessage, ErrCause.tooLarge size w1.maxMsgSize⟩), w1.Close)
    else
      match w1.readMessage size with
      | ((_, some err), w2) => ((none, some err), w2)
      | ((buffer, none), w2) => ((some buffer, none), w2)

/-! ## internal/protobuf_wire.go -/

/-- The message codec (`proto.Marshal`, `proto.Unmarshal`), an external collaborator of the
transport; `none` stands for the error it returns. -/
structure Codec (μ ρ : Type) where
  Marshal : μ → Option (List Byte)
  Unmarshal : List Byte → Option ρ

/-- Go `ProtobufTCPWire`; its `tcpWire` is always the `TCPWire` made by `NewProtobufTCPWire`. -/
structure ProtobufTCPWire where
  tcpWire : TCPWire
  deriving DecidableEq, Repr

/-- Go `NewProtobufTCPWire`. -/
def NewProtobufTCPWire (maxMsgSize : Int) (conn : Conn) : ProtobufTCPWire :=
  { tcpWire := NewTCPWire maxMsgSize conn }

/-- Go `ProtobufTCPWire.Send`. -/
def ProtobufTCPWire.Send {μ : Type} (Marshal : μ → Option (List Byte)) (w : ProtobufTCPWire)
    (msg : μ) : Option WireError × ProtobufTCPWire :=
  match Marshal msg with
  | none => (some ⟨ErrKind.CorruptMessage, ErrCause.codec⟩, { tcpWire := w.tcpWire.Close })
  | some buffer =>
    let res := w.tcpWire.Send buffer
    (res.1, { tcpWire := res.2 })

/-- Go `ProtobufTCPWire.Receive(dst)`: the contents of `dst` after the call, and the error. -/
def ProtobufTCPWire.Receive {ρ : Type} (Unmarshal : List Byte → Option ρ) (w : ProtobufTCPWire)
    (dst : ρ) : (ρ × Option WireError) × ProtobufTCPWire :=
  match w.tcpWire.Receive with
  | ((_, some err), t) => ((dst, some err), { tcpWire := t })
  | ((buffer, none), t) =>
    match Unmarshal (buffer.getD []) with
    | none => ((dst, some ⟨ErrKind.CorruptMessage, ErrCause.codec⟩), { tcpWire := t.Close })
    | some v => ((v, none), { tcpWire := t })

/-- Go `ProtobufTCPWire.Close`. -/
def ProtobufTCPWire.Close (w : ProtobufTCPWire) : ProtobufTCPWire :=
  { tcpWire := w.tcpWire.Close }

/-! ## retrier.go -/

/-- Go `Retrier` (the mutex is not modelled).  `retryWindow` and `lastAttempt` are in
nanoseconds; Go's `int` is taken unbounded. -/
structure Retrier where
  maxRetries : Int
  retryWindow : Int
  retryCount : Int
  lastAttempt : Int
  deriving DecidableEq, Repr

/-- Go `NewRetrier`; `now` is the reading of `time.Now()`. -/
def NewRetrier (maxRetries : Int) (retryWindow : Int) (now : Int) : Retrier :=
  { maxRetries := maxRetries, retryWindow := retryWindow, retryCount := 0, lastAttempt := now }

/-- Go `Retrier.resetIfWindowPassed`; `time.Since(r.lastAttempt)` is `now - r.lastAttempt`. -/
def Retrier.resetIfWindowPassed (r : Retrier) (now : Int) : Retrier :=
  if now - r.lastAttempt > r.retryWindow then { r with retryCount := 0 } else r

/-- Go `Retrier.Allow`, called at clock reading `now`. -/
def Retrier.Allow (r : Retrier) (now : Int) : Bool × Retrier :=
  let r1 := r.resetIfWindowPassed now
  (decide (r1.retryCount < r1.maxRetries), r1)

/-- Go `Retrier.Failure`, called at clock reading `now` (its two clock reads, `time.Since` and
`time.Now`, are taken as one reading). -/
def Retrier.Failure (r : Retrier) (now : Int) : Retrier :=
  let r1 := r.resetIfWindowPassed now
  { r1 with retryCount := r1.retryCount + 1, lastAttempt := now }

/-- Go `Retrier.Success`, called at clock reading `now`. -/
def Retrier.Success (r : Retrier) (now : Int) : Retrier :=
  { r with retryCount := 0, lastAttempt := now }

/-- Go `shouldRetry`. -/
def shouldRetry (kind : ErrKind) : List ErrKind → Bool
  | [] => false
  | k :: retryOn => if k = kind then true else shouldRetry kind retryOn

/-- One call made by the retry executor, as an observer sees it: the operation with the error
it returned, a budget method (`Allow` with its answer), the recovery step with its error. -/
inductive Call
  | op (err : Option WireError)
  | Success
  | Failure
  | Allow (granted : Bool)
  | beforeRetry (err : Option WireError)
  deriving DecidableEq, Repr

/-- What `executeWithRetry` returns (`value`, `err`) and leaves behind: the budget, the world
its closures act on, and the log of the calls it made. -/
structure ExecResult (α σ : Type) where
  value : Option α
  err : Option WireError
  retrier : Retrier
  world : σ
  calls : List Call

/-- Go `executeWithRetry`.  The closures `op` and `beforeRetry` act on a world `σ`; `clock`
reads `time.Now()` from it for the budget method about to run.  `log` collects the calls. -/
def executeWithRetry {α σ : Type} (clock : σ → Int × σ) (retryOn : List ErrKind)
    (beforeRetry : σ → Option WireError × σ) (op : σ → (Option α × Option WireError) × σ) :
    Nat → Retrier → σ → List Call → Option (ExecResult α σ)
  | 0, _, _, _ => none
  | fuel + 1, r, s, log =>
    let res := op s
    match res.1.2 with
    | none =>
      let t := clock res.2
      some { value := res.1.1, err := none, retrier := r.Success t.1, world := t.2,
             calls := log ++ [Call.op none, Call.Success] }
    | some err =>
      let t := clock res.2
      let r1 := r.Failure t.1
      if shouldRetry err.Kind retryOn then
        let t2 := clock t.2
        let a := r1.Allow t2.1
        if a.1 then
          let b := beforeRetry t2.2
          match b.1 with
          | some bErr =>
            some { value := none, err := some bErr, retrier := a.2, world := b.2,
                   calls := log ++ [Call.op (some err), Call.Failure, Call.Allow true,
                     Call.beforeRetry (some bErr)] }
          | none =>
            executeWithRetry clock retryOn beforeRetry op fuel a.2 b.2
              (log ++ [Call.op (some err), Call.Failure, Call.Allow true, Call.beforeRetry none])
        else
          some { value := none, err := some err, retrier := a.2, world := t2.2,
                 calls := log ++ [Call.op (some err), Call.Failure, Call.Allow false] }
      else
        some { value := none, err := some err, retrier := r1, world := t.2,
               calls := log ++ [Call.op (some err), Call.Failure] }

/-- Go `ExecuteWithResult`. -/
def ExecuteWithResult {α σ : Type} (clock : σ → Int × σ) (fuel : Nat) (r : Retrier)
    (retryOn : List ErrKind) (op : σ → (Option α × Option WireError) × σ)
    (beforeRetry : σ → Option WireError × σ) (s : σ) : Option (ExecResult α σ) :=
  executeWithRetry clock retryOn beforeRetry op fuel r s []

/-- Go `ExecuteVoid`: the operation is wrapped into one that returns a nil value. -/
def ExecuteVoid {σ : Type} (clock : σ → Int × σ) (fuel : Nat) (r : Retrier)
    (retryOn : List ErrKind) (op : σ → Option WireError × σ)
    (beforeRetry : σ → Option WireError × σ) (s : σ) : Option (ExecResult Unit σ) :=
  executeWithRetry clock retryOn beforeRetry
    (fun s => ((none, (op s).1), (op s).2)) fuel r s []

/-- Go `noop`. -/
def noop {σ : Type} (s : σ) : Option WireError × σ := (none, s)

/-! ## The `wire` messages and the environment of the client -/

/-- Go `wire.Command` (generated code, outside the transport core). -/
structure Command where
  Cmd : String
  Args : List String
  deriving DecidableEq, Repr

/-- Go `wire.Status` of a `wire.Result`. -/
inductive ResultStatus
  | Status_OK
  | Status_ERR
  deriving DecidableEq, Repr

/-- A Go string made by `fmt.Sprintf(format, cause)` or `fmt.Errorf`; a plain string has no
`cause`. -/
structure Text where
  format : String
  cause : Option ErrCause
  deriving DecidableEq, Repr

/-- Go `wire.Result`: the status, the message, and the rest of the response as bytes. -/
structure Result where
  Status : ResultStatus
  Message : Text
  Response : List Byte
  deriving DecidableEq, Repr

/-- Go `&wire.Result{}`. -/
def Result.zero : Result :=
  { Status := ResultStatus.Status_OK, Message := { format := "", cause := none }, Response := [] }

/-- What the client sees of the outside world: the readings the coming `time.Now()` calls
give (`time`, the latest one, is repeated when they run out), the results of the coming
`net.DialTimeout` calls (a socket, or `none` for a failed dial; every dial fails when they run
out), the number of dials made, and the string `uuid.New()` gives. -/
structure Net where
  clock : List Int
  time : Int
  dials : List (Option Conn)
  dialCalls : Nat
  uuid : String
  deriving DecidableEq, Repr

/-- Go `time.Now()`. -/
def Net.Now (net : Net) : Int × Net :=
  match net.clock with
  | [] => (net.time, net)
  | t :: ts => (t, { net with clock := ts, time := t })

/-- Go `net.DialTimeout("tcp", addr, 5*time.Second)`. -/
def Net.DialTimeout (net : Net) : Option Conn × Net :=
  match net.dials with
  | [] => (none, { net with dialCalls := net.dialCalls + 1 })
  | d :: ds => (d, { net with dials := ds, dialCalls := net.dialCalls + 1 })

/-! ## client_wire.go -/

/-- Go `ClientWire`, which embeds a `*ProtobufTCPWire`. -/
structure ClientWire where
  ProtobufTCPWire : ProtobufTCPWire
  deriving DecidableEq, Repr

/-- Go `NewClientWire`. -/
def NewClientWire (maxMsgSize : Int) (_host : String) (_port : Int) (net : Net) :
    (Option ClientWire × Option WireError) × Net :=
  match net.DialTimeout with
  | (none, net1) => ((none, some ⟨ErrKind.NotEstablished, ErrCause.dial⟩), net1)
  | (some conn, net1) =>
    ((some { ProtobufTCPWire := NewProtobufTCPWire maxMsgSize conn }, none), net1)

/-- Go `ClientWire.Send`. -/
def ClientWire.Send (codec : Codec Command Result) (cw : ClientWire) (cmd : Command) :
    Option WireError × ClientWire :=
  let res := cw.ProtobufTCPWire.Send codec.Marshal cmd
  (res.1, { ProtobufTCPWire := res.2 })

/-- Go `ClientWire.Receive`. -/
def ClientWire.Receive (codec : Codec Command Result) (cw : ClientWire) :
    (Result × Option WireError) × ClientWire :=
  let res := cw.ProtobufTCPWire.Receive codec.Unmarshal Result.zero
  (res.1, { ProtobufTCPWire := res.2 })

/-- Go `ClientWire.Close`. -/
def ClientWire.Close (cw : ClientWire) : ClientWire :=
  { ProtobufTCPWire := cw.ProtobufTCPWire.Close }

/-! ## main.go -/

/-- Go `const maxResponseSize = 32 * 1024 * 1024`. -/
def maxResponseSize : Int := 33554432

/-- A Go `chan *wire.Result`: what was published to it, and whether it was closed. -/
structure Chan where
  items : List Result
  closed : Bool
  deriving DecidableEq, Repr

/-- Go `Client` (`mainMu` is not modelled).  A nil pointer is `none`; `mainWire` is never nil
in a client that `NewClient` returned. -/
structure Client where
  id : String
  mainRetrier : Retrier
  mainWire : ClientWire
  watchRetrier : Option Retrier
  watchWire : Option ClientWire
  watchCh : Option Chan
  host : String
  port : Int
  deriving DecidableEq, Repr

/-- The `error` values `NewClient` and `WatchCh` build with `fmt.Errorf`:
"could not connect to dicedb server after %d retries: %w",
"unexpected error when establishing server connection, ...: %w",
"could not complete the handshake: %s",
"Failed to establish watch connection with server: %w". -/
inductive ClientError
  | couldNotConnect (retries : Int) (cause : WireError)
  | unexpected (cause : WireError)
  | handshake (message : Text)
  | watchConnection (cause : WireError)
  deriving DecidableEq, Repr

/-- Go `WithID`. -/
def WithID (id : String) : Client → Client :=
  fun c => { c with id := id }

/-- Go `Client.restoreWire(dst)`: the wire it dials is assigned to the parameter `dst` only,
so neither the client nor the caller's wire changes; the dial is seen by the network. -/
def Client.restoreWire (c : Client) (_dst : ClientWire) (net : Net) : Option WireError × Net :=
  match NewClientWire maxResponseSize c.host c.port net with
  | ((_, some err), net1) => (some err, net1)
  | ((_dst1, none), net1) => (none, net1)

/-- Go `Client.restoreMainWire`. -/
def Client.restoreMainWire (c : Client) (net : Net) : Option WireError × Net :=
  c.restoreWire c.mainWire net

/-- The clock of the world the executor runs in inside `fire`: the wire that `clientWire`
points to, and the network. -/
def fireClock (s : ClientWire × Net) : Int × (ClientWire × Net) :=
  (s.2.Now.1, (s.1, s.2.Now.2))

/-- Go `Client.fire(cmd, clientWire)`.  `clientWire` is the state of the wire the pointer
refers to; the result carries its state after the call, next to the client (whose
`mainRetrier` the executor updated) and the network. -/
def Client.fire (codec : Codec Command Result) (fuel : Nat) (c : Client) (cmd : Command)
    (clientWire : ClientWire) (net : Net) : Option (Result × ClientWire × Client × Net) :=
  match ExecuteVoid fireClock fuel c.mainRetrier [ErrKind.Terminated]
      (fun s => ((s.1.Send codec cmd).1, ((s.1.Send codec cmd).2, s.2)))
      (fun s => ((c.restoreMainWire s.2).1, (s.1, (c.restoreMainWire s.2).2)))
      (clientWire, net) with
  | none => none
  | some res =>
    let c1 := { c with mainRetrier := res.retrier }
    match res.err with
    | some err =>
      let message : Text :=
        match err.Kind with
        | ErrKind.Terminated =>
          { format := "failied to send command, connection terminated: %s",
            cause := some err.Cause }
        | ErrKind.CorruptMessage =>
          { format := "failied to send command, corrupt message: %s", cause := some err.Cause }
        | _ =>
          { format := "failed to send command: unrecognized error, this should be reported to DiceDB maintainers: %s",
            cause := some err.Cause }
      some ({ Status := ResultStatus.Status_ERR, Message := message, Response := [] },
        res.world.1, c1, res.world.2)
    | none =>
      match res.world.1.Receive codec with
      | ((_, some err), cw) =>
        some ({ Status := ResultStatus.Status_ERR,
                Message := { format := "failed to receive response: %s",
                             cause := some err.Cause },
                Response := [] }, cw, c1, res.world.2)
      | ((resp, none), cw) => some (resp, cw, c1, res.world.2)

/-- Go `Client.Fire`: `fire` on the wire `c.mainWire` points to. -/
def Client.Fire (codec : Codec Command Result) (fuel : Nat) (c : Client) (cmd : Command)
    (net : Net) : Option (Result × Client × Net) :=
  match c.fire codec fuel cmd c.mainWire net with
  | none => none
  | some (resp, cw, c1, net1) => some (resp, { c1 with mainWire := cw }, net1)

/-- Go `NewClient`.  `none` when the retry loop does not return within `fuel` attempts. -/
def NewClient (codec : Codec Command Result) (fuel : Nat) (host : String) (port : Int)
    (opts : List (Client → Client)) (net : Net) :
    Option ((Option Client × Option ClientError) × Net) :=
  let mainRetrier := NewRetrier 3 5000000000 net.Now.1
  match ExecuteWithResult (fun n : Net => n.Now) fuel mainRetrier [ErrKind.NotEstablished]
      (fun n => NewClientWire maxResponseSize host port n) noop net.Now.2 with
  | none => none
  | some res =>
    match res.err, res.value with
    | some err, _ =>
      if err.Kind = ErrKind.NotEstablished then
        some ((none, some (ClientError.couldNotConnect res.retrier.maxRetries err)), res.world)
      else
        some ((none, some (ClientError.unexpected err)), res.world)
    | none, none => none
    | none, some clientWire =>
      let client : Client :=
        { id := "", mainRetrier := res.retrier, mainWire := clientWire, watchRetrier := none,
          watchWire := none, watchCh := none, host := host, port := port }
      let client1 := opts.foldl (fun c opt => opt c) client
      let client2 := if client1.id = "" then { client1 with id := res.world.uuid } else client1
      match client2.Fire codec fuel
          { Cmd := "HANDSHAKE", Args := [client2.id, "command"] } res.world with
      | none => none
      | some (resp, client3, net3) =>
        if resp.Status = ResultStatus.Status_ERR then
          some ((none, some (ClientError.handshake resp.Message)), net3)
        else
          some ((some client3, none), net3)

/-- A Go run-time panic that the client code can raise. -/
inductive Panic
  | closeOfClosedChannel
  | sendOnClosedChannel
  | nilDereference
  deriving DecidableEq, Repr

/-- How a Go call that may panic ends: it returns, or it panics. -/
inductive Outcome (α : Type)
  | ok (a : α)
  | panic (p : Panic)
  deriving Repr

/-- Go `make(chan *wire.Result)`. -/
def Chan.make : Chan := { items := [], closed := false }

/-- Go `close(ch)`: closing a closed channel panics. -/
def Chan.close (ch : Chan) : Outcome Chan :=
  if ch.closed then Outcome.panic Panic.closeOfClosedChannel
  else Outcome.ok { ch with closed := true }

/-- Go `ch <- v`, with a consumer ready to take the value: sending on a closed channel
panics. -/
def Chan.send (ch : Chan) (v : Result) : Outcome Chan :=
  if ch.closed then Outcome.panic Panic.sendOnClosedChannel
  else Outcome.ok { ch with items := ch.items ++ [v] }

/-- What Go `Client.WatchCh` returns and starts: whether the queue handle `c.watchCh` was
returned (or nil), the error, and whether `go c.watch()` was launched. -/
structure WatchChResult where
  ch : Bool
  err : Option ClientError
  started : Bool
  deriving DecidableEq, Repr

/-- Go `Client.WatchCh`.  `none` when the call does not return normally (the retry loop of the
handshake runs out of `fuel`). -/
def Client.WatchCh (codec : Codec Command Result) (fuel : Nat) (c : Client) (net : Net) :
    Option (WatchChResult × Client × Net) :=
  match c.watchCh with
  | some _ => some ({ ch := true, err := none, started := false }, c, net)
  | none =>
    let c1 := { c with watchCh := some Chan.make,
                       watchRetrier := some (NewRetrier 5 5000000000 net.Now.1) }
    match NewClientWire maxResponseSize c1.host c1.port net.Now.2 with
    | ((watchWire, some err), net1) =>
      some ({ ch := false, err := some (ClientError.watchConnection err), started := false },
        { c1 with watchWire := watchWire }, net1)
    | ((none, none), _) => none
    | ((some watchWire, none), net1) =>
      let c2 := { c1 with watchWire := some watchWire }
      match c2.fire codec fuel { Cmd := "HANDSHAKE", Args := [c2.id, "watch"] } watchWire
          net1 with
      | none => none
      | some (resp, watchWire1, c3, net2) =>
        let c4 := { c3 with watchWire := some watchWire1 }
        if resp.Status = ResultStatus.Status_ERR then
          some ({ ch := false, err := some (ClientError.handshake resp.Message),
                  started := false }, c4, net2)
        else
          some ({ ch := true, err := none, started := true }, c4, net2)

/-- Go `Client.restoreWatchWire`, with `watchWire` the wire `c.watchWire` points to. -/
def Client.restoreWatchWire (c : Client) (watchWire : ClientWire) (net : Net) :
    Option WireError × Net :=
  c.restoreWire watchWire net

/-- Go `Client.watch`, the body of the background task, run on its own.  `execFuel` is the
fuel of each run of the retry executor, the first argument the number of turns of the outer
loop; `none` when either runs out.  A nil `watchRetrier`, `watchWire` or `watchCh` makes the
task panic. -/
def Client.watch (codec : Codec Command Result) (execFuel : Nat) :
    Nat → Client → Net → Option (Outcome (Client × Net))
  | 0, _, _ => none
  | turns + 1, c, net =>
    match c.watchRetrier, c.watchWire, c.watchCh with
    | some watchRetrier, some watchWire, some watchCh =>
      match ExecuteWithResult fireClock execFuel watchRetrier [ErrKind.Terminated]
          (fun s => ((some (s.1.Receive codec).1.1, (s.1.Receive codec).1.2),
            ((s.1.Receive codec).2, s.2)))
          (fun s => ((c.restoreWatchWire s.1 s.2).1, (s.1, (c.restoreWatchWire s.1 s.2).2)))
          (watchWire, net) with
      | none => none
      | some res =>
        let c1 := { c with watchRetrier := some res.retrier, watchWire := some res.world.1 }
        match res.err with
        | some _ =>
          match watchCh.close with
          | Outcome.panic p => some (Outcome.panic p)
          | Outcome.ok ch1 =>
            some (Outcome.ok ({ c1 with watchCh := some ch1,
                                        watchWire := some res.world.1.Close }, res.world.2))
        | none =>
          match watchCh.send (res.value.getD Result.zero) with
          | Outcome.panic p => some (Outcome.panic p)
          | Outcome.ok ch1 =>
            Client.watch codec execFuel turns { c1 with watchCh := some ch1 } res.world.2
    | _, _, _ => some (Outcome.panic Panic.nilDereference)

/-- Go `Client.Close`: `c.watchWire.Close()` on a nil `watchWire` dereferences nil. -/
def Client.Close (c : Client) : Outcome Client :=
  let c1 := { c with mainWire := c.mainWire.Close }
  match c1.watchCh with
  | none => Outcome.ok c1
  | some watchCh =>
    match c1.watchWire with
    | none => Outcome.panic Panic.nilDereference
    | some watchWire =>
      match watchCh.close with
      | Outcome.panic p => Outcome.panic p
      | Outcome.ok ch1 =>
        Outcome.ok { c1 with watchWire := some watchWire.Close, watchCh := some ch1 }

/-! ## The reference algorithm of the specification (sections 3, 4.3 and 4.4) -/

/-- The specification's `RetryBudget`. -/
structure RetryBudget where
  maxAttempts : Int
  window : Int
  currentFailureCount : Int
  lastFailureTimestamp : Int
  deriving DecidableEq, Repr

/-- The specification's window-reset check: the count is reset when the time window has
elapsed since the last failure. -/
def RetryBudget.windowReset (b : RetryBudget) (now : Int) : RetryBudget :=
  { b with currentFailureCount :=
      if b.window < now - b.lastFailureTimestamp then 0 else b.currentFailureCount }

/-- The specification's `allow()`: reset check, then whether count < maxAttempts. -/
def RetryBudget.allow (b : RetryBudget) (now : Int) : Bool × RetryBudget :=
  (decide ((b.windowReset now).currentFailureCount < b.maxAttempts), b.windowReset now)

/-- The specification's `record_failure()`: reset check, then increment and stamp. -/
def RetryBudget.record_failure (b : RetryBudget) (now : Int) : RetryBudget :=
  { maxAttempts := b.maxAttempts, window := b.window,
    currentFailureCount := (b.windowReset now).currentFailureCount + 1,
    lastFailureTimestamp := now }

/-- The specification's `record_success()`: count to 0 and stamp. -/
def RetryBudget.record_success (b : RetryBudget) (now : Int) : RetryBudget :=
  { maxAttempts := b.maxAttempts, window := b.window, currentFailureCount := 0,
    lastFailureTimestamp := now }

/-- The specification's result sum type `{ok: T} | {err: WireError}`. -/
inductive SpecResult (α : Type)
  | ok (value : Option α)
  | err (e : WireError)

/-- The specification's `execute(budget, retryableKinds, operation, onBeforeRetry)`, written
from its words: call the operation; on success record it and return the value; on failure
record it, and if the kind is retryable and the budget allows, run the recovery step: its
failure is propagated at once, otherwise loop; else return the error. -/
def specExecute {α σ : Type} (clock : σ → Int × σ) (retryableKinds : List ErrKind)
    (operation : σ → (Option α × Option WireError) × σ)
    (onBeforeRetry : σ → Option WireError × σ) :
    Nat → RetryBudget → σ → List Call → Option (SpecResult α × RetryBudget × σ × List Call)
  | 0, _, _, _ => none
  | fuel + 1, budget, s, log =>
    match operation s with
    | ((value, none), s1) =>
      some (SpecResult.ok value, budget.record_success (clock s1).1, (clock s1).2,
        log ++ [Call.op none, Call.Success])
    | ((_, some e), s1) =>
      let budget1 := budget.record_failure (clock s1).1
      let s2 := (clock s1).2
      if e.Kind ∈ retryableKinds then
        match budget1.allow (clock s2).1 with
        | (true, budget2) =>
          match onBeforeRetry (clock s2).2 with
          | (some recoveryErr, s3) =>
            some (SpecResult.err recoveryErr, budget2, s3,
              log ++ [Call.op (some e), Call.Failure, Call.Allow true,
                Call.beforeRetry (some recoveryErr)])
          | (none, s3) =>
            specExecute clock retryableKinds operation onBeforeRetry fuel budget2 s3
              (log ++ [Call.op (some e), Call.Failure, Call.Allow true, Call.beforeRetry none])
        | (false, budget2) =>
          some (SpecResult.err e, budget2, (clock s2).2,
            log ++ [Call.op (some e), Call.Failure, Call.Allow false])
      else
        some (SpecResult.err e, budget1, s2, log ++ [Call.op (some e), Call.Failure])

/-- The budget a `Retrier` stands for. -/
def Retrier.toBudget (r : Retrier) : RetryBudget :=
  { maxAttempts := r.maxRetries, window := r.retryWindow,
    currentFailureCount := r.retryCount, lastFailureTimestamp := r.lastAttempt }

/-- The Go return pair `(value, err)` as the specification's result. -/
def ExecResult.toSpec {α σ : Type} (res : ExecResult α σ) :
    SpecResult α × RetryBudget × σ × List Call :=
  (match res.err with
    | some e => SpecResult.err e
    | none => SpecResult.ok res.value,
   res.retrier.toBudget, res.world, res.calls)

/-! ## Vocabulary of the statements -/

/-- The chunks left of `cs` after the first `n` bytes were taken from them. -/
def dropChunks : Nat → List (List Byte) → List (List Byte)
  | 0, cs => cs
  | _ + 1, [] => []
  | n + 1, c :: cs =>
    if c.length ≤ n + 1 then dropChunks (n + 1 - c.length) cs else c.drop (n + 1) :: cs

/-- The number of bytes the first `k` scripted write responses accept between them. -/
def Conn.offered (c : Conn) (k : Nat) : Nat :=
  ((c.outgoing.take k).map WriteResp.limit).sum

/-- The wire after its reader has moved on to `evs`. -/
def TCPWire.withIncoming (w : TCPWire) (evs : List ReadEvent) : TCPWire :=
  { w with conn := { w.conn with incoming := evs } }

/-- The budget after `Failure()` calls at the clock readings `times`, in order. -/
def Retrier.failures (r : Retrier) (times : List Int) : Retrier :=
  times.foldl Retrier.Failure r

/-- Whether a logged call is a call of the operation. -/
def Call.isOp : Call → Bool
  | Call.op _ => true
  | _ => false

/-- Whether a logged call is a call of the recovery step. -/
def Call.isBeforeRetry : Call → Bool
  | Call.beforeRetry _ => true
  | _ => false

/-- The number of times the operation was invoked. -/
def opCalls (calls : List Call) : Nat := calls.countP Call.isOp

/-- The number of times the recovery step was invoked. -/
def recoveryCalls (calls : List Call) : Nat := calls.countP Call.isBeforeRetry

/-- The error returned by the last invocation of the operation, if there was one. -/
def lastOpErr (calls : List Call) : Option (Option WireError) :=
  calls.foldl (fun acc c => match c with
    | Call.op e => some e
    | _ => acc) none

/-- A codec for the examples: every command is one byte, every payload parses as an OK result. -/
def exampleCodec : Codec Command Result :=
  { Marshal := fun _ => some [1],
    Unmarshal := fun bs =>
      some { Status := ResultStatus.Status_OK, Message := { format := "PONG", cause := none },
             Response := bs } }

/-- A socket on which the server answers with one well-formed frame and accepts every write. -/
def healthyConn : Conn := Conn.fresh [ReadEvent.data [0, 0, 0, 1, 7]] []

/-- A socket that has been severed: every write fails with `io.ErrClosedPipe`. -/
def severedConn : Conn :=
  Conn.fresh [] (List.replicate 4 { limit := 0, err := some GoErr.closedPipe })

/-- A client, as `NewClient` leaves it, whose primary socket is `conn`. -/
def exampleClient (conn : Conn) : Client :=
  { id := "c1", mainRetrier := NewRetrier 3 5000000000 0,
    mainWire := { ProtobufTCPWire := NewProtobufTCPWire maxResponseSize conn },
    watchRetrier := none, watchWire := none, watchCh := none,
    host := "localhost", port := 7379 }

/-- A network whose clock stands still and whose coming dials give `dials`. -/
def exampleNet (dials : List (Option Conn)) : Net :=
  { clock := [], time := 0, dials := dials, dialCalls := 0, uuid := "u1" }

/-- The command of the examples. -/
def ping : Command := { Cmd := "PING", Args := [] }

/-- The message `fire` puts in the ERR-status result for a receive failure. -/
def receiveFailure (e : WireError) : Result :=
  { Status := ResultStatus.Status_ERR,
    Message := { format := "failed to receive response: %s", cause := some e.Cause },
    Response := [] }

/-- The budgets the program can build: `NewRetrier`, then any calls of the three methods. -/
inductive Retrier.Reachable : Retrier → Prop
  | new (maxRetries retryWindow now : Int) : Retrier.Reachable (NewRetrier maxRetries retryWindow now)
  | Allow (r : Retrier) (now : Int) : Retrier.Reachable r → Retrier.Reachable (r.Allow now).2
  | Failure (r : Retrier) (now : Int) : Retrier.Reachable r → Retrier.Reachable (r.Failure now)
  | Success (r : Retrier) (now : Int) : Retrier.Reachable r → Retrier.Reachable (r.Success now)

/-- The channel after `k` consecutive `Close()` calls. -/
def TCPWire.closeTimes (w : TCPWire) : Nat → TCPWire
  | 0 => w
  | k + 1 => (w.closeTimes k).Close

/-- A channel whose socket still holds one unread frame (payload `[7]`) and fails the next
write with `io.ErrClosedPipe`. -/
def halfSeveredWire : TCPWire :=
  NewTCPWire 50 (Conn.fresh [ReadEvent.data [0, 0, 0, 1, 7]]
    [{ limit := 0, err := some GoErr.closedPipe }])

/-- The socket log after `Send` met seven timeouts. -/
def afterSevenTimeouts (w : TCPWire) (rest : List WriteResp) : TCPWire :=
  { w with status := Status.Closed,
           conn := { w.conn with outgoing := rest, writeCalls := w.conn.writeCalls + 7 },
           slept := w.slept ++ [5, 10, 20, 40, 80, 160] }

/-- A network whose clock stands at `time` and whose coming dials give `dials`. -/
def netAt (time : Int) (dials : List (Option Conn)) : Net :=
  { clock := [], time := time, dials := dials, dialCalls := 0, uuid := "u1" }

/-- The client that the `Fire` of C9 leaves behind: its primary wire is Closed and its primary
budget holds 3 failures, the last at time 0. -/
def exhaustedClient : Client :=
  { exampleClient severedConn with
    mainRetrier := { maxRetries := 3, retryWindow := 5000000000, retryCount := 3,
                     lastAttempt := 0 },
    mainWire := ((exampleClient severedConn).mainWire.Send exampleCodec ping).2 }

/-- Run `next` on what `first` returned, unless it panicked. -/
def Outcome.andThen {α β : Type} (first : Outcome α) (next : α → Outcome β) : Outcome β :=
  match first with
  | Outcome.ok a => next a
  | Outcome.panic p => Outcome.panic p

/-- The bytes one event of the incoming stream delivers. -/
def ReadEvent.bytes : ReadEvent → List Byte
  | ReadEvent.data bs => bs
  | ReadEvent.fail _ => []

/-- All the bytes a stream delivers, in order, whatever errors interrupt it. -/
def streamBytes (evs : List ReadEvent) : List Byte :=
  (evs.map ReadEvent.bytes).flatten

/-- A codec whose parser reads every payload as a result with the ERR status. -/
def rejectingCodec : Codec Command Result :=
  { Marshal := fun _ => some [1],
    Unmarshal := fun bs =>
      some { Status := ResultStatus.Status_ERR, Message := { format := "denied", cause := none },
             Response := bs } }

/-- What an observer has seen of a call of `executeWithRetry` after some turns of its `for`
loop: the call has returned `res`, or the loop is at its head again with this budget, this
world and this log of calls. -/
inductive LoopView (α σ : Type)
  | returned (res : ExecResult α σ)
  | looping (retrier : Retrier) (world : σ) (calls : List Call)

/-- What the call has returned, if it has returned. -/
def LoopView.result {α σ : Type} : LoopView α σ → Option (ExecResult α σ)
  | LoopView.returned res => some res
  | LoopView.looping _ _ _ => none

/-- Go `executeWithRetry`, watched for `turns` turns of its `for` loop.  The body is that of
`executeWithRetry`; where that one runs out of fuel, this one tells where the loop stands. -/
def executeWithRetryTurns {α σ : Type} (clock : σ → Int × σ) (retryOn : List ErrKind)
    (beforeRetry : σ → Option WireError × σ) (op : σ → (Option α × Option WireError) × σ) :
    Nat → Retrier → σ → List Call → LoopView α σ
  | 0, r, s, log => LoopView.looping r s log
  | turns + 1, r, s, log =>
    let res := op s
    match res.1.2 with
    | none =>
      let t := clock res.2
      LoopView.returned
        { value := res.1.1, err := none, retrier := r.Success t.1, world := t.2,
          calls := log ++ [Call.op none, Call.Success] }
    | some err =>
      let t := clock res.2
      let r1 := r.Failure t.1
      if shouldRetry err.Kind retryOn then
        let t2 := clock t.2
        let a := r1.Allow t2.1
        if a.1 then
          let b := beforeRetry t2.2
          match b.1 with
          | some bErr =>
            LoopView.returned
              { value := none, err := some bErr, retrier := a.2, world := b.2,
                calls := log ++ [Call.op (some err), Call.Failure, Call.Allow true,
                  Call.beforeRetry (some bErr)] }
          | none =>
            executeWithRetryTurns clock retryOn beforeRetry op turns a.2 b.2
              (log ++ [Call.op (some err), Call.Failure, Call.Allow true, Call.beforeRetry none])
        else
          LoopView.returned
            { value := none, err := some err, retrier := a.2, world := t2.2,
              calls := log ++ [Call.op (some err), Call.Failure, Call.Allow false] }
      else
        LoopView.returned
          { value := none, err := some err, retrier := r1, world := t.2,
            calls := log ++ [Call.op (some err), Call.Failure] }

/-! ## Lemmas: `io.ReadFull` on a stream of chunks -/

theorem dropChunks_join (cs : List (List Byte)) :
    ∀ n, (dropChunks n cs).flatten = cs.flatten.drop n := by
  induction cs with
  | nil => intro n; cases n <;> simp [dropChunks]
  | cons c cs ih =>
    intro n
    cases n with
    | zero => simp [dropChunks]
    | succ n =>
      simp only [dropChunks]
      split
      · rename_i h
        rw [ih, List.flatten_cons, List.drop_append_eq_append_drop]
        simp [List.drop_eq_nil_of_le h]
      · rename_i h
        rw [List.flatten_cons, List.flatten_cons, List.drop_append_eq_append_drop]
        have : n + 1 - c.length = 0 := by omega
        simp [this]

theorem readFull_chunks (rest : List ReadEvent) (cs : List (List Byte)) :
    ∀ (need : Nat) (acc : List Byte), need ≤ cs.flatten.length →
      readFull (cs.map ReadEvent.data ++ rest) need acc =
        ((acc ++ cs.flatten.take need, none), (dropChunks need cs).map ReadEvent.data ++ rest) := by
  induction cs with
  | nil =>
    intro need acc h
    have : need = 0 := by simpa using h
    subst this
    cases rest <;> simp [readFull, dropChunks]
  | cons c cs ih =>
    intro need acc h
    cases need with
    | zero => simp [readFull, dropChunks]
    | succ n =>
      simp only [List.map_cons, List.cons_append, readFull, dropChunks, List.append_eq]
      split
      · rename_i hc
        rw [ih]
        · simp [List.take_append_eq_append_take, List.take_of_length_le hc]
        · simp only [List.flatten_cons, List.length_append] at h; omega
      · rename_i hc
        have : n + 1 - c.length = 0 := by omega
        simp [List.take_append_eq_append_take, this]

theorem getUint32_putUint32 (n : Nat) (h : n < 4294967296) : getUint32 (putUint32 n) = n := by
  simp only [putUint32, getUint32]
  omega

theorem putUint32_length (n : Nat) : (putUint32 n).length = 4 := rfl

theorem readFull_eof (tail rest : List ReadEvent) (htail : tail = [] ∨ tail = ReadEvent.fail GoErr.eof :: rest)
    (cs : List (List Byte)) :
    ∀ (need : Nat) (acc : List Byte), cs.flatten.length < need →
      readFull (cs.map ReadEvent.data ++ tail) need acc =
        ((acc ++ cs.flatten,
          some (if acc ++ cs.flatten = [] then GoErr.eof else GoErr.unexpectedEOF)), tail.tail) := by
  induction cs with
  | nil =>
    intro need acc h
    obtain ⟨n, rfl⟩ : ∃ n, need = n + 1 := ⟨need - 1, by simp at h; omega⟩
    rcases htail with rfl | rfl
    · simp [readFull]
    · by_cases hacc : acc = [] <;> simp [readFull, hacc]
  | cons c cs ih =>
    intro need acc h
    obtain ⟨n, rfl⟩ : ∃ n, need = n + 1 := ⟨need - 1, by omega⟩
    simp only [List.flatten_cons, List.length_append] at h
    have hc : c.length ≤ n + 1 := by omega
    simp only [List.map_cons, List.cons_append, readFull, hc, if_true, List.append_eq]
    rw [ih _ _ (by omega)]
    simp [List.append_assoc]

theorem readPrefix_chunks (w : TCPWire) (cs : List (List Byte)) (rest : List ReadEvent)
    (hin : w.conn.incoming = cs.map ReadEvent.data ++ rest) (hlen : 4 ≤ cs.flatten.length) :
    w.readPrefix = ((getUint32 (cs.flatten.take 4), none),
      w.withIncoming ((dropChunks 4 cs).map ReadEvent.data ++ rest)) := by
  simp [TCPWire.readPrefix, TCPWire.readPrefixLoop, hin, prefixSize,
    readFull_chunks rest cs 4 [] hlen, TCPWire.withIncoming]

theorem overlay_full (bs : List Byte) (n : Nat) (h : bs.length = n) :
    overlay bs (List.replicate n 0) = bs := by
  simp [overlay, h]

theorem readMessage_chunks (w : TCPWire) (size : Nat) (cs : List (List Byte))
    (rest : List ReadEvent)
    (hin : w.conn.incoming = cs.map ReadEvent.data ++ rest) (hlen : size ≤ cs.flatten.length) :
    w.readMessage size = ((cs.flatten.take size, none),
      w.withIncoming ((dropChunks size cs).map ReadEvent.data ++ rest)) := by
  have hov : overlay (cs.flatten.take size) (List.replicate size 0) = cs.flatten.take size :=
    overlay_full _ _ (by rw [List.length_take]; omega)
  simp [TCPWire.readMessage, TCPWire.readMessageLoop, hin,
    readFull_chunks rest cs size [] hlen, TCPWire.withIncoming, hov]

/-! ## Lemmas: the write loop -/

theorem writeLoop_done (buffer : List Byte) (fuel tw pwr br delay : Nat) (w : TCPWire)
    (h : buffer.length ≤ tw) :
    TCPWire.writeLoop buffer (fuel + 1) tw pwr br delay w = some (none, w) := by
  simp [TCPWire.writeLoop, Nat.not_lt.mpr h]

theorem writeLoop_good (buffer : List Byte) :
    ∀ (fuel tw pwr br delay : Nat) (w : TCPWire),
      (∀ r ∈ w.conn.outgoing, r.err = none) →
      (∀ k, k ≤ w.conn.outgoing.length → w.conn.offered k < buffer.length - tw → k + pwr ≤ 10) →
      pwr ≤ 10 → 12 ≤ fuel + pwr →
      ∃ w', TCPWire.writeLoop buffer fuel tw pwr br delay w = some (none, w') ∧
        w'.status = w.status ∧ w'.maxMsgSize = w.maxMsgSize ∧ w'.slept = w.slept ∧
        w'.conn.written = w.conn.written ++ buffer.drop tw ∧
        w'.conn.incoming = w.conn.incoming ∧ w'.conn.closeCalls = w.conn.closeCalls := by
  intro fuel
  induction fuel with
  | zero =>
    intro tw pwr br delay w _ _ hp hf
    omega
  | succ fuel ih =>
    intro tw pwr br delay w herr hk hp0 hf
    by_cases hlt : tw < buffer.length
    · obtain ⟨status, maxMsgSize, ⟨incoming, outgoing, written, writeCalls, closeCalls⟩, slept⟩ := w
      cases outgoing with
      | nil =>
        have hfuel : ∃ f, fuel = f + 1 := ⟨fuel - 1, by omega⟩
        obtain ⟨f, rfl⟩ := hfuel
        have hlen : (buffer.drop tw).length ≠ 0 := by simp; omega
        have hdone : buffer.length ≤ tw + (buffer.length - tw) := by omega
        refine ⟨{ status := status, maxMsgSize := maxMsgSize,
                  conn := { incoming := incoming, outgoing := [],
                            written := written ++ buffer.drop tw,
                            writeCalls := writeCalls + 1, closeCalls := closeCalls },
                  slept := slept }, ?_, ?_⟩
        · rw [TCPWire.writeLoop]
          simp only [hlt, if_true, Conn.Write, List.length_drop]
          simp only [List.length_drop] at hlen
          simp [hlen, writeLoop_done _ _ _ _ _ _ _ hdone]
        · simp
      | cons r rest =>
        have hr : r.err = none := herr r (by simp)
        by_cases hfull : buffer.length - tw ≤ r.limit
        · have hfuel : ∃ f, fuel = f + 1 := ⟨fuel - 1, by omega⟩
          obtain ⟨f, rfl⟩ := hfuel
          have hlen : (buffer.drop tw).length ≠ 0 := by simp; omega
          have hdone : buffer.length ≤ tw + (buffer.length - tw) := by omega
          refine ⟨{ status := status, maxMsgSize := maxMsgSize,
                    conn := { incoming := incoming, outgoing := rest,
                              written := written ++ (buffer.drop tw).take r.limit,
                              writeCalls := writeCalls + 1, closeCalls := closeCalls },
                    slept := slept }, ?_, ?_⟩
          · rw [TCPWire.writeLoop]
            simp only [hlt, if_true, Conn.Write, List.length_drop, hr, Nat.min_eq_right hfull]
            simp only [List.length_drop] at hlen
            simp [hlen, writeLoop_done _ _ _ _ _ _ _ hdone]
          · simp [List.take_of_length_le (show (buffer.drop tw).length ≤ r.limit by simpa using hfull)]
        · have hpart : r.limit < buffer.length - tw := Nat.lt_of_not_le hfull
          have h1 := hk 1 (by simp)
          simp only [Conn.offered, List.take_succ_cons, List.take_zero, List.map_cons, List.map_nil,
            List.sum_cons, List.sum_nil, Nat.add_zero] at h1
          have hp := h1 hpart
          have hnot : ¬ (pwr ≥ maxPartialWriteRetries) := by simp [maxPartialWriteRetries]; omega
          obtain ⟨w', hw', hs⟩ := ih (tw + r.limit) (pwr + 1) br delay
            { status := status, maxMsgSize := maxMsgSize,
              conn := { incoming := incoming, outgoing := rest,
                        written := written ++ (buffer.drop tw).take r.limit,
                        writeCalls := writeCalls + 1, closeCalls := closeCalls },
              slept := slept }
            (fun x hx => herr x (by simp at hx ⊢; exact Or.inr hx))
            (by
              intro k hkl hoff
              have := hk (k + 1) (by simpa using hkl)
              simp only [Conn.offered, List.take_succ_cons, List.map_cons, List.sum_cons] at this hoff
              have := this (by omega)
              omega)
            (by omega) (by omega)
          refine ⟨w', ?_, ?_⟩
          · rw [TCPWire.writeLoop]
            simp only [hlt, if_true, Conn.Write, List.length_drop, hr,
              Nat.min_eq_left (Nat.le_of_lt hpart)]
            simp only [hpart, hnot, decide_True, Bool.or_true, Bool.true_or, if_true, if_false]
            simpa using hw'
          · obtain ⟨a, b, c, d, e, f⟩ := hs
            refine ⟨a, b, c, ?_, e, f⟩
            rw [d]
            simp only [List.append_assoc]
            congr 1
            rw [← List.drop_drop]
            exact List.take_append_drop _ _
    · refine ⟨w, ?_, ?_⟩
      · simp [TCPWire.writeLoop, hlt]
      · simp [List.drop_eq_nil_of_le (Nat.le_of_not_lt hlt)]

/-! ## Lemmas: totality of the write loop, `Send`, `Receive` -/

theorem writeLoop_isSome (buffer : List Byte) :
    ∀ (fuel tw pwr br delay : Nat) (w : TCPWire),
      pwr ≤ 10 → br ≤ 6 → (10 - pwr) + (6 - br) + 2 ≤ fuel →
      (TCPWire.writeLoop buffer fuel tw pwr br delay w).isSome = true := by
  intro fuel
  induction fuel with
  | zero => intro tw pwr br delay w _ _ h; omega
  | succ fuel ih =>
    intro tw pwr br delay w hp hb hf
    rw [TCPWire.writeLoop]
    by_cases hlt : tw < buffer.length
    · simp only [hlt, if_true]
      cases herr : (w.conn.Write (buffer.drop tw)).1.2 with
      | some e =>
        simp only []
        by_cases hsw : e = GoErr.shortWrite
        · simp only [hsw, ne_eq, not_true_eq_false, if_false]
          by_cases hmax : pwr ≥ maxPartialWriteRetries
          · simp [hmax]
          · simp only [hmax, if_false]
            simp only [maxPartialWriteRetries] at hmax
            exact ih _ _ _ _ _ (by omega) hb (by omega)
        · simp only [ne_eq, hsw, not_false_eq_true, if_true]
          by_cases hcp : e = GoErr.closedPipe
          · simp [hcp]
          · simp only [hcp, if_false]
            by_cases htr : e = GoErr.transient
            · simp only [htr, if_true]
              by_cases hbr : br > maxBackoffRetries
              · simp [hbr]
              · simp only [hbr, if_false]
                simp only [maxBackoffRetries] at hbr
                exact ih _ _ _ _ _ hp (by omega) (by omega)
            · simp [htr]
      | none =>
        simp only []
        split
        · by_cases hmax : pwr ≥ maxPartialWriteRetries
          · simp [hmax]
          · simp only [hmax, if_false]
            simp only [maxPartialWriteRetries] at hmax
            exact ih _ _ _ _ _ (by omega) hb (by omega)
        · rename_i hpart
          obtain ⟨f, rfl⟩ : ∃ f, fuel = f + 1 := ⟨fuel - 1, by omega⟩
          have hge : buffer.length ≤ tw + (w.conn.Write (buffer.drop tw)).1.1 := by
            simp only [Bool.or_eq_true, beq_iff_eq, decide_eq_true_eq, List.length_drop,
              not_or, not_lt] at hpart
            omega
          rw [writeLoop_done _ _ _ _ _ _ _ hge]
          rfl
    · simp [hlt]

/-- The write loop always returns within `writeFuel` iterations. -/
theorem writeLoop_total (buffer : List Byte) (w : TCPWire) :
    ∃ res, TCPWire.writeLoop buffer writeFuel 0 0 0 5 w = some res := by
  have h := writeLoop_isSome buffer writeFuel 0 0 0 5 w (by omega) (by omega) (by decide)
  exact Option.isSome_iff_exists.mp h

theorem write_eq (w : TCPWire) (buffer : List Byte) (res : Option WireError × TCPWire)
    (h : TCPWire.writeLoop buffer writeFuel 0 0 0 5 w = some res) : w.write buffer = res := by
  simp [TCPWire.write, h]

theorem Conn.offered_succ_ge (c : Conn) (r : WriteResp) (rest : List WriteResp)
    (h : c.outgoing = r :: rest) (k : Nat) : r.limit ≤ c.offered (k + 1) := by
  simp [Conn.offered, h]

theorem send_good (w : TCPWire) (msg : List Byte) (hopen : w.status = Status.Open)
    (herr : ∀ r ∈ w.conn.outgoing, r.err = none)
    (hk : ∀ k, k ≤ w.conn.outgoing.length → w.conn.offered k < 4 + msg.length → k ≤ 10) :
    ∃ w', w.Send msg = (none, w') ∧
      w'.status = Status.Open ∧ w'.maxMsgSize = w.maxMsgSize ∧ w'.slept = w.slept ∧
      w'.conn.written = w.conn.written ++ (putPrefix msg.length ++ msg) ∧
      w'.conn.incoming = w.conn.incoming ∧ w'.conn.closeCalls = w.conn.closeCalls := by
  have hb : (putPrefix msg.length ++ msg).length = 4 + msg.length := by
    simp [putPrefix, putUint32]; omega
  obtain ⟨w', h1, h2, h3, h4, h5, h6, h7⟩ :=
    writeLoop_good (putPrefix msg.length ++ msg) writeFuel 0 0 0 5 w herr
      (by intro k hk1 hk2; rw [hb] at hk2; have := hk k hk1 (by omega); omega)
      (by omega) (by simp [writeFuel])
  refine ⟨w', ?_, ?_, h3, h4, ?_, h6, h7⟩
  · simp [TCPWire.Send, hopen, write_eq _ _ _ h1]
  · rw [h2, hopen]
  · simpa using h5


theorem uint32_of_fits (m : Int) (h0 : 0 ≤ m) (h1 : m < 4294967296) : (uint32 m : Int) = m := by
  unfold uint32
  rw [Int.emod_eq_of_lt h0 h1]
  exact Int.toNat_of_nonneg h0

theorem uint32_lt (m : Int) : uint32 m < 4294967296 := by
  unfold uint32
  have h1 : m % 4294967296 < 4294967296 := Int.emod_lt_of_pos m (by decide)
  have h0 : 0 ≤ m % 4294967296 := Int.emod_nonneg m (by decide)
  omega

theorem getUint32_lt (bs : List Byte) : getUint32 bs < 4294967296 := by
  unfold getUint32
  split
  · omega
  · decide

theorem receive_frame (w : TCPWire) (N : Nat) (payload extra : List Byte)
    (cs : List (List Byte)) (rest : List ReadEvent)
    (hN : 0 < N) (hmax : (N : Int) ≤ w.maxMsgSize) (hfit : w.maxMsgSize < 4294967296)
    (hlen : payload.length = N)
    (hin : w.conn.incoming = cs.map ReadEvent.data ++ rest)
    (hbytes : cs.flatten = putUint32 N ++ payload ++ extra) :
    w.Receive = ((some payload, none),
      w.withIncoming ((dropChunks N (dropChunks 4 cs)).map ReadEvent.data ++ rest)) := by
  have hN32 : N < 4294967296 := by omega
  have h4 : 4 ≤ cs.flatten.length := by simp [hbytes, putUint32]
  have htake : cs.flatten.take 4 = putUint32 N := by
    rw [hbytes, List.append_assoc, List.take_left' (putUint32_length N)]
  have hu : uint32 w.maxMsgSize = w.maxMsgSize.toNat := by
    have := uint32_of_fits w.maxMsgSize (by omega) hfit
    omega
  have hdrop : (dropChunks 4 cs).flatten = payload ++ extra := by
    rw [dropChunks_join, hbytes, List.append_assoc, List.drop_left' (putUint32_length N)]
  have hsz : ¬ (N > uint32 w.maxMsgSize) := by omega
  have hpos : ¬ (N ≤ 0) := by omega
  have hmsg := readMessage_chunks
    (w.withIncoming ((dropChunks 4 cs).map ReadEvent.data ++ rest)) N (dropChunks 4 cs) rest
    (by simp [TCPWire.withIncoming]) (by rw [hdrop]; simp [hlen])
  rw [hdrop, List.take_left' hlen] at hmsg
  simp only [TCPWire.Receive, readPrefix_chunks w cs rest hin h4, htake,
    getUint32_putUint32 N hN32]
  have hm : (w.withIncoming ((dropChunks 4 cs).map ReadEvent.data ++ rest)).maxMsgSize
      = w.maxMsgSize := rfl
  simp only [hm, hsz, hpos, if_false, hmsg]
  simp [TCPWire.withIncoming]


theorem uint32_le_self (m : Int) (h0 : 0 ≤ m) : (uint32 m : Int) ≤ m := by
  unfold uint32
  omega

theorem TCPWire.Close_status (w : TCPWire) : w.Close.status = Status.Closed := by
  unfold TCPWire.Close
  split <;> simp_all

theorem TCPWire.Close_incoming (w : TCPWire) : w.Close.conn.incoming = w.conn.incoming := by
  unfold TCPWire.Close
  split <;> simp [Conn.Close]

/-! ## Claims C1 to C5: the framed channel -/

/-- C1 (amended). Round trip with a bounded number of partial writes: for every payload `P` with
`0 < len(P) <= maxMsgSize < 2^32`, when `TCPWire.Send(P)` runs on an Open channel whose socket
returns no error and makes at most 10 partial writes before the frame is complete (any `k`
leading writes that together accept fewer than `4 + len(P)` bytes have `k <= 10`), `Send`
returns no error, and `TCPWire.Receive` on a peer channel that reads exactly the bytes written,
in chunks of any sizes, returns exactly `P` with no error. -/
theorem C1_round_trip_bounded_partial_writes (w : TCPWire) (P : List Byte)
    (hopen : w.status = Status.Open) (hpos : 0 < P.length)
    (herr : ∀ r ∈ w.conn.outgoing, r.err = none)
    (hfew : ∀ k, k ≤ w.conn.outgoing.length → w.conn.offered k < 4 + P.length → k ≤ 10) :
    ∃ w' : TCPWire, w.Send P = (none, w') ∧
      ∀ (peer : TCPWire) (cs : List (List Byte)) (rest : List ReadEvent),
        (P.length : Int) ≤ peer.maxMsgSize → peer.maxMsgSize < 4294967296 →
        w'.conn.written = w.conn.written ++ cs.flatten →
        peer.conn.incoming = cs.map ReadEvent.data ++ rest →
        ∃ peer' : TCPWire, peer.Receive = ((some P, none), peer') := by
  obtain ⟨w', h1, _, _, _, h5, _, _⟩ := send_good w P hopen herr hfew
  refine ⟨w', h1, ?_⟩
  intro peer cs rest hmax hfit hw hin
  have hP32 : P.length < 4294967296 := by omega
  have hcs : cs.flatten = putUint32 P.length ++ P ++ [] := by
    rw [h5] at hw
    have := List.append_cancel_left hw
    rw [← this, putPrefix, Nat.mod_eq_of_lt hP32, List.append_nil]
  exact ⟨_, receive_frame peer P.length P [] cs rest hpos hmax hfit rfl hin hcs⟩

/-- C1 (amended) at a concrete input: a 3-byte payload whose frame the socket takes in writes of
1, 2, 1 and 3 bytes, and a peer that reads these 7 bytes in chunks of 2, 3 and 2 bytes. -/
theorem C1_round_trip_bounded_partial_writes_witness :
    ((NewTCPWire 50 (Conn.fresh [] [⟨1, none⟩, ⟨2, none⟩, ⟨1, none⟩])).Send [7, 8, 9]).1 = none ∧
    ((NewTCPWire 50 (Conn.fresh [] [⟨1, none⟩, ⟨2, none⟩, ⟨1, none⟩])).Send
      [7, 8, 9]).2.conn.written = [0, 0, 0, 3, 7, 8, 9] ∧
    ((NewTCPWire 50 (Conn.fresh
      [ReadEvent.data [0, 0], ReadEvent.data [0, 3, 7], ReadEvent.data [8, 9]] [])).Receive).1 =
      (some [7, 8, 9], none) := by
  obtain ⟨w', hs, hpeer⟩ := C1_round_trip_bounded_partial_writes
    (NewTCPWire 50 (Conn.fresh [] [⟨1, none⟩, ⟨2, none⟩, ⟨1, none⟩])) [7, 8, 9] rfl (by decide)
    (by decide) (by
      intro k hk _
      have : k ≤ 3 := hk
      omega)
  have hw' : w' = ((NewTCPWire 50 (Conn.fresh [] [⟨1, none⟩, ⟨2, none⟩, ⟨1, none⟩])).Send
      [7, 8, 9]).2 := by rw [hs]
  obtain ⟨peer', hr⟩ := hpeer
    (NewTCPWire 50 (Conn.fresh
      [ReadEvent.data [0, 0], ReadEvent.data [0, 3, 7], ReadEvent.data [8, 9]] []))
    [[0, 0], [0, 3, 7], [8, 9]] [] (by decide) (by decide) (by rw [hw']; rfl) rfl
  exact ⟨by rw [hs], rfl, by rw [hr]⟩

/-- C1 as stated fails in two ways.  (a) The socket splits the frame over more than 11 writes:
a socket that accepts one byte per write, without error, makes `Send` of an 8-byte payload (a
12-byte frame) give up at the 11th partial write with Terminated and close the channel.
(b) `maxMsgSize` does not fit in 32 bits: with `maxMsgSize = 2^32` the one-byte payload `[7]` is
sent as `00 00 00 01 07`, and the peer, whose bound `uint32(maxMsgSize)` is 0, rejects exactly
these bytes as CorruptMessage. -/
theorem C1_counterexample_partial_writes_and_max_size :
    ((0 < ([1, 2, 3, 4, 5, 6, 7, 8] : List Byte).length ∧
      (([1, 2, 3, 4, 5, 6, 7, 8] : List Byte).length : Int) ≤
        (NewTCPWire 50 (Conn.fresh [] (List.replicate 12 ⟨1, none⟩))).maxMsgSize ∧
      (NewTCPWire 50 (Conn.fresh [] (List.replicate 12 ⟨1, none⟩))).status = Status.Open ∧
      ∀ r ∈ (NewTCPWire 50 (Conn.fresh [] (List.replicate 12 ⟨1, none⟩))).conn.outgoing,
        1 ≤ r.limit ∧ r.err = none) ∧
     ((NewTCPWire 50 (Conn.fresh [] (List.replicate 12 ⟨1, none⟩))).Send
        [1, 2, 3, 4, 5, 6, 7, 8]).1 =
      some ⟨ErrKind.Terminated, ErrCause.maxPartialWrite none⟩ ∧
     ((NewTCPWire 50 (Conn.fresh [] (List.replicate 12 ⟨1, none⟩))).Send
        [1, 2, 3, 4, 5, 6, 7, 8]).2.status = Status.Closed) ∧
    ((([7] : List Byte).length : Int) ≤ (NewTCPWire 4294967296 (Conn.fresh [] [])).maxMsgSize ∧
     ((NewTCPWire 4294967296 (Conn.fresh [] [])).Send [7]).1 = none ∧
     ((NewTCPWire 4294967296 (Conn.fresh [] [])).Send [7]).2.conn.written = [0, 0, 0, 1, 7] ∧
     ((NewTCPWire 4294967296 (Conn.fresh [ReadEvent.data [0, 0, 0, 1, 7]] [])).Receive).1 =
      (none, some ⟨ErrKind.CorruptMessage, ErrCause.tooLarge 1 4294967296⟩)) := by
  decide

/-- C2. `TCPWire.Send` on an Open channel whose socket accepts every write in full returns no
error, and the bytes the socket receives are the 4-byte big-endian encoding of `len(msg)`
followed by `msg`. -/
theorem C2_send_writes_prefix_then_payload (w : TCPWire) (msg : List Byte)
    (hopen : w.status = Status.Open) (hlen : msg.length < 4294967296)
    (hfull : ∀ r ∈ w.conn.outgoing, r.err = none ∧ 4 + msg.length ≤ r.limit) :
    ∃ w', w.Send msg = (none, w') ∧
      w'.conn.written = w.conn.written ++ (putUint32 msg.length ++ msg) ∧
      getUint32 (putUint32 msg.length) = msg.length ∧
      (putUint32 msg.length).length = 4 := by
  obtain ⟨w', h1, _, _, _, h5, _, _⟩ := send_good w msg hopen (fun r hr => (hfull r hr).1)
    (by
      intro k hk1 hk2
      cases k with
      | zero => omega
      | succ k =>
        cases hout : w.conn.outgoing with
        | nil => simp [hout] at hk1
        | cons r rest =>
          have h1 := Conn.offered_succ_ge w.conn r rest hout k
          have h2 := (hfull r (by simp [hout])).2
          omega)
  refine ⟨w', h1, ?_, getUint32_putUint32 _ hlen, rfl⟩
  rw [h5, putPrefix, Nat.mod_eq_of_lt hlen]

/-- C2 at a concrete input: the 10-byte payload of `TestSend`. -/
theorem C2_send_writes_prefix_then_payload_witness :
    ∃ w', (NewTCPWire 50 (Conn.fresh [] [⟨100, none⟩])).Send [0, 1, 2, 3, 4, 5, 6, 7, 8, 9] =
        (none, w') ∧
      w'.conn.written = [] ++ (putUint32 10 ++ [0, 1, 2, 3, 4, 5, 6, 7, 8, 9]) ∧
      getUint32 (putUint32 10) = 10 ∧ (putUint32 10).length = 4 :=
  C2_send_writes_prefix_then_payload (NewTCPWire 50 (Conn.fresh [] [⟨100, none⟩]))
    [0, 1, 2, 3, 4, 5, 6, 7, 8, 9] rfl (by decide) (by decide)

/-- C3 (amended). On a channel with `0 <= maxMsgSize < 2^32`, for every stream that begins with
the 4-byte big-endian encoding of `N`, `0 < N <= maxMsgSize`, followed by `N` payload bytes,
delivered in error-free reads of arbitrary chunk sizes, `TCPWire.Receive` returns exactly the
payload with no error, takes exactly the `4 + N` bytes of the frame from the stream, and leaves
the status (and the socket's `Close` count) as it was. -/
theorem C3_receive_returns_payload (w : TCPWire) (N : Nat) (payload extra : List Byte)
    (cs : List (List Byte)) (rest : List ReadEvent)
    (hopen : w.status = Status.Open)
    (hN : 0 < N) (hmax : (N : Int) ≤ w.maxMsgSize) (hfit : w.maxMsgSize < 4294967296)
    (hlen : payload.length = N)
    (hin : w.conn.incoming = cs.map ReadEvent.data ++ rest)
    (hbytes : cs.flatten = putUint32 N ++ payload ++ extra) :
    ∃ (w' : TCPWire) (cs' : List (List Byte)), w.Receive = ((some payload, none), w') ∧
      w'.status = Status.Open ∧ w'.conn.closeCalls = w.conn.closeCalls ∧
      w'.conn.incoming = cs'.map ReadEvent.data ++ rest ∧ cs'.flatten = extra := by
  refine ⟨_, dropChunks N (dropChunks 4 cs),
    receive_frame w N payload extra cs rest hN hmax hfit hlen hin hbytes, ?_, rfl, rfl, ?_⟩
  · simpa [TCPWire.withIncoming] using hopen
  · rw [dropChunks_join, dropChunks_join, hbytes, List.append_assoc,
      List.drop_left' (putUint32_length N), List.drop_left' hlen]

/-- C3 (amended) at a concrete input: a frame of 3 payload bytes, followed by one more byte,
delivered in chunks that cut through the prefix and the payload. -/
theorem C3_receive_returns_payload_witness :
    ∃ (w' : TCPWire) (cs' : List (List Byte)), (NewTCPWire 50 (Conn.fresh
        [ReadEvent.data [0, 0], ReadEvent.data [0, 3, 7], ReadEvent.data [8, 9, 1]] [])).Receive
          = ((some [7, 8, 9], none), w') ∧
      w'.status = Status.Open ∧ w'.conn.closeCalls = 0 ∧
      w'.conn.incoming = cs'.map ReadEvent.data ++ [] ∧ cs'.flatten = [1] :=
  C3_receive_returns_payload (NewTCPWire 50 (Conn.fresh
      [ReadEvent.data [0, 0], ReadEvent.data [0, 3, 7], ReadEvent.data [8, 9, 1]] []))
    3 [7, 8, 9] [1] [[0, 0], [0, 3, 7], [8, 9, 1]] [] rfl (by decide) (by decide) (by decide)
    rfl rfl rfl

/-- C3 as stated fails when `maxMsgSize` does not fit in 32 bits: with `maxMsgSize = 2^32` the
bound `uint32(maxMsgSize)` is 0, and the frame of the one-byte payload `[7]`, whose length 1 is
within `maxMsgSize`, is rejected as CorruptMessage and the channel is closed. -/
theorem C3_counterexample_max_size_two_pow_32 :
    ((1 : Nat) : Int) ≤ (NewTCPWire 4294967296 (Conn.fresh [ReadEvent.data [0, 0, 0, 1, 7]] [])).maxMsgSize ∧
    ((NewTCPWire 4294967296 (Conn.fresh [ReadEvent.data [0, 0, 0, 1, 7]] [])).Receive).1 =
      (none, some ⟨ErrKind.CorruptMessage, ErrCause.tooLarge 1 4294967296⟩) ∧
    ((NewTCPWire 4294967296 (Conn.fresh [ReadEvent.data [0, 0, 0, 1, 7]] [])).Receive).2.status =
      Status.Closed := by
  decide

/-- C4 (amended). On a channel with `maxMsgSize >= 0`, for every incoming stream whose first 4
bytes, delivered without error, decode to 0 or to more than `maxMsgSize`, `TCPWire.Receive`
returns no payload and an error of kind CorruptMessage, takes only the 4 prefix bytes from the
stream, and leaves the status Closed. -/
theorem C4_receive_rejects_bad_length (w : TCPWire) (cs : List (List Byte))
    (rest : List ReadEvent) (hmax0 : 0 ≤ w.maxMsgSize)
    (hin : w.conn.incoming = cs.map ReadEvent.data ++ rest) (h4 : 4 ≤ cs.flatten.length)
    (hbad : getUint32 (cs.flatten.take 4) = 0 ∨
      w.maxMsgSize < (getUint32 (cs.flatten.take 4) : Int)) :
    ∃ (cause : ErrCause) (w' : TCPWire) (cs' : List (List Byte)),
      w.Receive = ((none, some ⟨ErrKind.CorruptMessage, cause⟩), w') ∧
      w'.status = Status.Closed ∧
      w'.conn.incoming = cs'.map ReadEvent.data ++ rest ∧ cs'.flatten = cs.flatten.drop 4 := by
  have hm : (w.withIncoming ((dropChunks 4 cs).map ReadEvent.data ++ rest)).maxMsgSize
      = w.maxMsgSize := rfl
  by_cases h0 : getUint32 (cs.flatten.take 4) ≤ 0
  · refine ⟨ErrCause.invalidSize (getUint32 (cs.flatten.take 4)),
      (w.withIncoming ((dropChunks 4 cs).map ReadEvent.data ++ rest)).Close,
      dropChunks 4 cs, ?_, TCPWire.Close_status _, ?_, dropChunks_join cs 4⟩
    · simp only [TCPWire.Receive, readPrefix_chunks w cs rest hin h4, h0, if_true]
    · rw [TCPWire.Close_incoming]; rfl
  · have hbig : getUint32 (cs.flatten.take 4) > uint32 w.maxMsgSize := by
      have := uint32_le_self w.maxMsgSize hmax0
      omega
    refine ⟨ErrCause.tooLarge (getUint32 (cs.flatten.take 4)) w.maxMsgSize,
      (w.withIncoming ((dropChunks 4 cs).map ReadEvent.data ++ rest)).Close,
      dropChunks 4 cs, ?_, TCPWire.Close_status _, ?_, dropChunks_join cs 4⟩
    · simp only [TCPWire.Receive, readPrefix_chunks w cs rest hin h4, h0, if_false, hm, hbig,
        if_true]
    · rw [TCPWire.Close_incoming]; rfl

/-- C4 (amended) at a concrete input: a declared length of 51 on a channel with `maxMsgSize = 50`. -/
theorem C4_receive_rejects_bad_length_witness :
    ∃ (cause : ErrCause) (w' : TCPWire) (cs' : List (List Byte)),
      (NewTCPWire 50 (Conn.fresh [ReadEvent.data [0, 0, 0], ReadEvent.data [51, 1, 2]] [])).Receive
        = ((none, some ⟨ErrKind.CorruptMessage, cause⟩), w') ∧
      w'.status = Status.Closed ∧
      w'.conn.incoming = cs'.map ReadEvent.data ++ [] ∧
      cs'.flatten = [[0, 0, 0], [51, 1, 2]].flatten.drop 4 :=
  C4_receive_rejects_bad_length
    (NewTCPWire 50 (Conn.fresh [ReadEvent.data [0, 0, 0], ReadEvent.data [51, 1, 2]] []))
    [[0, 0, 0], [51, 1, 2]] [] (by decide) rfl (by decide) (Or.inr (by decide))

/-- C4 as stated fails for a negative `maxMsgSize`: with `maxMsgSize = -1` the bound
`uint32(maxMsgSize)` is `2^32 - 1`, so the declared length 1, which is greater than
`maxMsgSize`, is accepted: the payload `[7]` is read and returned, and the channel stays Open. -/
theorem C4_counterexample_negative_max_size :
    (NewTCPWire (-1) (Conn.fresh [ReadEvent.data [0, 0, 0, 1, 7]] [])).maxMsgSize <
      (getUint32 [0, 0, 0, 1] : Int) ∧
    ((NewTCPWire (-1) (Conn.fresh [ReadEvent.data [0, 0, 0, 1, 7]] [])).Receive).1 =
      (some [7], none) ∧
    ((NewTCPWire (-1) (Conn.fresh [ReadEvent.data [0, 0, 0, 1, 7]] [])).Receive).2.status =
      Status.Open := by
  decide

/-- C5. When the prefix read of `TCPWire.Receive` meets end-of-stream (the stream is exhausted,
or the socket reports `io.EOF`) with zero bytes consumed, `Receive` returns an error of kind
Empty, the status is unchanged and the socket's `Close` is not invoked; when end-of-stream is
met after 1 to 3 prefix bytes, `Receive` returns Terminated and the status is Closed. -/
theorem C5_prefix_end_of_stream (w : TCPWire) (cs : List (List Byte))
    (tail rest : List ReadEvent)
    (htail : tail = [] ∨ tail = ReadEvent.fail GoErr.eof :: rest)
    (hin : w.conn.incoming = cs.map ReadEvent.data ++ tail) :
    (cs.flatten.length = 0 →
      ∃ w' : TCPWire, w.Receive = ((none, some ⟨ErrKind.Empty, ErrCause.io GoErr.eof⟩), w') ∧
        w'.status = w.status ∧ w'.conn.closeCalls = w.conn.closeCalls) ∧
    (1 ≤ cs.flatten.length → cs.flatten.length ≤ 3 →
      ∃ w' : TCPWire,
        w.Receive = ((none, some ⟨ErrKind.Terminated, ErrCause.io GoErr.unexpectedEOF⟩), w') ∧
        w'.status = Status.Closed) := by
  constructor
  · intro h0
    have hnil : cs.flatten = [] := List.length_eq_zero.mp h0
    refine ⟨w.withIncoming tail.tail, ?_, rfl, rfl⟩
    simp [TCPWire.Receive, TCPWire.readPrefix, TCPWire.readPrefixLoop, hin, prefixSize,
      readFull_eof tail rest htail cs 4 [] (by omega), hnil, TCPWire.withIncoming]
  · intro h1 h3
    have hne : cs.flatten ≠ [] := by
      intro h; rw [h] at h1; simp at h1
    refine ⟨(w.withIncoming tail.tail).Close, ?_, TCPWire.Close_status _⟩
    simp [TCPWire.Receive, TCPWire.readPrefix, TCPWire.readPrefixLoop, hin, prefixSize,
      readFull_eof tail rest htail cs 4 [] (by omega), hne, TCPWire.withIncoming]

/-- C5 at two concrete inputs: an empty stream, and a stream that ends after two prefix bytes. -/
theorem C5_prefix_end_of_stream_witness :
    ((NewTCPWire 50 (Conn.fresh [] [])).Receive).1 =
      (none, some ⟨ErrKind.Empty, ErrCause.io GoErr.eof⟩) ∧
    ((NewTCPWire 50 (Conn.fresh [ReadEvent.data [0], ReadEvent.data [0]] [])).Receive).1 =
      (none, some ⟨ErrKind.Terminated, ErrCause.io GoErr.unexpectedEOF⟩) := by
  obtain ⟨w1, h1, _⟩ :=
    (C5_prefix_end_of_stream (NewTCPWire 50 (Conn.fresh [] [])) [] [] [] (Or.inl rfl) rfl).1 rfl
  obtain ⟨w2, h2, _⟩ :=
    (C5_prefix_end_of_stream
      (NewTCPWire 50 (Conn.fresh [ReadEvent.data [0], ReadEvent.data [0]] []))
      [[0], [0]] [] [] (Or.inl rfl) rfl).2 (by decide) (by decide)
  exact ⟨by rw [h1], by rw [h2]⟩

/-! ## Lemmas: the retry budget and the retry executor -/

theorem shouldRetry_eq_true_iff (kind : ErrKind) (retryOn : List ErrKind) :
    shouldRetry kind retryOn = true ↔ kind ∈ retryOn := by
  induction retryOn with
  | nil => simp [shouldRetry]
  | cons k ks ih =>
    by_cases h : k = kind
    · simp [shouldRetry, h]
    · have h' : ¬ kind = k := fun e => h e.symm
      simp [shouldRetry, h, h', ih]

theorem toBudget_Success (r : Retrier) (now : Int) :
    (r.Success now).toBudget = r.toBudget.record_success now := rfl

theorem toBudget_Failure (r : Retrier) (now : Int) :
    (r.Failure now).toBudget = r.toBudget.record_failure now := by
  unfold Retrier.Failure Retrier.resetIfWindowPassed RetryBudget.record_failure
    RetryBudget.windowReset Retrier.toBudget
  by_cases h : now - r.lastAttempt > r.retryWindow
  · simp [h]
  · simp [h]

theorem toBudget_Allow (r : Retrier) (now : Int) :
    ((r.Allow now).1, (r.Allow now).2.toBudget) = r.toBudget.allow now := by
  unfold Retrier.Allow Retrier.resetIfWindowPassed RetryBudget.allow
    RetryBudget.windowReset Retrier.toBudget
  by_cases h : now - r.lastAttempt > r.retryWindow
  · simp [h]
  · simp [h]

theorem executeWithRetry_refines {α σ : Type} (clock : σ → Int × σ) (retryOn : List ErrKind)
    (beforeRetry : σ → Option WireError × σ) (op : σ → (Option α × Option WireError) × σ) :
    ∀ (fuel : Nat) (r : Retrier) (s : σ) (log : List Call),
      (executeWithRetry clock retryOn beforeRetry op fuel r s log).map ExecResult.toSpec =
        specExecute clock retryOn op beforeRetry fuel r.toBudget s log := by
  intro fuel
  induction fuel with
  | zero => intro r s log; rfl
  | succ fuel ih =>
    intro r s log
    rw [executeWithRetry, specExecute]
    rcases hop : op s with ⟨⟨v, e⟩, s1⟩
    cases e with
    | none => simp [ExecResult.toSpec, toBudget_Success]
    | some err =>
      simp only []
      by_cases hk : err.Kind ∈ retryOn
      · have hs : shouldRetry err.Kind retryOn = true := (shouldRetry_eq_true_iff _ _).mpr hk
        simp only [hs, hk, if_true]
        have hA := toBudget_Allow (r.Failure (clock s1).1) (clock (clock s1).2).1
        rw [toBudget_Failure] at hA
        cases hallow : ((r.Failure (clock s1).1).Allow (clock (clock s1).2).1).1 with
        | true =>
          rw [hallow] at hA
          rw [← hA]
          simp only [if_true]
          rcases hb : beforeRetry (clock (clock s1).2).2 with ⟨be, s3⟩
          cases be with
          | none => simp only []; exact ih _ _ _
          | some bErr => simp [ExecResult.toSpec]
        | false =>
          rw [hallow] at hA
          rw [← hA]
          simp [ExecResult.toSpec]
      · have hs : shouldRetry err.Kind retryOn = false := by
          cases h : shouldRetry err.Kind retryOn with
          | false => rfl
          | true => exact absurd ((shouldRetry_eq_true_iff _ _).mp h) hk
        simp [hs, hk, ExecResult.toSpec, toBudget_Failure]

theorem executeWithRetry_value_or_err {α σ : Type} (clock : σ → Int × σ)
    (retryOn : List ErrKind) (beforeRetry : σ → Option WireError × σ)
    (op : σ → (Option α × Option WireError) × σ) :
    ∀ (fuel : Nat) (r : Retrier) (s : σ) (log : List Call) (res : ExecResult α σ),
      executeWithRetry clock retryOn beforeRetry op fuel r s log = some res →
      res.value = none ∨ res.err = none := by
  intro fuel
  induction fuel with
  | zero => intro r s log res h; simp [executeWithRetry] at h
  | succ fuel ih =>
    intro r s log res h
    rw [executeWithRetry] at h
    rcases hop : op s with ⟨⟨v, e⟩, s1⟩
    rw [hop] at h
    cases e with
    | none =>
      simp only [Option.some.injEq] at h
      subst h
      exact Or.inr rfl
    | some err =>
      simp only [] at h
      split at h
      · split at h
        · split at h
          · simp only [Option.some.injEq] at h
            subst h
            exact Or.inl rfl
          · exact ih _ _ _ _ h
        · simp only [Option.some.injEq] at h
          subst h
          exact Or.inl rfl
      · simp only [Option.some.injEq] at h
        subst h
        exact Or.inl rfl

theorem Retrier.Failure_maxRetries (r : Retrier) (t : Int) :
    (r.Failure t).maxRetries = r.maxRetries := by
  unfold Retrier.Failure Retrier.resetIfWindowPassed; split <;> rfl

theorem Retrier.Failure_retryWindow (r : Retrier) (t : Int) :
    (r.Failure t).retryWindow = r.retryWindow := by
  unfold Retrier.Failure Retrier.resetIfWindowPassed; split <;> rfl

theorem Retrier.Failure_lastAttempt (r : Retrier) (t : Int) :
    (r.Failure t).lastAttempt = t := rfl

theorem Retrier.Failure_count_pos (r : Retrier) (t : Int) (h : 0 ≤ r.retryCount) :
    1 ≤ (r.Failure t).retryCount := by
  unfold Retrier.Failure Retrier.resetIfWindowPassed
  split <;> simp only [] <;> omega

theorem Retrier.Failure_count_within (r : Retrier) (t : Int)
    (h : t - r.lastAttempt ≤ r.retryWindow) :
    (r.Failure t).retryCount = r.retryCount + 1 := by
  unfold Retrier.Failure Retrier.resetIfWindowPassed
  have : ¬ (t - r.lastAttempt > r.retryWindow) := by omega
  simp [this]

theorem Retrier.failures_concat (r : Retrier) (ts : List Int) (t : Int) :
    r.failures (ts ++ [t]) = (r.failures ts).Failure t := by
  simp [Retrier.failures, List.foldl_append]

theorem Retrier.failures_inv (r : Retrier) (hc : 0 ≤ r.retryCount) :
    ∀ ts : List Int, List.Chain' (fun a b => b - a ≤ r.retryWindow) ts →
      (ts.length : Int) ≤ (r.failures ts).retryCount ∧
      (r.failures ts).maxRetries = r.maxRetries ∧
      (r.failures ts).retryWindow = r.retryWindow ∧
      ∀ x ∈ ts.getLast?, (r.failures ts).lastAttempt = x := by
  intro ts
  induction ts using List.reverseRecOn with
  | nil => intro _; simp [Retrier.failures, hc]
  | append_singleton ts t ih =>
    intro hch
    rw [List.chain'_append] at hch
    obtain ⟨h1, _, h3⟩ := hch
    obtain ⟨ic, im, iw, il⟩ := ih h1
    rw [Retrier.failures_concat]
    refine ⟨?_, ?_, ?_, ?_⟩
    · cases hts : ts.getLast? with
      | none =>
        have : ts = [] := List.getLast?_eq_none_iff.mp hts
        subst this
        have := Retrier.Failure_count_pos (r.failures []) t (by simpa [Retrier.failures] using hc)
        simpa using this
      | some x =>
        have hx := il x (by simp [hts])
        have hR := h3 x (by simp [hts]) t (by simp)
        rw [Retrier.Failure_count_within _ _ (by rw [hx, iw]; exact hR)]
        simp only [List.length_append, List.length_singleton, Nat.cast_add, Nat.cast_one]
        omega
    · rw [Retrier.Failure_maxRetries, im]
    · rw [Retrier.Failure_retryWindow, iw]
    · intro x hx
      simp at hx
      rw [Retrier.Failure_lastAttempt, hx]


theorem Retrier.Reachable.count_nonneg {r : Retrier} (h : r.Reachable) : 0 ≤ r.retryCount := by
  induction h with
  | new m w t => simp [NewRetrier]
  | Allow r t _ ih =>
    simp only [Retrier.Allow, Retrier.resetIfWindowPassed]
    split
    · simp
    · exact ih
  | Failure r t _ ih =>
    simp only [Retrier.Failure, Retrier.resetIfWindowPassed]
    split
    · simp
    · show 0 ≤ r.retryCount + 1
      omega
  | Success r t _ _ => simp [Retrier.Success]

theorem Retrier.Allow_within (r : Retrier) (t : Int) (h : t - r.lastAttempt ≤ r.retryWindow) :
    r.Allow t = (decide (r.retryCount < r.maxRetries), r) := by
  have : ¬ (t - r.lastAttempt > r.retryWindow) := by omega
  simp [Retrier.Allow, Retrier.resetIfWindowPassed, this]

theorem Retrier.Failure_within (r : Retrier) (t : Int) (h : t - r.lastAttempt ≤ r.retryWindow) :
    r.Failure t = { r with retryCount := r.retryCount + 1, lastAttempt := t } := by
  have : ¬ (t - r.lastAttempt > r.retryWindow) := by omega
  simp [Retrier.Failure, Retrier.resetIfWindowPassed, this]

theorem executeWithRetry_exhausts {α σ : Type} (clock : σ → Int × σ) (retryOn : List ErrKind)
    (beforeRetry : σ → Option WireError × σ) (op : σ → (Option α × Option WireError) × σ)
    (I : Nat → σ → Prop) (P : WireError → Prop) (t0 W : Int) (n : Nat)
    (hclock : ∀ j s, I j s → I j (clock s).2 ∧ t0 ≤ (clock s).1 ∧ (clock s).1 ≤ t0 + W)
    (hop : ∀ j s, I j s → I (j + 1) (op s).2 ∧
      ∃ e, (op s).1.2 = some e ∧ shouldRetry e.Kind retryOn = true ∧ P e)
    (hrec : ∀ j s, I j s → I j (beforeRetry s).2 ∧ (beforeRetry s).1 = none) :
    ∀ (k fuel j : Nat) (r : Retrier) (s : σ) (log : List Call),
      I j s → r.maxRetries = n → r.retryWindow = W → t0 ≤ r.lastAttempt →
      r.retryCount + ((k + 1 : Nat) : Int) = n → k + 1 ≤ fuel →
      ∃ res : ExecResult α σ,
        executeWithRetry clock retryOn beforeRetry op fuel r s log = some res ∧
        I (j + k + 1) res.world ∧
        opCalls res.calls = opCalls log + (k + 1) ∧
        recoveryCalls res.calls = recoveryCalls log + k ∧
        res.value = none ∧ (∃ e, res.err = some e ∧ P e) ∧
        lastOpErr res.calls = some res.err ∧
        res.retrier.maxRetries = n ∧ res.retrier.retryCount = n := by
  intro k
  induction k with
  | zero =>
    intro fuel j r s log hI hm hw hl hc hf
    obtain ⟨f, rfl⟩ : ∃ f, fuel = f + 1 := ⟨fuel - 1, by omega⟩
    obtain ⟨hI1, e, he, hs, hP⟩ := hop j s hI
    obtain ⟨hI2, hc1, hc2⟩ := hclock _ _ hI1
    obtain ⟨hI3, hc3, hc4⟩ := hclock _ _ hI2
    have hF := Retrier.Failure_within r (clock (op s).2).1 (by omega)
    have hA := Retrier.Allow_within (r.Failure (clock (op s).2).1) (clock (clock (op s).2).2).1
      (by rw [hF]; simp only []; omega)
    have hdeny : ¬ ((r.Failure (clock (op s).2).1).retryCount <
        (r.Failure (clock (op s).2).1).maxRetries) := by
      rw [hF]; simp only []; omega
    refine ⟨{ value := none, err := some e, retrier := r.Failure (clock (op s).2).1,
              world := (clock (clock (op s).2).2).2,
              calls := log ++ [Call.op (some e), Call.Failure, Call.Allow false] }, ?_, ?_⟩
    · rw [executeWithRetry]
      simp only [he, hs, if_true, hA, hdeny, decide_False, Bool.false_eq_true, if_false]
    · refine ⟨hI3, ?_, ?_, rfl, ⟨e, rfl, hP⟩, ?_, ?_, ?_⟩
      · simp [opCalls, List.countP_append, List.countP_cons, Call.isOp]
      · simp [recoveryCalls, List.countP_append, List.countP_cons, Call.isBeforeRetry]
      · simp [lastOpErr, List.foldl_append]
      · rw [hF]; exact hm
      · rw [hF]; simp only []; omega
  | succ k ih =>
    intro fuel j r s log hI hm hw hl hc hf
    obtain ⟨f, rfl⟩ : ∃ f, fuel = f + 1 := ⟨fuel - 1, by omega⟩
    obtain ⟨hI1, e, he, hs, hP⟩ := hop j s hI
    obtain ⟨hI2, hc1, hc2⟩ := hclock _ _ hI1
    obtain ⟨hI3, hc3, hc4⟩ := hclock _ _ hI2
    obtain ⟨hI4, hb⟩ := hrec _ _ hI3
    have hF := Retrier.Failure_within r (clock (op s).2).1 (by omega)
    have hA := Retrier.Allow_within (r.Failure (clock (op s).2).1) (clock (clock (op s).2).2).1
      (by rw [hF]; simp only []; omega)
    have hallow : (r.Failure (clock (op s).2).1).retryCount <
        (r.Failure (clock (op s).2).1).maxRetries := by
      rw [hF]; simp only []; push_cast at hc; omega
    obtain ⟨res, hres, hIr, ho, hrc, hv, hne, hlast, hmr, hcr⟩ :=
      ih f (j + 1) (r.Failure (clock (op s).2).1) (beforeRetry (clock (clock (op s).2).2).2).2
        (log ++ [Call.op (some e), Call.Failure, Call.Allow true, Call.beforeRetry none])
        hI4 (by rw [hF]; exact hm) (by rw [hF]; exact hw) (by rw [hF]; exact hc1)
        (by rw [hF]; simp only []; push_cast at hc ⊢; omega) (by omega)
    refine ⟨res, ?_, ?_⟩
    · rw [executeWithRetry]
      simp only [he, hs, if_true, hA, hallow, decide_True, hb]
      exact hres
    · refine ⟨?_, ?_, ?_, hv, hne, hlast, hmr, hcr⟩
      · have : j + (k + 1) + 1 = j + 1 + k + 1 := by omega
        rw [this]; exact hIr
      · rw [ho]
        simp [opCalls, List.countP_append, List.countP_cons, Call.isOp]
        omega
      · rw [hrc]
        simp [recoveryCalls, List.countP_append, List.countP_cons, Call.isBeforeRetry]
        omega

theorem Net.Now_fst_mem (net : Net) : net.Now.1 ∈ net.time :: net.clock := by
  unfold Net.Now
  cases net.clock <;> simp

theorem Net.Now_snd_sub (net : Net) :
    ∀ t ∈ net.Now.2.time :: net.Now.2.clock, t ∈ net.time :: net.clock := by
  unfold Net.Now
  cases h : net.clock with
  | nil => intro t ht; simpa [h] using ht
  | cons a as =>
    intro t ht
    simp only [List.mem_cons] at ht ⊢
    rcases ht with rfl | ht
    · exact Or.inr (Or.inl rfl)
    · exact Or.inr (Or.inr ht)

theorem Net.Now_snd_dials (net : Net) :
    net.Now.2.dials = net.dials ∧ net.Now.2.dialCalls = net.dialCalls := by
  unfold Net.Now
  cases net.clock <;> simp

theorem executeWithRetry_log {α σ : Type} (clock : σ → Int × σ) (retryOn : List ErrKind)
    (beforeRetry : σ → Option WireError × σ) (op : σ → (Option α × Option WireError) × σ) :
    ∀ (fuel : Nat) (r : Retrier) (s : σ) (log : List Call),
      executeWithRetry clock retryOn beforeRetry op fuel r s log =
        (executeWithRetry clock retryOn beforeRetry op fuel r s []).map
          (fun res => { res with calls := log ++ res.calls }) := by
  intro fuel
  induction fuel with
  | zero => intro r s log; rfl
  | succ fuel ih =>
    intro r s log
    rw [executeWithRetry, executeWithRetry]
    rcases hop : op s with ⟨⟨v, e⟩, s1⟩
    cases e with
    | none => simp
    | some err =>
      simp only []
      split
      · split
        · split
          · simp
          · rw [ih _ _ (log ++ _), ih _ _ ([] ++ _), Option.map_map]
            congr 1
            funext res
            simp [List.append_assoc]
        · simp
      · simp

theorem fire_receive_failure (codec : Codec Command Result) (fuel : Nat) (c : Client)
    (cmd : Command) (cw cw1 cw2 : ClientWire) (net : Net) (rv : Result) (e : WireError)
    (hsend : cw.Send codec cmd = (none, cw1))
    (hrecv : cw1.Receive codec = ((rv, some e), cw2)) :
    c.fire codec (fuel + 1) cmd cw net =
      some (receiveFailure e, cw2, { c with mainRetrier := c.mainRetrier.Success net.Now.1 },
        net.Now.2) := by
  simp only [Client.fire, ExecuteVoid, executeWithRetry, hsend, fireClock, hrecv, receiveFailure]

theorem fire_send_retry (codec : Codec Command Result) (fuel : Nat) (c : Client)
    (cmd : Command) (cw cw1 : ClientWire) (net net1 : Net) (e : WireError)
    (hsend : cw.Send codec cmd = (some e, cw1)) (hkind : e.Kind = ErrKind.Terminated)
    (hallow : ((c.mainRetrier.Failure net.Now.1).Allow net.Now.2.Now.1).1 = true)
    (hrestore : c.restoreMainWire net.Now.2.Now.2 = (none, net1)) :
    c.fire codec (fuel + 1) cmd cw net =
      Client.fire codec fuel
        { c with mainRetrier := ((c.mainRetrier.Failure net.Now.1).Allow net.Now.2.Now.1).2 }
        cmd cw1 net1 := by
  have hlog := executeWithRetry_log (α := Unit) fireClock [ErrKind.Terminated]
    (fun s => ((c.restoreMainWire s.2).1, (s.1, (c.restoreMainWire s.2).2)))
    (fun s => ((none, (s.1.Send codec cmd).1), ((s.1.Send codec cmd).2, s.2))) fuel
    ((c.mainRetrier.Failure net.Now.1).Allow net.Now.2.Now.1).2 (cw1, net1)
    ([] ++ [Call.op (some e), Call.Failure, Call.Allow true, Call.beforeRetry none])
  have hs : shouldRetry e.Kind [ErrKind.Terminated] = true := by rw [hkind]; rfl
  simp only [Client.fire, ExecuteVoid]
  rw [executeWithRetry]
  simp only [hsend, hs, if_true, fireClock, hallow, hrestore]
  rw [hlog]
  have hrm : Client.restoreMainWire
      { c with mainRetrier := ((c.mainRetrier.Failure net.Now.1).Allow net.Now.2.Now.1).2 } =
      c.restoreMainWire := rfl
  rw [hrm]
  cases executeWithRetry fireClock [ErrKind.Terminated]
    (fun s => ((c.restoreMainWire s.2).1, (s.1, (c.restoreMainWire s.2).2)))
    (fun s => ((none, (s.1.Send codec cmd).1), ((s.1.Send codec cmd).2, s.2))) fuel
    ((c.mainRetrier.Failure net.Now.1).Allow net.Now.2.Now.1).2 (cw1, net1) [] with
  | none => rfl
  | some res => rfl

/-! ## Claims C6 to C10: the retry budget, the retry executor, `Fire` -/

/-- C6. The retry executor equals the reference algorithm of the specification: with the same
fuel, budget, world and closures, `executeWithRetry` and `specExecute` make the same calls in
the same order (`op`; then `Success`, or `Failure` followed, for a retryable kind, by `Allow`
and, when allowed, `beforeRetry`), leave the same budget and world, and return the same
result; and `executeWithRetry` never returns a value together with an error. -/
theorem C6_executor_refines_reference_algorithm {α σ : Type} (clock : σ → Int × σ)
    (retryOn : List ErrKind) (beforeRetry : σ → Option WireError × σ)
    (op : σ → (Option α × Option WireError) × σ) (fuel : Nat) (r : Retrier) (s : σ)
    (log : List Call) :
    (executeWithRetry clock retryOn beforeRetry op fuel r s log).map ExecResult.toSpec =
        specExecute clock retryOn op beforeRetry fuel r.toBudget s log ∧
    ∀ res : ExecResult α σ,
      executeWithRetry clock retryOn beforeRetry op fuel r s log = some res →
      res.value = none ∨ res.err = none :=
  ⟨executeWithRetry_refines clock retryOn beforeRetry op fuel r s log,
   executeWithRetry_value_or_err clock retryOn beforeRetry op fuel r s log⟩

/-- C7. (a) For a fresh Retrier with `maxRetries = n >= 1`, an operation that always fails with
a kind in `retryOn`, a recovery step that always succeeds, and a clock whose readings all lie
within one retry window of the Retrier's creation, the executor (given fuel for `n` attempts)
returns after invoking the operation exactly `n` times and the recovery step `n - 1` times,
with no value and the error of the last invocation.  (b) `NewClient` against a port where every
dial fails, under such a clock, performs exactly 3 dials and returns no client and the error
"could not connect to dicedb server after 3 retries: ..." wrapping the NotEstablished cause. -/
theorem C7_exactly_n_attempts_then_last_failure :
    (∀ (α σ : Type) (clock : σ → Int × σ) (retryOn : List ErrKind)
        (beforeRetry : σ → Option WireError × σ) (op : σ → (Option α × Option WireError) × σ)
        (n fuel : Nat) (W t0 : Int) (s : σ),
      1 ≤ n → n ≤ fuel →
      (∀ s, t0 ≤ (clock s).1 ∧ (clock s).1 ≤ t0 + W) →
      (∀ s, ∃ e, (op s).1.2 = some e ∧ e.Kind ∈ retryOn) →
      (∀ s, (beforeRetry s).1 = none) →
      ∃ res : ExecResult α σ,
        executeWithRetry clock retryOn beforeRetry op fuel (NewRetrier n W t0) s [] = some res ∧
        opCalls res.calls = n ∧ recoveryCalls res.calls = n - 1 ∧
        res.value = none ∧ res.err ≠ none ∧ lastOpErr res.calls = some res.err) ∧
    (∀ (codec : Codec Command Result) (host : String) (port : Int)
        (opts : List (Client → Client)) (net : Net) (fuel : Nat),
      3 ≤ fuel →
      (∀ d ∈ net.dials, d = none) →
      (∀ t ∈ net.time :: net.clock, net.Now.1 ≤ t ∧ t ≤ net.Now.1 + 5000000000) →
      ∃ net' : Net,
        NewClient codec fuel host port opts net =
          some ((none, some (ClientError.couldNotConnect 3
            ⟨ErrKind.NotEstablished, ErrCause.dial⟩)), net') ∧
        net'.dialCalls = net.dialCalls + 3) := by
  constructor
  · intro α σ clock retryOn beforeRetry op n fuel W t0 s hn hfuel hclock hop hrec
    obtain ⟨k, rfl⟩ : ∃ k, n = k + 1 := ⟨n - 1, by omega⟩
    obtain ⟨res, h1, _, h3, h4, h5, ⟨e, he, _⟩, h7, _, _⟩ :=
      executeWithRetry_exhausts clock retryOn beforeRetry op (fun _ _ => True) (fun _ => True)
        t0 W (k + 1)
        (fun _ s _ => ⟨trivial, hclock s⟩)
        (fun _ s _ => by
          obtain ⟨e, he, hk⟩ := hop s
          exact ⟨trivial, e, he, (shouldRetry_eq_true_iff _ _).mpr hk, trivial⟩)
        (fun _ s _ => ⟨trivial, hrec s⟩)
        k fuel 0 (NewRetrier ((k + 1 : Nat) : Int) W t0) s [] trivial rfl rfl (le_refl _)
        (by simp [NewRetrier]) hfuel
    refine ⟨res, h1, ?_, ?_, h5, ?_, h7⟩
    · simpa [opCalls] using h3
    · simpa [recoveryCalls] using h4
    · rw [he]; simp
  · intro codec host port opts net fuel hfuel hdials hclk
    obtain ⟨res, h1, ⟨hI1, hI2, hI3⟩, _, _, h5, ⟨e, he, hP⟩, _, h8, _⟩ :=
      executeWithRetry_exhausts (α := ClientWire) (fun n : Net => n.Now)
        [ErrKind.NotEstablished] noop
        (fun n => NewClientWire maxResponseSize host port n)
        (fun j n => (∀ d ∈ n.dials, d = none) ∧
          (∀ t ∈ n.time :: n.clock, net.Now.1 ≤ t ∧ t ≤ net.Now.1 + 5000000000) ∧
          n.dialCalls = net.dialCalls + j)
        (fun e => e = ⟨ErrKind.NotEstablished, ErrCause.dial⟩)
        net.Now.1 5000000000 3
        (by
          intro j s ⟨hd, hc, hn⟩
          obtain ⟨e1, e2⟩ := Net.Now_snd_dials s
          refine ⟨⟨by rw [e1]; exact hd, fun t ht => hc t (Net.Now_snd_sub s t ht),
            by rw [e2]; exact hn⟩, ?_⟩
          exact hc _ (Net.Now_fst_mem s))
        (by
          intro j s ⟨hd, hc, hn⟩
          cases hds : s.dials with
          | nil =>
            simp only [NewClientWire, Net.DialTimeout, hds]
            refine ⟨⟨by simp [hds], hc, by show s.dialCalls + 1 = _; omega⟩, _, rfl, by decide, rfl⟩
          | cons d ds =>
            have hd0 : d = none := hd d (by simp [hds])
            subst hd0
            simp only [NewClientWire, Net.DialTimeout, hds]
            refine ⟨⟨fun x hx => hd x (by simp [hds, hx]), hc, by show s.dialCalls + 1 = _; omega⟩,
              _, rfl, by decide, rfl⟩)
        (fun j s h => ⟨h, rfl⟩)
        2 fuel 0 (NewRetrier 3 5000000000 net.Now.1) net.Now.2 []
        ⟨by rw [(Net.Now_snd_dials net).1]; exact hdials,
         fun t ht => hclk t (Net.Now_snd_sub net t ht),
         by rw [(Net.Now_snd_dials net).2]; rfl⟩
        rfl rfl (le_refl _) (by simp [NewRetrier]) hfuel
    refine ⟨res.world, ?_, by rw [hI3]⟩
    subst hP
    have h8' : res.retrier.maxRetries = 3 := by simpa using h8
    simp only [NewClient, ExecuteWithResult, h1, he, h8', if_true]

/-- C7 at concrete inputs: an operation that counts its invocations and always fails with
Terminated, under a budget of 3; and `NewClient` on a network where every dial fails. -/
theorem C7_exactly_n_attempts_then_last_failure_witness :
    (∃ res : ExecResult Unit Nat,
      executeWithRetry (fun s : Nat => ((0 : Int), s)) [ErrKind.Terminated] noop
          (fun s : Nat => ((none, some ⟨ErrKind.Terminated, ErrCause.closedWire⟩), s + 1))
          5 (NewRetrier ((3 : Nat) : Int) 5000 0) 0 [] = some res ∧
        opCalls res.calls = 3 ∧ recoveryCalls res.calls = 3 - 1 ∧
        res.value = none ∧ res.err ≠ none ∧ lastOpErr res.calls = some res.err) ∧
    (∃ net' : Net,
      NewClient exampleCodec 3 "localhost" 9999 [] (exampleNet []) =
        some ((none, some (ClientError.couldNotConnect 3
          ⟨ErrKind.NotEstablished, ErrCause.dial⟩)), net') ∧
      net'.dialCalls = (exampleNet []).dialCalls + 3) :=
  ⟨C7_exactly_n_attempts_then_last_failure.1 Unit Nat (fun s => (0, s)) [ErrKind.Terminated]
      noop (fun s => ((none, some ⟨ErrKind.Terminated, ErrCause.closedWire⟩), s + 1)) 3 5 5000 0 0
      (by decide) (by decide) (by intro s; constructor <;> simp)
      (by intro s; exact ⟨⟨ErrKind.Terminated, ErrCause.closedWire⟩, rfl, by simp⟩)
      (fun _ => rfl),
   C7_exactly_n_attempts_then_last_failure.2 exampleCodec "localhost" 9999 [] (exampleNet [])
      3 (by decide) (by decide) (by decide)⟩

/-- C8. For every Retrier the program can build, with `maxRetries = N >= 1`: after `N` consecutive `Failure()` calls, each at most `retryWindow` after the
previous one, `Allow()` called at most `retryWindow` after the last failure returns false and
changes nothing; and `Allow()` called more than `retryWindow` after the last failure returns
true and leaves the failure count 0. -/
theorem C8_budget_denies_after_n_failures_allows_after_window (r : Retrier)
    (ts : List Int) (tN tA tB : Int)
    (hr : r.Reachable) (hN : 1 ≤ r.maxRetries)
    (hlen : ((ts ++ [tN]).length : Int) = r.maxRetries)
    (hspaced : List.Chain' (fun a b => b - a ≤ r.retryWindow) (ts ++ [tN]))
    (hA : tA - tN ≤ r.retryWindow) (hB : r.retryWindow < tB - tN) :
    ((r.failures (ts ++ [tN])).Allow tA).1 = false ∧
    ((r.failures (ts ++ [tN])).Allow tA).2 = r.failures (ts ++ [tN]) ∧
    ((r.failures (ts ++ [tN])).Allow tB).1 = true ∧
    ((r.failures (ts ++ [tN])).Allow tB).2.retryCount = 0 := by
  obtain ⟨ic, im, iw, il⟩ := Retrier.failures_inv r hr.count_nonneg (ts ++ [tN]) hspaced
  have hl : (r.failures (ts ++ [tN])).lastAttempt = tN := il tN (by simp)
  have hnoreset : ¬ (tA - (r.failures (ts ++ [tN])).lastAttempt >
      (r.failures (ts ++ [tN])).retryWindow) := by rw [hl, iw]; omega
  have hreset : tB - (r.failures (ts ++ [tN])).lastAttempt >
      (r.failures (ts ++ [tN])).retryWindow := by rw [hl, iw]; omega
  refine ⟨?_, ?_, ?_, ?_⟩
  · simp only [Retrier.Allow, Retrier.resetIfWindowPassed, hnoreset, if_false, im,
      decide_eq_false_iff_not]
    omega
  · simp only [Retrier.Allow, Retrier.resetIfWindowPassed, hnoreset, if_false]
  · simp only [Retrier.Allow, Retrier.resetIfWindowPassed, hreset, if_true, im,
      decide_eq_true_eq]
    omega
  · simp only [Retrier.Allow, Retrier.resetIfWindowPassed, hreset, if_true]

/-- C8 at a concrete input: a budget of 3 with a window of 5000, failures at 100, 200 and 300. -/
theorem C8_budget_denies_after_n_failures_allows_after_window_witness :
    (((NewRetrier 3 5000 0).failures ([100, 200] ++ [300])).Allow 5300).1 = false ∧
    (((NewRetrier 3 5000 0).failures ([100, 200] ++ [300])).Allow 5300).2 =
      (NewRetrier 3 5000 0).failures ([100, 200] ++ [300]) ∧
    (((NewRetrier 3 5000 0).failures ([100, 200] ++ [300])).Allow 5301).1 = true ∧
    (((NewRetrier 3 5000 0).failures ([100, 200] ++ [300])).Allow 5301).2.retryCount = 0 :=
  C8_budget_denies_after_n_failures_allows_after_window (NewRetrier 3 5000 0) [100, 200] 300
    5300 5301 (Retrier.Reachable.new 3 5000 0) (by decide) (by decide) (by simp [NewRetrier]) (by decide) (by decide)

/-- C9 at the failing input.  The primary socket is severed (every write fails with
`io.ErrClosedPipe`) and three healthy sockets are ready to be dialed.  `Fire` dials twice,
installs neither transport (the second and third `Send` meet the old, Closed wire and write
nothing), exhausts the budget and returns an ERR-status result "connection terminated", although
the reconnect step succeeded each time.  When no dial succeeds, the ERR-status result carries
the "unrecognized error" message, not a termination message. -/
theorem C9_fire_on_severed_socket_never_uses_new_transport :
    ((exampleClient severedConn).Fire exampleCodec 10 ping
        (exampleNet [some healthyConn, some healthyConn, some healthyConn])).map
      (fun r => (r.1.Status, r.1.Message, r.2.2.dialCalls, r.2.1.mainRetrier.retryCount,
        r.2.1.mainWire.ProtobufTCPWire.tcpWire.status,
        r.2.1.mainWire.ProtobufTCPWire.tcpWire.conn.writeCalls,
        r.2.1.mainWire.ProtobufTCPWire.tcpWire.conn.incoming)) =
      some (ResultStatus.Status_ERR,
        { format := "failied to send command, connection terminated: %s",
          cause := some ErrCause.closedWire },
        2, 3, Status.Closed, 1, []) ∧
    ((exampleClient severedConn).Fire exampleCodec 10 ping (exampleNet [])).map
      (fun r => (r.1.Status, r.1.Message, r.2.2.dialCalls)) =
      some (ResultStatus.Status_ERR,
        { format := "failed to send command: unrecognized error, this should be reported to DiceDB maintainers: %s",
          cause := some ErrCause.dial },
        1) := by
  exact ⟨rfl, rfl⟩

/-- C10 (amended). `Client.Fire` runs only `send` inside the retry executor.  (a) When the send
succeeds and the receive step fails, with any kind, `Fire` returns at once the ERR-status
result "failed to receive response: ...": the budget has only recorded the send's success, no
dial is made and nothing is sent again.  (b) When the send fails with kind Terminated, the
budget allows another attempt and the reconnect step succeeds, `fire` goes on as a `fire` with
one attempt less, on the wire the failed send left behind and the network after the dial. -/
theorem C10_fire_retries_send_only :
    (∀ (codec : Codec Command Result) (fuel : Nat) (c : Client) (cmd : Command) (net : Net)
        (cw1 cw2 : ClientWire) (rv : Result) (e : WireError),
      c.mainWire.Send codec cmd = (none, cw1) →
      cw1.Receive codec = ((rv, some e), cw2) →
      c.Fire codec (fuel + 1) cmd net =
          some (receiveFailure e,
            { c with mainRetrier := c.mainRetrier.Success net.Now.1, mainWire := cw2 },
            net.Now.2) ∧
        net.Now.2.dials = net.dials ∧ net.Now.2.dialCalls = net.dialCalls) ∧
    (∀ (codec : Codec Command Result) (fuel : Nat) (c : Client) (cmd : Command)
        (net net1 : Net) (cw1 : ClientWire) (e : WireError),
      c.mainWire.Send codec cmd = (some e, cw1) → e.Kind = ErrKind.Terminated →
      ((c.mainRetrier.Failure net.Now.1).Allow net.Now.2.Now.1).1 = true →
      c.restoreMainWire net.Now.2.Now.2 = (none, net1) →
      c.fire codec (fuel + 1) cmd c.mainWire net =
        Client.fire codec fuel
          { c with mainRetrier := ((c.mainRetrier.Failure net.Now.1).Allow net.Now.2.Now.1).2 }
          cmd cw1 net1) := by
  constructor
  · intro codec fuel c cmd net cw1 cw2 rv e hsend hrecv
    refine ⟨?_, Net.Now_snd_dials net⟩
    simp only [Client.Fire, fire_receive_failure codec fuel c cmd c.mainWire cw1 cw2 net rv e
      hsend hrecv]
  · intro codec fuel c cmd net net1 cw1 e hsend hkind hallow hrestore
    exact fire_send_retry codec fuel c cmd c.mainWire cw1 net net1 e hsend hkind hallow hrestore

/-- C10 (amended) at concrete inputs: a socket whose stream ends inside the length prefix, and a
severed socket with one healthy socket to dial. -/
theorem C10_fire_retries_send_only_witness :
    ((exampleClient (Conn.fresh [ReadEvent.data [0, 0]] [])).Fire exampleCodec 1 ping
        (exampleNet [some healthyConn])).map (fun r => (r.1, r.2.2.dialCalls)) =
      some (receiveFailure ⟨ErrKind.Terminated, ErrCause.io GoErr.unexpectedEOF⟩, 0) ∧
    (exampleClient severedConn).fire exampleCodec 3 ping (exampleClient severedConn).mainWire
        (exampleNet [some healthyConn]) =
      Client.fire exampleCodec 2
        { exampleClient severedConn with
          mainRetrier := (((exampleClient severedConn).mainRetrier.Failure 0).Allow 0).2 }
        ping ((exampleClient severedConn).mainWire.Send exampleCodec ping).2
        (exampleNet [some healthyConn]).Now.2.Now.2.DialTimeout.2 := by
  refine ⟨?_, ?_⟩
  · rw [(C10_fire_retries_send_only.1 exampleCodec 0
      (exampleClient (Conn.fresh [ReadEvent.data [0, 0]] [])) ping (exampleNet [some healthyConn])
      _ _ _ _ rfl rfl).1]
    rfl
  · exact C10_fire_retries_send_only.2 exampleCodec 2 (exampleClient severedConn) ping
      (exampleNet [some healthyConn]) _ _ _ rfl rfl rfl rfl

/-- C10 as stated fails: the send succeeds, the receive step fails with kind Terminated (the
stream ends inside the length prefix) and the fresh budget would allow another attempt (three
healthy sockets could be dialed), yet `Fire` returns the ERR-status result of the receive
failure: no dial is made, the command was written once, and the budget holds no failure. -/
theorem C10_counterexample_receive_failure_not_retried :
    (((exampleClient (Conn.fresh [ReadEvent.data [0, 0]] [])).mainWire.Send exampleCodec
        ping).2.Receive exampleCodec).1.2 =
      some ⟨ErrKind.Terminated, ErrCause.io GoErr.unexpectedEOF⟩ ∧
    (((exampleClient (Conn.fresh [ReadEvent.data [0, 0]] [])).mainRetrier.Failure 0).Allow 0).1
      = true ∧
    ((exampleClient (Conn.fresh [ReadEvent.data [0, 0]] [])).Fire exampleCodec 10 ping
        (exampleNet [some healthyConn, some healthyConn, some healthyConn])).map
      (fun r => (r.1, r.2.2.dialCalls, r.2.1.mainRetrier.retryCount,
        r.2.1.mainWire.ProtobufTCPWire.tcpWire.conn.written)) =
      some (receiveFailure ⟨ErrKind.Terminated, ErrCause.io GoErr.unexpectedEOF⟩, 0, 0,
        [0, 0, 0, 1, 1]) :=
  ⟨rfl, rfl, rfl⟩

/-! ## Lemmas: status, payload read failures, budgets that deny or never fill -/

theorem TCPWire.Close_of_closed (w : TCPWire) (h : w.status = Status.Closed) : w.Close = w := by
  simp [TCPWire.Close, h]

theorem TCPWire.Close_of_open (w : TCPWire) (h : w.status = Status.Open) :
    w.Close = { w with status := Status.Closed, conn := w.conn.Close } := by
  simp [TCPWire.Close, h]

theorem TCPWire.closeTimes_succ_of_open (w : TCPWire) (h : w.status = Status.Open) :
    ∀ k, w.closeTimes (k + 1) = { w with status := Status.Closed, conn := w.conn.Close } := by
  intro k
  induction k with
  | zero => simp [TCPWire.closeTimes, TCPWire.Close_of_open w h]
  | succ k ih =>
    rw [TCPWire.closeTimes, ih]
    exact TCPWire.Close_of_closed _ rfl

theorem readPrefixLoop_status :
    ∀ (k delay : Nat) (lastErr : Option GoErr) (w : TCPWire),
      (TCPWire.readPrefixLoop k delay lastErr w).2.status = w.status := by
  intro k
  induction k with
  | zero => intro _ _ _; rfl
  | succ k ih =>
    intro delay lastErr w
    rw [TCPWire.readPrefixLoop]
    simp only []
    split
    · rfl
    · split
      · rw [ih]
      · rfl

theorem readMessageLoop_status (size : Nat) :
    ∀ (k delay : Nat) (lastErr : Option GoErr) (buffer : List Byte) (w : TCPWire),
      (TCPWire.readMessageLoop size k delay lastErr buffer w).2.status = w.status := by
  intro k
  induction k with
  | zero => intro _ _ _ _; rfl
  | succ k ih =>
    intro delay lastErr buffer w
    rw [TCPWire.readMessageLoop]
    simp only []
    split
    · rfl
    · split
      · rw [ih]
      · rfl

theorem readPrefix_status_closed (w : TCPWire) (h : w.status = Status.Closed) :
    (w.readPrefix).2.status = Status.Closed := by
  have hl := readPrefixLoop_status 5 5 none w
  unfold TCPWire.readPrefix
  split
  · rename_i heq
    rw [heq] at hl
    simpa [h] using hl
  · rename_i heq
    rw [heq] at hl
    simp only [] at hl
    split
    · simpa [h] using hl
    · split
      · exact TCPWire.Close_status _
      · split
        · exact TCPWire.Close_status _
        · split <;> exact TCPWire.Close_status _

theorem readMessage_status_closed (w : TCPWire) (size : Nat) (h : w.status = Status.Closed) :
    (w.readMessage size).2.status = Status.Closed := by
  have hl := readMessageLoop_status size 5 5 none (List.replicate size 0) w
  unfold TCPWire.readMessage
  split
  · rename_i heq
    rw [heq] at hl
    simpa [h] using hl
  · split <;> [rfl; skip]
    split <;> [rfl; skip]
    split <;> [rfl; skip]
    split <;> rfl

theorem Receive_status_closed (w : TCPWire) (h : w.status = Status.Closed) :
    (w.Receive).2.status = Status.Closed := by
  have hp := readPrefix_status_closed w h
  unfold TCPWire.Receive
  split
  · rename_i heq
    rw [heq] at hp
    exact hp
  · rename_i heq
    rw [heq] at hp
    simp only [] at hp
    split
    · exact TCPWire.Close_status _
    · split
      · exact TCPWire.Close_status _
      · rename_i sz w1 _ _
        have hm := readMessage_status_closed w1 sz hp
        split
        · rename_i heq2
          rw [heq2] at hm
          exact hm
        · rename_i heq2
          rw [heq2] at hm
          exact hm

theorem write_seven_timeouts (w : TCPWire) (buffer : List Byte) (rest : List WriteResp)
    (hlen : 0 < buffer.length)
    (hout : w.conn.outgoing =
      List.replicate 7 { limit := 0, err := some GoErr.transient } ++ rest) :
    w.write buffer = (some ⟨ErrKind.Terminated, ErrCause.maxBackoff GoErr.transient⟩,
      { w with status := Status.Closed,
               conn := { w.conn with outgoing := rest, writeCalls := w.conn.writeCalls + 7 },
               slept := w.slept ++ [5, 10, 20, 40, 80, 160] }) := by
  obtain ⟨status, maxMsgSize, ⟨incoming, outgoing, written, writeCalls, closeCalls⟩, slept⟩ := w
  simp only at hout
  subst hout
  have hne : buffer ≠ [] := List.length_pos.mp hlen
  simp [TCPWire.write, writeFuel, TCPWire.writeLoop, Conn.Write, hlen, hne,
    List.replicate, maxBackoffRetries]

theorem readFull_fail (e : GoErr) (rest : List ReadEvent) (cs : List (List Byte)) :
    ∀ (need : Nat) (acc : List Byte), cs.flatten.length < need →
      readFull (cs.map ReadEvent.data ++ ReadEvent.fail e :: rest) need acc =
        ((acc ++ cs.flatten,
          some (if e = GoErr.eof ∧ acc ++ cs.flatten ≠ [] then GoErr.unexpectedEOF else e)),
          rest) := by
  induction cs with
  | nil =>
    intro need acc h
    obtain ⟨n, rfl⟩ : ∃ n, need = n + 1 := ⟨need - 1, by simp at h; omega⟩
    simp [readFull]
  | cons c cs ih =>
    intro need acc h
    obtain ⟨n, rfl⟩ : ∃ n, need = n + 1 := ⟨need - 1, by omega⟩
    simp only [List.flatten_cons, List.length_append] at h
    have hc : c.length ≤ n + 1 := by omega
    simp only [List.map_cons, List.cons_append, readFull, hc, if_true, List.append_eq]
    rw [ih _ _ (by omega)]
    simp [List.append_assoc]

theorem readFull_eofs (need : Nat) (hneed : 0 < need) (j : Nat) :
    ∃ j', readFull (List.replicate j (ReadEvent.fail GoErr.eof)) need [] =
      (([], some GoErr.eof), List.replicate j' (ReadEvent.fail GoErr.eof)) := by
  obtain ⟨n, rfl⟩ : ∃ n, need = n + 1 := ⟨need - 1, by omega⟩
  cases j with
  | zero => exact ⟨0, by simp [readFull]⟩
  | succ j => exact ⟨j, by simp [readFull, List.replicate]⟩

theorem readMessageLoop_eofs (size : Nat) (hsize : 0 < size) :
    ∀ (k j delay : Nat) (lastErr : Option GoErr) (buffer : List Byte) (w : TCPWire),
      w.conn.incoming = List.replicate j (ReadEvent.fail GoErr.eof) →
      ∃ (buffer' : List Byte) (w' : TCPWire),
        TCPWire.readMessageLoop size (k + 1) delay lastErr buffer w =
          ((none, some GoErr.eof, buffer'), w') ∧
        w'.status = w.status ∧ w'.conn.closeCalls = w.conn.closeCalls := by
  intro k
  induction k with
  | zero =>
    intro j delay lastErr buffer w hin
    obtain ⟨j', hj⟩ := readFull_eofs size hsize j
    refine ⟨overlay [] buffer,
      { status := w.status, maxMsgSize := w.maxMsgSize,
        conn := { w.conn with incoming := List.replicate j' (ReadEvent.fail GoErr.eof) },
        slept := w.slept ++ [delay] }, ?_, ?_⟩
    · rw [TCPWire.readMessageLoop]
      simp only [hin, hj, or_true, if_true, TCPWire.readMessageLoop]
    · exact ⟨rfl, rfl⟩
  | succ k ih =>
    intro j delay lastErr buffer w hin
    obtain ⟨j', hj⟩ := readFull_eofs size hsize j
    rw [TCPWire.readMessageLoop]
    simp only [hin, hj, or_true, if_true]
    obtain ⟨b', w', h1, h2, h3⟩ := ih j' (delay * 2) (some GoErr.eof) (overlay [] buffer)
      { status := w.status, maxMsgSize := w.maxMsgSize,
        conn := { w.conn with incoming := List.replicate j' (ReadEvent.fail GoErr.eof) },
        slept := w.slept ++ [delay] } rfl
    exact ⟨b', w', h1, h2, h3⟩

theorem receive_after_prefix (w : TCPWire) (N : Nat) (got : List Byte)
    (cs : List (List Byte)) (tail : List ReadEvent)
    (hN : 0 < N) (hread : N ≤ uint32 w.maxMsgSize)
    (hin : w.conn.incoming = cs.map ReadEvent.data ++ tail)
    (hbytes : cs.flatten = putUint32 N ++ got) :
    (dropChunks 4 cs).flatten = got ∧
    w.Receive =
      (match (w.withIncoming ((dropChunks 4 cs).map ReadEvent.data ++ tail)).readMessage N with
        | ((_, some err), w2) => ((none, some err), w2)
        | ((buffer, none), w2) => ((some buffer, none), w2)) := by
  have hN32 : N < 4294967296 := lt_of_le_of_lt hread (uint32_lt _)
  have h4 : 4 ≤ cs.flatten.length := by simp [hbytes, putUint32]
  have htake : cs.flatten.take 4 = putUint32 N := by
    rw [hbytes, List.take_left' (putUint32_length N)]
  have hdrop : (dropChunks 4 cs).flatten = got := by
    rw [dropChunks_join, hbytes, List.drop_left' (putUint32_length N)]
  have hsz : ¬ (N > uint32 w.maxMsgSize) := by omega
  have hpos : ¬ (N ≤ 0) := by omega
  have hm : (w.withIncoming ((dropChunks 4 cs).map ReadEvent.data ++ tail)).maxMsgSize
      = w.maxMsgSize := rfl
  refine ⟨hdrop, ?_⟩
  simp only [TCPWire.Receive, readPrefix_chunks w cs tail hin h4, htake,
    getUint32_putUint32 N hN32, hm, hsz, hpos, if_false]

theorem readMessage_end_of_stream_at_start (w : TCPWire) (N j : Nat) (cs : List (List Byte))
    (hN : 0 < N) (hnil : cs.flatten = [])
    (hin : w.conn.incoming =
      cs.map ReadEvent.data ++ List.replicate j (ReadEvent.fail GoErr.eof)) :
    ∃ (buffer : List Byte) (w' : TCPWire),
      w.readMessage N =
        ((buffer, some ⟨ErrKind.CorruptMessage, ErrCause.io GoErr.eof⟩), w') ∧
      w'.status = Status.Closed ∧ w'.conn.closeCalls = w.conn.closeCalls := by
  have hfirst : ∃ j', readFull w.conn.incoming N [] =
      (([], some GoErr.eof), List.replicate j' (ReadEvent.fail GoErr.eof)) := by
    rw [hin]
    cases j with
    | zero =>
      refine ⟨0, ?_⟩
      have := readFull_eof [] [] (Or.inl rfl) cs N [] (by rw [hnil]; exact hN)
      simpa [hnil] using this
    | succ j =>
      refine ⟨j, ?_⟩
      have := readFull_fail GoErr.eof (List.replicate j (ReadEvent.fail GoErr.eof)) cs N []
        (by rw [hnil]; exact hN)
      simpa [hnil, List.replicate] using this
  obtain ⟨j', hj⟩ := hfirst
  obtain ⟨b', w', h1, h2, h3⟩ := readMessageLoop_eofs N hN 3 j' (5 * 2) (some GoErr.eof)
    (overlay [] (List.replicate N 0))
    { status := w.status, maxMsgSize := w.maxMsgSize,
      conn := { w.conn with incoming := List.replicate j' (ReadEvent.fail GoErr.eof) },
      slept := w.slept ++ [5] } rfl
  refine ⟨b', { w' with status := Status.Closed }, ?_, rfl, h3⟩
  unfold TCPWire.readMessage
  rw [TCPWire.readMessageLoop]
  simp only [hj, or_true, if_true, h1]

theorem readMessage_fails_with (w : TCPWire) (N : Nat) (got : List Byte) (e : GoErr)
    (evs : List ReadEvent)
    (hread : readFull w.conn.incoming N [] = ((got, some e), evs))
    (he1 : e ≠ GoErr.eof) (he2 : e ≠ GoErr.transient) :
    ∃ (buffer : List Byte) (w' : TCPWire),
      w.readMessage N = ((buffer, some ⟨ErrKind.Terminated, ErrCause.io e⟩), w') ∧
      w'.status = Status.Closed ∧ w'.conn.closeCalls = w.conn.closeCalls := by
  refine ⟨overlay got (List.replicate N 0),
    { status := Status.Closed, maxMsgSize := w.maxMsgSize,
      conn := { w.conn with incoming := evs }, slept := w.slept }, ?_, rfl, rfl⟩
  unfold TCPWire.readMessage
  rw [TCPWire.readMessageLoop]
  simp only [hread, he1, he2, or_self, if_false]
  cases e <;> simp at he1 he2 ⊢

theorem Retrier.Reachable.Allow_false {r : Retrier} (h : r.Reachable) (hm : r.maxRetries ≤ 0)
    (now : Int) : (r.Allow now).1 = false := by
  have hc := h.count_nonneg
  simp only [Retrier.Allow, Retrier.resetIfWindowPassed]
  split
  · simp only [decide_eq_false_iff_not]; omega
  · simp only [decide_eq_false_iff_not]; omega

theorem executeWithRetry_denied {α σ : Type} (clock : σ → Int × σ) (retryOn : List ErrKind)
    (beforeRetry : σ → Option WireError × σ) (op : σ → (Option α × Option WireError) × σ)
    (fuel : Nat) (r : Retrier) (s : σ) (hr : r.Reachable) (hm : r.maxRetries ≤ 0) :
    ∃ res : ExecResult α σ,
      executeWithRetry clock retryOn beforeRetry op (fuel + 1) r s [] = some res ∧
      opCalls res.calls = 1 ∧ recoveryCalls res.calls = 0 ∧ res.err = (op s).1.2 := by
  rw [executeWithRetry]
  rcases hop : op s with ⟨⟨v, e⟩, s1⟩
  cases e with
  | none => exact ⟨_, rfl, rfl, rfl, rfl⟩
  | some err =>
    simp only []
    have hF : (r.Failure (clock s1).1).Reachable := Retrier.Reachable.Failure r _ hr
    have hFm : (r.Failure (clock s1).1).maxRetries ≤ 0 := by
      rw [Retrier.Failure_maxRetries]; exact hm
    have hA := hF.Allow_false hFm (clock (clock s1).2).1
    split
    · simp only [hA, Bool.false_eq_true, if_false]
      exact ⟨_, rfl, rfl, rfl, rfl⟩
    · exact ⟨_, rfl, rfl, rfl, rfl⟩

theorem Retrier.Failure_after_window (r : Retrier) (t : Int)
    (h : r.retryWindow < t - r.lastAttempt) :
    r.Failure t = { r with retryCount := 1, lastAttempt := t } := by
  have : t - r.lastAttempt > r.retryWindow := h
  simp [Retrier.Failure, Retrier.resetIfWindowPassed, this]

theorem Retrier.Allow_count_le_one (r : Retrier) (t : Int) (hc : r.retryCount = 1)
    (hm : 2 ≤ r.maxRetries) :
    (r.Allow t).1 = true ∧ (r.Allow t).2.maxRetries = r.maxRetries ∧
    (r.Allow t).2.retryWindow = r.retryWindow ∧ (r.Allow t).2.lastAttempt = r.lastAttempt ∧
    (r.Allow t).2.retryCount ≤ 1 := by
  simp only [Retrier.Allow, Retrier.resetIfWindowPassed]
  split
  · refine ⟨?_, rfl, rfl, rfl, ?_⟩
    · simp only [decide_eq_true_eq]; omega
    · simp
  · refine ⟨?_, rfl, rfl, rfl, ?_⟩
    · simp only [decide_eq_true_eq]; omega
    · omega

/-- One turn of the loop when the failure comes more than a window after the last one: the
executor goes on with one attempt less. -/
theorem executeWithRetry_turn {α σ : Type} (clock : σ → Int × σ) (retryOn : List ErrKind)
    (beforeRetry : σ → Option WireError × σ) (op : σ → (Option α × Option WireError) × σ)
    (now : σ → Int) (W : Int)
    (hclock : ∀ s, clock s = (now s, s))
    (hop : ∀ s, now s + W < now (op s).2 ∧ ∃ e, (op s).1.2 = some e ∧ e.Kind ∈ retryOn)
    (hrec : ∀ s, (beforeRetry s).1 = none ∧ now s ≤ now (beforeRetry s).2)
    (r : Retrier) (s : σ) (hmax : 2 ≤ r.maxRetries) (hw : r.retryWindow = W)
    (hlast : r.lastAttempt ≤ now s) :
    ∃ (r' : Retrier) (s' : σ) (calls : List Call),
      opCalls calls = 1 ∧ recoveryCalls calls = 1 ∧
      2 ≤ r'.maxRetries ∧ r'.retryWindow = W ∧ r'.lastAttempt ≤ now s' ∧ r'.retryCount ≤ 1 ∧
      (r.Failure (now (op s).2)).retryCount = 1 ∧
      ∀ (fuel : Nat) (log : List Call),
        executeWithRetry clock retryOn beforeRetry op (fuel + 1) r s log =
          executeWithRetry clock retryOn beforeRetry op fuel r' s' (log ++ calls) := by
  obtain ⟨ht, e, he, hk⟩ := hop s
  obtain ⟨hb, hn⟩ := hrec (op s).2
  have hs : shouldRetry e.Kind retryOn = true := (shouldRetry_eq_true_iff _ _).mpr hk
  have hF := Retrier.Failure_after_window r (now (op s).2) (by rw [hw]; omega)
  obtain ⟨a1, a2, a3, a4, a5⟩ :=
    Retrier.Allow_count_le_one (r.Failure (now (op s).2)) (now (op s).2)
      (by rw [hF]) (by rw [hF]; exact hmax)
  refine ⟨((r.Failure (now (op s).2)).Allow (now (op s).2)).2, (beforeRetry (op s).2).2,
    [Call.op (some e), Call.Failure, Call.Allow true, Call.beforeRetry none],
    rfl, rfl, ?_, ?_, ?_, a5, by rw [hF], ?_⟩
  · rw [a2, hF]; exact hmax
  · rw [a3, hF]; exact hw
  · rw [a4, hF]; exact hn
  · intro fuel log
    rw [executeWithRetry]
    simp only [he, hs, if_true, hclock, a1, hb]

/-- The watched loop and `executeWithRetry` are one function: the call returns within `fuel`
turns exactly when the observer has seen it return, and with the same result. -/
theorem executeWithRetry_eq_result {α σ : Type} (clock : σ → Int × σ) (retryOn : List ErrKind)
    (beforeRetry : σ → Option WireError × σ) (op : σ → (Option α × Option WireError) × σ) :
    ∀ (fuel : Nat) (r : Retrier) (s : σ) (log : List Call),
      executeWithRetry clock retryOn beforeRetry op fuel r s log =
        (executeWithRetryTurns clock retryOn beforeRetry op fuel r s log).result := by
  intro fuel
  induction fuel with
  | zero => intro r s log; rfl
  | succ fuel ih =>
    intro r s log
    rw [executeWithRetry, executeWithRetryTurns]
    simp only []
    cases (op s).1.2 with
    | none => rfl
    | some err =>
      simp only []
      split_ifs with h2 h3
      · cases (beforeRetry (clock (clock (op s).2).2).2).1 with
        | none => exact ih _ _ _
        | some bErr => rfl
      · rfl
      · rfl

/-- One watched turn of the loop when the failure comes more than a window after the last
attempt: the budget handed to `Allow()` has a count of 1, the retry is granted, and the loop
is at its head again with one more call of the operation and of the recovery step. -/
theorem executeWithRetryTurns_turn {α σ : Type} (clock : σ → Int × σ) (retryOn : List ErrKind)
    (beforeRetry : σ → Option WireError × σ) (op : σ → (Option α × Option WireError) × σ)
    (now : σ → Int) (W : Int)
    (hclock : ∀ s, clock s = (now s, s))
    (hop : ∀ s, now s + W < now (op s).2 ∧ ∃ e, (op s).1.2 = some e ∧ e.Kind ∈ retryOn)
    (hrec : ∀ s, (beforeRetry s).1 = none ∧ now s ≤ now (beforeRetry s).2)
    (r : Retrier) (s : σ) (hmax : 2 ≤ r.maxRetries) (hw : r.retryWindow = W)
    (hlast : r.lastAttempt ≤ now s) :
    (r.Failure (now (op s).2)).retryCount = 1 ∧
    ((r.Failure (now (op s).2)).Allow (now (op s).2)).1 = true ∧
    ∃ (r1 : Retrier) (s1 : σ) (e : WireError),
      2 ≤ r1.maxRetries ∧ r1.retryWindow = W ∧ r1.lastAttempt ≤ now s1 ∧ r1.retryCount ≤ 1 ∧
      ∀ (turns : Nat) (log : List Call),
        executeWithRetryTurns clock retryOn beforeRetry op (turns + 1) r s log =
          executeWithRetryTurns clock retryOn beforeRetry op turns r1 s1
            (log ++ [Call.op (some e), Call.Failure, Call.Allow true,
              Call.beforeRetry none]) := by
  obtain ⟨ht, e, he, hk⟩ := hop s
  obtain ⟨hb, hn⟩ := hrec (op s).2
  have hs : shouldRetry e.Kind retryOn = true := (shouldRetry_eq_true_iff _ _).mpr hk
  have hF := Retrier.Failure_after_window r (now (op s).2) (by rw [hw]; omega)
  obtain ⟨a1, a2, a3, a4, a5⟩ :=
    Retrier.Allow_count_le_one (r.Failure (now (op s).2)) (now (op s).2)
      (by rw [hF]) (by rw [hF]; exact hmax)
  refine ⟨by rw [hF], a1,
    ((r.Failure (now (op s).2)).Allow (now (op s).2)).2, (beforeRetry (op s).2).2, e,
    ?_, ?_, ?_, a5, ?_⟩
  · rw [a2, hF]; exact hmax
  · rw [a3, hF]; exact hw
  · rw [a4, hF]; exact hn
  · intro turns log
    rw [executeWithRetryTurns]
    simp only [he, hs, if_true, hclock, a1, hb]

theorem executeWithRetryTurns_spaced {α σ : Type} (clock : σ → Int × σ)
    (retryOn : List ErrKind)
    (beforeRetry : σ → Option WireError × σ) (op : σ → (Option α × Option WireError) × σ)
    (now : σ → Int) (W : Int)
    (hclock : ∀ s, clock s = (now s, s))
    (hop : ∀ s, now s + W < now (op s).2 ∧ ∃ e, (op s).1.2 = some e ∧ e.Kind ∈ retryOn)
    (hrec : ∀ s, (beforeRetry s).1 = none ∧ now s ≤ now (beforeRetry s).2) :
    ∀ (n : Nat) (r : Retrier) (s : σ) (log : List Call),
      2 ≤ r.maxRetries → r.retryWindow = W → r.lastAttempt ≤ now s →
      ∃ (r1 : Retrier) (s1 : σ) (calls : List Call),
        executeWithRetryTurns clock retryOn beforeRetry op n r s log =
          LoopView.looping r1 s1 (log ++ calls) ∧
        opCalls calls = n ∧ recoveryCalls calls = n ∧
        calls.count (Call.Allow true) = n ∧ calls.count (Call.Allow false) = 0 ∧
        2 ≤ r1.maxRetries ∧ r1.retryWindow = W ∧ r1.lastAttempt ≤ now s1 ∧
        r1.retryCount ≤ max 1 r.retryCount := by
  intro n
  induction n with
  | zero =>
    intro r s log hmax hw hlast
    exact ⟨r, s, [], by simp [executeWithRetryTurns], rfl, rfl, rfl, rfl, hmax, hw, hlast,
      le_max_right _ _⟩
  | succ n ih =>
    intro r s log hmax hw hlast
    obtain ⟨_, _, r1, s1, e, g1, g2, g3, g4, g5⟩ :=
      executeWithRetryTurns_turn clock retryOn beforeRetry op now W hclock hop hrec r s hmax hw
        hlast
    obtain ⟨r2, s2, calls, h1, h2, h3, h4, h5, h6, h7, h8, h9⟩ :=
      ih r1 s1 (log ++ [Call.op (some e), Call.Failure, Call.Allow true, Call.beforeRetry none])
        g1 g2 g3
    refine ⟨r2, s2, [Call.op (some e), Call.Failure, Call.Allow true, Call.beforeRetry none]
      ++ calls, ?_, ?_, ?_, ?_, ?_, h6, h7, h8, ?_⟩
    · rw [g5, h1, List.append_assoc]
    · simp only [opCalls, List.countP_append] at h2 ⊢
      rw [h2]
      simp [List.countP_cons, Call.isOp]
      omega
    · simp only [recoveryCalls, List.countP_append] at h3 ⊢
      rw [h3]
      simp [List.countP_cons, Call.isBeforeRetry]
      omega
    · rw [List.count_append, h4]
      simp [List.count_cons]
      omega
    · rw [List.count_append, h5]
      simp [List.count_cons]
    · have : max 1 r1.retryCount = 1 := max_eq_left g4
      rw [this] at h9
      exact le_trans h9 (le_max_left _ _)

theorem receive_rejects_length (w : TCPWire) (cs : List (List Byte))
    (rest : List ReadEvent) (hmax0 : 0 ≤ w.maxMsgSize)
    (hin : w.conn.incoming = cs.map ReadEvent.data ++ rest) (h4 : 4 ≤ cs.flatten.length)
    (hbad : getUint32 (cs.flatten.take 4) = 0 ∨
      w.maxMsgSize < (getUint32 (cs.flatten.take 4) : Int)) :
    ∃ (cause : ErrCause) (w' : TCPWire),
      w.Receive = ((none, some ⟨ErrKind.CorruptMessage, cause⟩), w') ∧
      w'.status = Status.Closed := by
  have hm : (w.withIncoming ((dropChunks 4 cs).map ReadEvent.data ++ rest)).maxMsgSize
      = w.maxMsgSize := rfl
  by_cases h0 : getUint32 (cs.flatten.take 4) ≤ 0
  · refine ⟨ErrCause.invalidSize (getUint32 (cs.flatten.take 4)),
      (w.withIncoming ((dropChunks 4 cs).map ReadEvent.data ++ rest)).Close, ?_,
      TCPWire.Close_status _⟩
    simp only [TCPWire.Receive, readPrefix_chunks w cs rest hin h4, h0, if_true]
  · have hbig : getUint32 (cs.flatten.take 4) > uint32 w.maxMsgSize := by
      have := uint32_le_self w.maxMsgSize hmax0
      omega
    refine ⟨ErrCause.tooLarge (getUint32 (cs.flatten.take 4)) w.maxMsgSize,
      (w.withIncoming ((dropChunks 4 cs).map ReadEvent.data ++ rest)).Close, ?_,
      TCPWire.Close_status _⟩
    simp only [TCPWire.Receive, readPrefix_chunks w cs rest hin h4, h0, if_false, hm, hbig,
      if_true]

/-! ## Claims C11 to C20: closing, failure paths, misconfigured and unbounded budgets, the watch half -/

/-- C11. `TCPWire.Close` is idempotent.  (a) After `k >= 1` consecutive `Close()` calls on an
Open channel the status is Closed and the socket's `Close` has been invoked exactly once more
than before; nothing else has changed.  (b) `Close()` on a Closed channel changes nothing.
(c) No operation moves the status from Closed back to Open: after `Close`, `Send` or `Receive`
on a Closed channel the status is Closed. -/
theorem C11_close_is_idempotent_and_closed_is_terminal :
    (∀ (w : TCPWire) (k : Nat), w.status = Status.Open → 1 ≤ k →
      (w.closeTimes k).status = Status.Closed ∧
      (w.closeTimes k).conn.closeCalls = w.conn.closeCalls + 1 ∧
      w.closeTimes k = { w with status := Status.Closed, conn := w.conn.Close }) ∧
    (∀ w : TCPWire, w.status = Status.Closed → w.Close = w) ∧
    (∀ (w : TCPWire) (msg : List Byte), w.status = Status.Closed →
      w.Close.status = Status.Closed ∧ (w.Send msg).2.status = Status.Closed ∧
      (w.Receive).2.status = Status.Closed) := by
  refine ⟨?_, TCPWire.Close_of_closed, ?_⟩
  · intro w k hopen hk
    obtain ⟨j, rfl⟩ : ∃ j, k = j + 1 := ⟨k - 1, by omega⟩
    rw [TCPWire.closeTimes_succ_of_open w hopen j]
    exact ⟨rfl, rfl, rfl⟩
  · intro w msg hclosed
    refine ⟨TCPWire.Close_status w, ?_, Receive_status_closed w hclosed⟩
    simp [TCPWire.Send, hclosed]

/-- C11 at a concrete input: three `Close()` calls on a fresh channel, as in
`TestClosesConnOnClose`, and one more on the channel they leave. -/
theorem C11_close_is_idempotent_and_closed_is_terminal_witness :
    ((NewTCPWire 50 (Conn.fresh [] [])).closeTimes 3).status = Status.Closed ∧
    ((NewTCPWire 50 (Conn.fresh [] [])).closeTimes 3).conn.closeCalls = 1 ∧
    ((NewTCPWire 50 (Conn.fresh [] [])).closeTimes 3).Close =
      (NewTCPWire 50 (Conn.fresh [] [])).closeTimes 3 :=
  ⟨(C11_close_is_idempotent_and_closed_is_terminal.1 (NewTCPWire 50 (Conn.fresh [] [])) 3 rfl
      (by decide)).1,
   (C11_close_is_idempotent_and_closed_is_terminal.1 (NewTCPWire 50 (Conn.fresh [] [])) 3 rfl
      (by decide)).2.1,
   C11_close_is_idempotent_and_closed_is_terminal.2.1 _ rfl⟩

/-- C12. For every payload, `TCPWire.Send` on a channel whose status is Closed returns an error
of kind Terminated and leaves the channel as it was: no write reaches the socket and the
status is still Closed. -/
theorem C12_send_on_closed_channel (w : TCPWire) (msg : List Byte)
    (hclosed : w.status = Status.Closed) :
    w.Send msg = (some ⟨ErrKind.Terminated, ErrCause.closedWire⟩, w) ∧
    (w.Send msg).2.conn.writeCalls = w.conn.writeCalls ∧
    (w.Send msg).2.conn.written = w.conn.written ∧
    (w.Send msg).2.status = Status.Closed := by
  have h : w.Send msg = (some ⟨ErrKind.Terminated, ErrCause.closedWire⟩, w) := by
    simp [TCPWire.Send, hclosed]
  rw [h]
  exact ⟨rfl, rfl, rfl, hclosed⟩

/-- C12 at a concrete input: a channel closed by `Close()`. -/
theorem C12_send_on_closed_channel_witness :
    (NewTCPWire 50 (Conn.fresh [] [])).Close.Send [1, 2, 3] =
      (some ⟨ErrKind.Terminated, ErrCause.closedWire⟩, (NewTCPWire 50 (Conn.fresh [] [])).Close) ∧
    ((NewTCPWire 50 (Conn.fresh [] [])).Close.Send [1, 2, 3]).2.conn.writeCalls =
      (NewTCPWire 50 (Conn.fresh [] [])).Close.conn.writeCalls ∧
    ((NewTCPWire 50 (Conn.fresh [] [])).Close.Send [1, 2, 3]).2.conn.written =
      (NewTCPWire 50 (Conn.fresh [] [])).Close.conn.written ∧
    ((NewTCPWire 50 (Conn.fresh [] [])).Close.Send [1, 2, 3]).2.status = Status.Closed :=
  C12_send_on_closed_channel (NewTCPWire 50 (Conn.fresh [] [])).Close [1, 2, 3] rfl

/-- C13 at the failing input.  A `Send` whose write fails with `io.ErrClosedPipe` leaves the
status Closed (without closing the socket); a later `Send` fails with Terminated, but a later
`Receive` reads the frame that the socket still holds and returns its payload with no error.
When the socket holds nothing more, the `Receive` after such a `Send` returns Empty. -/
theorem C13_receive_on_closed_channel_returns_payload :
    (halfSeveredWire.Send [1]).1 = some ⟨ErrKind.Terminated, ErrCause.io GoErr.closedPipe⟩ ∧
    (halfSeveredWire.Send [1]).2.status = Status.Closed ∧
    (halfSeveredWire.Send [1]).2.conn.closeCalls = 0 ∧
    ((halfSeveredWire.Send [1]).2.Send [2]).1 =
      some ⟨ErrKind.Terminated, ErrCause.closedWire⟩ ∧
    ((halfSeveredWire.Send [1]).2.Receive).1 = (some [7], none) ∧
    ((NewTCPWire 50 (Conn.fresh [] [{ limit := 0, err := some GoErr.closedPipe }])).Send
      [1]).2.status = Status.Closed ∧
    (((NewTCPWire 50 (Conn.fresh [] [{ limit := 0, err := some GoErr.closedPipe }])).Send
      [1]).2.Receive).1 = (none, some ⟨ErrKind.Empty, ErrCause.io GoErr.eof⟩) := by
  decide

/-- C14. After a valid length prefix `N` (`0 < N <= maxMsgSize`, within the bound
`uint32(maxMsgSize)` that `Receive` tests, so that the payload read takes place) has been read,
a payload read that fails makes `TCPWire.Receive` return no payload and leaves the status
Closed: (a) with kind CorruptMessage when the stream ends before any payload byte; (b) with
kind Terminated when the stream ends after some but fewer than `N` payload bytes; (c) with kind
Terminated when the socket reports an error other than end-of-stream or a timeout before `N`
payload bytes were read. -/
theorem C14_payload_read_failure (w : TCPWire) (N : Nat) (got : List Byte)
    (cs : List (List Byte)) (tail : List ReadEvent)
    (hN : 0 < N) (_hmax : (N : Int) ≤ w.maxMsgSize) (hread : N ≤ uint32 w.maxMsgSize)
    (hin : w.conn.incoming = cs.map ReadEvent.data ++ tail)
    (hbytes : cs.flatten = putUint32 N ++ got) (hshort : got.length < N) :
    (got = [] → (∃ j, tail = List.replicate j (ReadEvent.fail GoErr.eof)) →
      ∃ w' : TCPWire,
        w.Receive = ((none, some ⟨ErrKind.CorruptMessage, ErrCause.io GoErr.eof⟩), w') ∧
        w'.status = Status.Closed) ∧
    (got ≠ [] → (tail = [] ∨ ∃ rest, tail = ReadEvent.fail GoErr.eof :: rest) →
      ∃ w' : TCPWire,
        w.Receive = ((none, some ⟨ErrKind.Terminated, ErrCause.io GoErr.unexpectedEOF⟩), w') ∧
        w'.status = Status.Closed) ∧
    (∀ (e : GoErr) (rest : List ReadEvent), tail = ReadEvent.fail e :: rest →
      e ≠ GoErr.eof → e ≠ GoErr.transient →
      ∃ w' : TCPWire,
        w.Receive = ((none, some ⟨ErrKind.Terminated, ErrCause.io e⟩), w') ∧
        w'.status = Status.Closed) := by
  obtain ⟨hdrop, hrecv⟩ := receive_after_prefix w N got cs tail hN hread hin hbytes
  refine ⟨?_, ?_, ?_⟩
  · intro hgot ⟨j, hj⟩
    subst hj
    obtain ⟨b, w', h1, h2, _⟩ := readMessage_end_of_stream_at_start
      (w.withIncoming ((dropChunks 4 cs).map ReadEvent.data ++
        List.replicate j (ReadEvent.fail GoErr.eof))) N j (dropChunks 4 cs) hN
      (by rw [hdrop, hgot]) rfl
    exact ⟨w', by rw [hrecv, h1], h2⟩
  · intro hgot htail
    have hev : ∃ evs, readFull ((dropChunks 4 cs).map ReadEvent.data ++ tail) N [] =
        ((got, some GoErr.unexpectedEOF), evs) := by
      rcases htail with rfl | ⟨rest, rfl⟩
      · refine ⟨([] : List ReadEvent).tail, ?_⟩
        rw [readFull_eof [] [] (Or.inl rfl) (dropChunks 4 cs) N [] (by rw [hdrop]; exact hshort)]
        simp [hdrop, hgot]
      · refine ⟨(ReadEvent.fail GoErr.eof :: rest).tail, ?_⟩
        rw [readFull_eof _ rest (Or.inr rfl) (dropChunks 4 cs) N []
          (by rw [hdrop]; exact hshort)]
        simp [hdrop, hgot]
    obtain ⟨evs, hev⟩ := hev
    obtain ⟨b, w', h1, h2, _⟩ := readMessage_fails_with
      (w.withIncoming ((dropChunks 4 cs).map ReadEvent.data ++ tail)) N got
      GoErr.unexpectedEOF evs hev (by decide) (by decide)
    exact ⟨w', by rw [hrecv, h1], h2⟩
  · intro e rest htail he1 he2
    subst htail
    have hev : readFull ((dropChunks 4 cs).map ReadEvent.data ++ ReadEvent.fail e :: rest) N [] =
        ((got, some e), rest) := by
      rw [readFull_fail e rest (dropChunks 4 cs) N [] (by rw [hdrop]; exact hshort)]
      simp [hdrop, he1]
    obtain ⟨b, w', h1, h2, _⟩ := readMessage_fails_with
      (w.withIncoming ((dropChunks 4 cs).map ReadEvent.data ++ ReadEvent.fail e :: rest)) N got
      e rest hev he1 he2
    exact ⟨w', by rw [hrecv, h1], h2⟩

/-- C14 at three concrete inputs, each after the prefix of a 3-byte payload: a stream that ends
there, a stream that ends after one payload byte, and a socket that reports a closed network
connection after one payload byte. -/
theorem C14_payload_read_failure_witness :
    ((NewTCPWire 50 (Conn.fresh [ReadEvent.data [0, 0, 0, 3]] [])).Receive).1 =
      (none, some ⟨ErrKind.CorruptMessage, ErrCause.io GoErr.eof⟩) ∧
    ((NewTCPWire 50 (Conn.fresh [ReadEvent.data [0, 0, 0, 3, 7]] [])).Receive).1 =
      (none, some ⟨ErrKind.Terminated, ErrCause.io GoErr.unexpectedEOF⟩) ∧
    ((NewTCPWire 50 (Conn.fresh
        [ReadEvent.data [0, 0, 0, 3, 7], ReadEvent.fail GoErr.closedConn] [])).Receive).1 =
      (none, some ⟨ErrKind.Terminated, ErrCause.io GoErr.closedConn⟩) := by
  obtain ⟨w1, h1, _⟩ := (C14_payload_read_failure
    (NewTCPWire 50 (Conn.fresh [ReadEvent.data [0, 0, 0, 3]] [])) 3 [] [[0, 0, 0, 3]] []
    (by decide) (by decide) (by decide) rfl rfl (by decide)).1 rfl ⟨0, rfl⟩
  obtain ⟨w2, h2, _⟩ := (C14_payload_read_failure
    (NewTCPWire 50 (Conn.fresh [ReadEvent.data [0, 0, 0, 3, 7]] [])) 3 [7] [[0, 0, 0, 3, 7]] []
    (by decide) (by decide) (by decide) rfl rfl (by decide)).2.1 (by decide) (Or.inl rfl)
  obtain ⟨w3, h3, _⟩ := (C14_payload_read_failure
    (NewTCPWire 50 (Conn.fresh
      [ReadEvent.data [0, 0, 0, 3, 7], ReadEvent.fail GoErr.closedConn] [])) 3 [7]
    [[0, 0, 0, 3, 7]] [ReadEvent.fail GoErr.closedConn]
    (by decide) (by decide) (by decide) rfl rfl (by decide)).2.2 GoErr.closedConn [] rfl
    (by decide) (by decide)
  exact ⟨by rw [h1], by rw [h2], by rw [h3]⟩

/-- C15. A misconfigured budget always denies retries.  (a) For every Retrier the program can
build (`NewRetrier`, then any calls of `Allow`, `Failure` and `Success` at any times) with
`maxRetries <= 0`, the failure count is not negative and `Allow()` returns false at every
time.  (b) With such a budget the executor returns after invoking the operation exactly once
and the recovery step never, with the operation's own error. -/
theorem C15_misconfigured_budget_denies_retries :
    (∀ (r : Retrier), r.Reachable → r.maxRetries ≤ 0 →
      0 ≤ r.retryCount ∧ ∀ now : Int, (r.Allow now).1 = false) ∧
    (∀ (α σ : Type) (clock : σ → Int × σ) (retryOn : List ErrKind)
        (beforeRetry : σ → Option WireError × σ) (op : σ → (Option α × Option WireError) × σ)
        (fuel : Nat) (r : Retrier) (s : σ), r.Reachable → r.maxRetries ≤ 0 →
      ∃ res : ExecResult α σ,
        executeWithRetry clock retryOn beforeRetry op (fuel + 1) r s [] = some res ∧
        opCalls res.calls = 1 ∧ recoveryCalls res.calls = 0 ∧ res.err = (op s).1.2) :=
  ⟨fun _ hr hm => ⟨hr.count_nonneg, fun now => hr.Allow_false hm now⟩,
   fun _ _ clock retryOn beforeRetry op fuel r s hr hm =>
     executeWithRetry_denied clock retryOn beforeRetry op fuel r s hr hm⟩

/-- C15 at concrete inputs: a budget built with `maxRetries = 0` after two failures and a
success, asked at time 9000; and the executor on an always-failing retryable operation. -/
theorem C15_misconfigured_budget_denies_retries_witness :
    ((((((NewRetrier 0 5000 0).Failure 10).Failure 20).Success 30).Failure 40).Allow 9000).1
      = false ∧
    (∃ res : ExecResult Unit Nat,
      executeWithRetry (fun s : Nat => ((0 : Int), s)) [ErrKind.Terminated] noop
          (fun s : Nat => ((none, some ⟨ErrKind.Terminated, ErrCause.closedWire⟩), s + 1))
          (4 + 1) (NewRetrier 0 5000 0) 0 [] = some res ∧
        opCalls res.calls = 1 ∧ recoveryCalls res.calls = 0 ∧
        res.err = some ⟨ErrKind.Terminated, ErrCause.closedWire⟩) :=
  ⟨(C15_misconfigured_budget_denies_retries.1 _
      (Retrier.Reachable.Failure _ 40 (Retrier.Reachable.Success _ 30
        (Retrier.Reachable.Failure _ 20 (Retrier.Reachable.Failure _ 10
          (Retrier.Reachable.new 0 5000 0))))) (by decide)).2 9000,
   C15_misconfigured_budget_denies_retries.2 Unit Nat (fun s => (0, s)) [ErrKind.Terminated]
      noop (fun s => ((none, some ⟨ErrKind.Terminated, ErrCause.closedWire⟩), s + 1)) 4
      (NewRetrier 0 5000 0) 0 (Retrier.Reachable.new 0 5000 0) (by decide)⟩

/-- C16 (amended). `TCPWire.Send` checks neither that the payload is non-empty nor its length
against `maxMsgSize`: on an Open channel whose socket returns no error and makes at most 10
partial writes, for every payload `Send` returns no error and puts the frame
`[len(msg) mod 2^32][msg]` on the wire.  The frame invariant is enforced by `Receive` alone: a
peer with `maxMsgSize >= 0` that reads a frame whose prefix is 0 or greater than its
`maxMsgSize` returns CorruptMessage and is left Closed. -/
theorem C16_send_frames_every_payload (w : TCPWire) (msg : List Byte)
    (hopen : w.status = Status.Open)
    (herr : ∀ r ∈ w.conn.outgoing, r.err = none)
    (hfew : ∀ k, k ≤ w.conn.outgoing.length → w.conn.offered k < 4 + msg.length → k ≤ 10) :
    ∃ w' : TCPWire, w.Send msg = (none, w') ∧
      w'.conn.written = w.conn.written ++ (putUint32 (msg.length % 4294967296) ++ msg) ∧
      ∀ (peer : TCPWire) (cs : List (List Byte)) (rest : List ReadEvent),
        0 ≤ peer.maxMsgSize →
        cs.flatten = putUint32 (msg.length % 4294967296) ++ msg →
        peer.conn.incoming = cs.map ReadEvent.data ++ rest →
        (msg.length % 4294967296 = 0 ∨
          peer.maxMsgSize < ((msg.length % 4294967296 : Nat) : Int)) →
        ∃ (cause : ErrCause) (peer' : TCPWire),
          peer.Receive = ((none, some ⟨ErrKind.CorruptMessage, cause⟩), peer') ∧
          peer'.status = Status.Closed := by
  obtain ⟨w', h1, _, _, _, h5, _, _⟩ := send_good w msg hopen herr hfew
  refine ⟨w', h1, h5, ?_⟩
  intro peer cs rest hmax0 hcs hin hbad
  have h4 : 4 ≤ cs.flatten.length := by simp [hcs, putUint32]
  have htake : cs.flatten.take 4 = putUint32 (msg.length % 4294967296) := by
    rw [hcs, List.take_left' (putUint32_length _)]
  have hdec : getUint32 (cs.flatten.take 4) = msg.length % 4294967296 := by
    rw [htake]
    exact getUint32_putUint32 _ (Nat.mod_lt _ (by decide))
  exact receive_rejects_length peer cs rest hmax0 hin h4 (by rw [hdec]; exact hbad)

/-- C16 (amended) at concrete inputs: an empty payload, and a 3-byte payload on channels
with `maxMsgSize = 2`. -/
theorem C16_send_frames_every_payload_witness :
    ((NewTCPWire 2 (Conn.fresh [] [])).Send []).1 = none ∧
    ((NewTCPWire 2 (Conn.fresh [] [])).Send [1, 2, 3]).1 = none ∧
    (∃ (cause : ErrCause) (peer' : TCPWire),
      (NewTCPWire 2 (Conn.fresh [ReadEvent.data [0, 0, 0, 3, 1, 2, 3]] [])).Receive =
        ((none, some ⟨ErrKind.CorruptMessage, cause⟩), peer') ∧
      peer'.status = Status.Closed) := by
  obtain ⟨w1, h1, _, _⟩ := C16_send_frames_every_payload (NewTCPWire 2 (Conn.fresh [] [])) []
    rfl (by decide) (by intro k hk _; have : k ≤ 0 := hk; omega)
  obtain ⟨w2, h2, _, hpeer⟩ := C16_send_frames_every_payload (NewTCPWire 2 (Conn.fresh [] []))
    [1, 2, 3] rfl (by decide) (by intro k hk _; have : k ≤ 0 := hk; omega)
  exact ⟨by rw [h1], by rw [h2],
    hpeer (NewTCPWire 2 (Conn.fresh [ReadEvent.data [0, 0, 0, 3, 1, 2, 3]] []))
      [[0, 0, 0, 3, 1, 2, 3]] [] (by decide) rfl rfl (Or.inr (by decide))⟩

/-- C16 as stated fails: on a channel with `maxMsgSize = 2`, `Send` of the empty payload writes
the frame `00 00 00 00` and `Send` of a 3-byte payload writes `00 00 00 03 01 02 03`, both
without error; a peer with the same `maxMsgSize` rejects each of them as CorruptMessage. -/
theorem C16_counterexample_empty_and_oversized_payload_sent :
    ((NewTCPWire 2 (Conn.fresh [] [])).Send []).1 = none ∧
    ((NewTCPWire 2 (Conn.fresh [] [])).Send []).2.conn.written = [0, 0, 0, 0] ∧
    ((NewTCPWire 2 (Conn.fresh [] [])).Send [1, 2, 3]).1 = none ∧
    ((NewTCPWire 2 (Conn.fresh [] [])).Send [1, 2, 3]).2.conn.written =
      [0, 0, 0, 3, 1, 2, 3] ∧
    ((NewTCPWire 2 (Conn.fresh [ReadEvent.data [0, 0, 0, 0]] [])).Receive).1 =
      (none, some ⟨ErrKind.CorruptMessage, ErrCause.invalidSize 0⟩) ∧
    ((NewTCPWire 2 (Conn.fresh [ReadEvent.data [0, 0, 0, 3, 1, 2, 3]] [])).Receive).1 =
      (none, some ⟨ErrKind.CorruptMessage, ErrCause.tooLarge 3 2⟩) := by
  decide

/-- C17 at the failing inputs.  (a) `exhaustedClient` is the client a failed `Fire` leaves
behind, its primary budget at 3 failures.  `WatchCh` at time 100 dials the watch transport and
sends the handshake through `fire`, which records the success on `mainRetrier`: the primary
budget is back at 0 failures, stamped 100, while `watchRetrier` is untouched.  (b) On a fresh
client, a watch socket that is severed makes the handshake fail three times against
`mainRetrier` and run the primary half's reconnect step twice (3 dials in all); `watchRetrier`
stays as created. -/
theorem C17_watch_handshake_uses_primary_budget :
    ((exampleClient severedConn).Fire exampleCodec 10 ping
        (exampleNet [some healthyConn, some healthyConn, some healthyConn])).map
      (fun r => r.2.1) = some exhaustedClient ∧
    (exhaustedClient.WatchCh exampleCodec 10 (netAt 100 [some healthyConn])).map
      (fun r => (r.1, r.2.1.mainRetrier, r.2.1.watchRetrier)) =
      some ({ ch := true, err := none, started := true },
        { maxRetries := 3, retryWindow := 5000000000, retryCount := 0, lastAttempt := 100 },
        some (NewRetrier 5 5000000000 100)) ∧
    ((exampleClient healthyConn).WatchCh exampleCodec 10
        (netAt 100 [some severedConn, some healthyConn, some healthyConn, some healthyConn])).map
      (fun r => (r.1.ch, r.1.started, r.2.1.mainRetrier, r.2.1.watchRetrier, r.2.2.dialCalls)) =
      some (false, false,
        { maxRetries := 3, retryWindow := 5000000000, retryCount := 3, lastAttempt := 100 },
        some (NewRetrier 5 5000000000 100), 3) :=
  ⟨rfl, rfl, rfl⟩

/-- C18 at the failing inputs.  (a) After a successful `WatchCh`, the first `Close()` closes both
channels and the queue, and the second `Close()` panics with "close of closed channel".
(b) After a `WatchCh` whose dial failed, the queue handle is set and the watch transport is
nil: `Close()` panics with a nil dereference.  (c) After a successful `WatchCh`, the watch
task meets the end of the stream, closes the queue and ends; `Close()` then panics with "close
of closed channel". -/
theorem C18_second_close_panics :
    ((exampleClient healthyConn).WatchCh exampleCodec 10 (netAt 100 [some healthyConn])).map
      (fun r => ((r.2.1.Close.andThen fun c => Outcome.ok c.watchCh),
        r.2.1.Close.andThen Client.Close)) =
      some (Outcome.ok (some { items := [], closed := true }),
        Outcome.panic Panic.closeOfClosedChannel) ∧
    ((exampleClient healthyConn).WatchCh exampleCodec 10 (netAt 100 [])).map
      (fun r => (r.1.err, r.2.1.watchCh, r.2.1.watchWire, r.2.1.Close)) =
      some (some (ClientError.watchConnection ⟨ErrKind.NotEstablished, ErrCause.dial⟩),
        some Chan.make, none, Outcome.panic Panic.nilDereference) ∧
    ((exampleClient healthyConn).WatchCh exampleCodec 10 (netAt 100 [some healthyConn])).bind
      (fun r => (r.2.1.watch exampleCodec 10 10 r.2.2).map
        (fun o => ((o.andThen fun s => Outcome.ok s.1.watchCh),
          o.andThen fun s => s.1.Close))) =
      some (Outcome.ok (some { items := [], closed := true }),
        Outcome.panic Panic.closeOfClosedChannel) :=
  ⟨rfl, rfl, rfl⟩

/-- C19 on the code.  For a socket whose writes return a timeout/temporary error with 0 bytes
written, `TCPWire.Send` on an Open channel makes 7 write attempts (1 + 6, one more than
`maxBackoffRetries` allows for), sleeping 5, 10, 20, 40, 80 and 160 ms between them, then sets
the channel Closed and returns Terminated. -/
theorem C19_send_makes_seven_attempts_on_timeouts (w : TCPWire) (msg : List Byte)
    (rest : List WriteResp) (hopen : w.status = Status.Open)
    (hout : w.conn.outgoing =
      List.replicate 7 { limit := 0, err := some GoErr.transient } ++ rest) :
    w.Send msg = (some ⟨ErrKind.Terminated, ErrCause.maxBackoff GoErr.transient⟩,
      afterSevenTimeouts w rest) := by
  have hlen : 0 < (putPrefix msg.length ++ msg).length := by simp [putPrefix, putUint32]
  have h := write_seven_timeouts w (putPrefix msg.length ++ msg) rest hlen hout
  simp only [TCPWire.Send, hopen, h, afterSevenTimeouts]
  simp

/-- C19 on the code, at a concrete input: a fresh channel and a socket that times out on every
one of its first 8 writes. -/
theorem C19_send_makes_seven_attempts_on_timeouts_witness :
    (NewTCPWire 50 (Conn.fresh []
        (List.replicate 7 { limit := 0, err := some GoErr.transient } ++
          [{ limit := 0, err := some GoErr.transient }]))).Send [1, 2, 3] =
      (some ⟨ErrKind.Terminated, ErrCause.maxBackoff GoErr.transient⟩,
        afterSevenTimeouts (NewTCPWire 50 (Conn.fresh []
          (List.replicate 7 { limit := 0, err := some GoErr.transient } ++
            [{ limit := 0, err := some GoErr.transient }])))
          [{ limit := 0, err := some GoErr.transient }]) :=
  C19_send_makes_seven_attempts_on_timeouts _ [1, 2, 3] _ rfl rfl

/-- C20. The retry loop is not bounded by `maxRetries` when failures are spaced further apart
than the retry window.  Let the clock show `now s` in world `s`, let every attempt of the
operation fail with a retryable kind and end more than `retryWindow` after it began, let the
recovery step always succeed (without turning the clock back), and let `maxRetries >= 2`.
Then (a) a `Failure()` that comes more than `retryWindow` after the last attempt leaves the
count at 1; (b) for every `n`, after `n` turns the loop of this call is at its head again,
having invoked the operation `n` times and the recovery step `n` times, with `Allow()` granted
`n` times and never denied, and in the turn that follows the budget handed to `Allow()` has a
count of 1 and the retry is granted again; (c) `executeWithRetry` does not return, whatever
the fuel; (d) the loop watched in (b) is `executeWithRetry` itself: for every operation and
recovery step, the call returns within `fuel` turns exactly what the watched loop returned. -/
theorem C20_retry_loop_unbounded_when_failures_are_spaced {α σ : Type}
    (clock : σ → Int × σ) (retryOn : List ErrKind)
    (beforeRetry : σ → Option WireError × σ) (op : σ → (Option α × Option WireError) × σ)
    (now : σ → Int) (r : Retrier) (s : σ)
    (hmax : 2 ≤ r.maxRetries)
    (hclock : ∀ s, clock s = (now s, s))
    (hop : ∀ s, now s + r.retryWindow < now (op s).2 ∧
      ∃ e, (op s).1.2 = some e ∧ e.Kind ∈ retryOn)
    (hrec : ∀ s, (beforeRetry s).1 = none ∧ now s ≤ now (beforeRetry s).2)
    (hlast : r.lastAttempt ≤ now s) :
    (∀ (r0 : Retrier) (t : Int), r0.retryWindow < t - r0.lastAttempt →
      (r0.Failure t).retryCount = 1) ∧
    (∀ n : Nat, ∃ (r1 : Retrier) (s1 : σ) (calls : List Call),
      executeWithRetryTurns clock retryOn beforeRetry op n r s [] =
        LoopView.looping r1 s1 calls ∧
      opCalls calls = n ∧ recoveryCalls calls = n ∧
      calls.count (Call.Allow true) = n ∧ calls.count (Call.Allow false) = 0 ∧
      r1.retryCount ≤ max 1 r.retryCount ∧
      (r1.Failure (clock (op s1).2).1).retryCount = 1 ∧
      ((r1.Failure (clock (op s1).2).1).Allow (clock (clock (op s1).2).2).1).1 = true) ∧
    (∀ (fuel : Nat) (log : List Call),
      executeWithRetry clock retryOn beforeRetry op fuel r s log = none) ∧
    (∀ (beforeRetry2 : σ → Option WireError × σ)
        (op2 : σ → (Option α × Option WireError) × σ)
        (fuel : Nat) (r0 : Retrier) (s0 : σ) (log : List Call),
      executeWithRetry clock retryOn beforeRetry2 op2 fuel r0 s0 log =
        (executeWithRetryTurns clock retryOn beforeRetry2 op2 fuel r0 s0 log).result) := by
  have hspaced := executeWithRetryTurns_spaced clock retryOn beforeRetry op now r.retryWindow
    hclock hop hrec
  refine ⟨fun r0 t h => by rw [Retrier.Failure_after_window r0 t h], ?_, ?_, ?_⟩
  · intro n
    obtain ⟨r1, s1, calls, h1, h2, h3, h4, h5, h6, h7, h8, h9⟩ := hspaced n r s [] hmax rfl hlast
    obtain ⟨g1, g2, _⟩ := executeWithRetryTurns_turn clock retryOn beforeRetry op now
      r.retryWindow hclock hop hrec r1 s1 h6 h7 h8
    refine ⟨r1, s1, calls, by simpa using h1, h2, h3, h4, h5, h9, ?_, ?_⟩
    · simpa only [hclock] using g1
    · simpa only [hclock] using g2
  · intro fuel log
    obtain ⟨r1, s1, calls, h1, _⟩ := hspaced fuel r s log hmax rfl hlast
    rw [executeWithRetry_eq_result, h1]
    rfl
  · intro beforeRetry2 op2 fuel r0 s0 log
    exact executeWithRetry_eq_result clock retryOn beforeRetry2 op2 fuel r0 s0 log

/-- C20 at a concrete input: time is the world, every attempt takes 6000 against a window of
5000, and the budget allows 3 retries.  100 units of fuel are not enough, and after 4 turns
the loop is at its head again with 4 calls of the operation in its log. -/
theorem C20_retry_loop_unbounded_when_failures_are_spaced_witness :
    executeWithRetry (α := Unit) (fun s : Int => (s, s)) [ErrKind.Terminated] noop
      (fun s : Int => ((none, some ⟨ErrKind.Terminated, ErrCause.closedWire⟩), s + 6000))
      100 (NewRetrier 3 5000 0) 0 [] = none ∧
    executeWithRetryTurns (α := Unit) (fun s : Int => (s, s)) [ErrKind.Terminated] noop
      (fun s : Int => ((none, some ⟨ErrKind.Terminated, ErrCause.closedWire⟩), s + 6000))
      4 (NewRetrier 3 5000 0) 0 [] =
      LoopView.looping
        { maxRetries := 3, retryWindow := 5000, retryCount := 1, lastAttempt := 24000 } 24000
        [Call.op (some ⟨ErrKind.Terminated, ErrCause.closedWire⟩), Call.Failure,
         Call.Allow true, Call.beforeRetry none,
         Call.op (some ⟨ErrKind.Terminated, ErrCause.closedWire⟩), Call.Failure,
         Call.Allow true, Call.beforeRetry none,
         Call.op (some ⟨ErrKind.Terminated, ErrCause.closedWire⟩), Call.Failure,
         Call.Allow true, Call.beforeRetry none,
         Call.op (some ⟨ErrKind.Terminated, ErrCause.closedWire⟩), Call.Failure,
         Call.Allow true, Call.beforeRetry none] ∧
    (executeWithRetryTurns (α := Unit) (fun s : Int => (s, s)) [ErrKind.Terminated] noop
      (fun s : Int => ((none, some ⟨ErrKind.Terminated, ErrCause.closedWire⟩), s + 100))
      4 (NewRetrier 3 5000 0) 0 []).result.map (fun res => (res.err, opCalls res.calls)) =
      some (some ⟨ErrKind.Terminated, ErrCause.closedWire⟩, 3) :=
  ⟨(C20_retry_loop_unbounded_when_failures_are_spaced (α := Unit) (fun s : Int => (s, s))
    [ErrKind.Terminated] noop
    (fun s : Int => ((none, some ⟨ErrKind.Terminated, ErrCause.closedWire⟩), s + 6000))
    (fun s => s) (NewRetrier 3 5000 0) 0 (by decide) (fun _ => rfl)
    (by
      intro s
      refine ⟨?_, ⟨ErrKind.Terminated, ErrCause.closedWire⟩, rfl, by simp⟩
      show s + 5000 < s + 6000
      omega)
    (fun s => ⟨rfl, le_refl _⟩) (le_refl _)).2.2.1 100 [], rfl, rfl⟩

/-! ## Lemmas: the socket's `Close` count, byte counts of the reads, interrupted reads, the queue handle -/

theorem Conn.Write_closeCalls (c : Conn) (p : List Byte) :
    (c.Write p).2.closeCalls = c.closeCalls := by
  unfold Conn.Write
  split <;> rfl

theorem writeLoop_closeCalls (buffer : List Byte) :
    ∀ (fuel tw pwr br delay : Nat) (w : TCPWire) (res : Option WireError × TCPWire),
      TCPWire.writeLoop buffer fuel tw pwr br delay w = some res →
      res.2.conn.closeCalls = w.conn.closeCalls ∧
      (∀ e, res.1 = some e → e.Kind = ErrKind.Terminated ∧ res.2.status = Status.Closed) := by
  intro fuel
  induction fuel with
  | zero =>
    intro tw pwr br delay w res h
    simp [TCPWire.writeLoop] at h
  | succ fuel ih =>
    intro tw pwr br delay w res h
    have hc := Conn.Write_closeCalls w.conn (buffer.drop tw)
    rw [TCPWire.writeLoop] at h
    simp only [] at h
    split at h
    · split at h
      · split at h
        · split at h
          · cases h
            exact ⟨hc, fun e he => by cases he; exact ⟨rfl, rfl⟩⟩
          · split at h
            · split at h
              · cases h
                exact ⟨hc, fun e he => by cases he; exact ⟨rfl, rfl⟩⟩
              · obtain ⟨h1, h2⟩ := ih _ _ _ _ _ _ h
                exact ⟨h1.trans hc, h2⟩
            · cases h
              exact ⟨hc, fun e he => by cases he; exact ⟨rfl, rfl⟩⟩
        · split at h
          · cases h
            exact ⟨hc, fun e he => by cases he; exact ⟨rfl, rfl⟩⟩
          · obtain ⟨h1, h2⟩ := ih _ _ _ _ _ _ h
            exact ⟨h1.trans hc, h2⟩
      · split at h
        · split at h
          · cases h
            exact ⟨hc, fun e he => by cases he; exact ⟨rfl, rfl⟩⟩
          · obtain ⟨h1, h2⟩ := ih _ _ _ _ _ _ h
            exact ⟨h1.trans hc, h2⟩
        · obtain ⟨h1, h2⟩ := ih _ _ _ _ _ _ h
          exact ⟨h1.trans hc, h2⟩
    · cases h
      exact ⟨rfl, fun e he => by cases he⟩

theorem write_closeCalls (w : TCPWire) (buffer : List Byte) :
    (w.write buffer).2.conn.closeCalls = w.conn.closeCalls ∧
    (∀ e, (w.write buffer).1 = some e →
      e.Kind = ErrKind.Terminated ∧ (w.write buffer).2.status = Status.Closed) := by
  obtain ⟨res, hres⟩ := writeLoop_total buffer w
  have h := writeLoop_closeCalls buffer _ _ _ _ _ _ _ hres
  have hw : w.write buffer = res := by simp [TCPWire.write, hres]
  rw [hw]
  exact h

theorem TCPWire.closeTimes_of_closed (w : TCPWire) (h : w.status = Status.Closed) :
    ∀ k, w.closeTimes k = w := by
  intro k
  induction k with
  | zero => rfl
  | succ k ih => rw [TCPWire.closeTimes, ih, TCPWire.Close_of_closed w h]

theorem readPrefixLoop_closeCalls :
    ∀ (k delay : Nat) (lastErr : Option GoErr) (w : TCPWire),
      (TCPWire.readPrefixLoop k delay lastErr w).2.conn.closeCalls = w.conn.closeCalls := by
  intro k
  induction k with
  | zero => intro _ _ _; rfl
  | succ k ih =>
    intro delay lastErr w
    rw [TCPWire.readPrefixLoop]
    simp only []
    split
    · rfl
    · split
      · rw [ih]
      · rfl

theorem readMessageLoop_closeCalls (size : Nat) :
    ∀ (k delay : Nat) (lastErr : Option GoErr) (buffer : List Byte) (w : TCPWire),
      (TCPWire.readMessageLoop size k delay lastErr buffer w).2.conn.closeCalls =
        w.conn.closeCalls := by
  intro k
  induction k with
  | zero => intro _ _ _ _; rfl
  | succ k ih =>
    intro delay lastErr buffer w
    rw [TCPWire.readMessageLoop]
    simp only []
    split
    · rfl
    · split
      · rw [ih]
      · rfl

theorem readPrefix_success_closeCalls (w w1 : TCPWire) (size : Nat)
    (h : w.readPrefix = ((size, none), w1)) :
    w1.conn.closeCalls = w.conn.closeCalls ∧ w1.status = w.status := by
  have hl := readPrefixLoop_closeCalls 5 5 none w
  have hs := readPrefixLoop_status 5 5 none w
  unfold TCPWire.readPrefix at h
  split at h
  · rename_i heq
    rw [heq] at hl hs
    cases h
    exact ⟨hl, hs⟩
  · split at h
    · cases h
    · split at h
      · cases h
      · split at h
        · cases h
        · split at h <;> cases h

theorem readMessage_closeCalls (w : TCPWire) (size : Nat) :
    (w.readMessage size).2.conn.closeCalls = w.conn.closeCalls ∧
    (∀ e, (w.readMessage size).1.2 = some e → (w.readMessage size).2.status = Status.Closed) := by
  have hl := readMessageLoop_closeCalls size 5 5 none (List.replicate size 0) w
  unfold TCPWire.readMessage
  split
  · rename_i heq
    rw [heq] at hl
    exact ⟨hl, fun e he => by cases he⟩
  · rename_i heq
    rw [heq] at hl
    simp only [] at hl
    split
    · exact ⟨hl, fun _ _ => rfl⟩
    · split
      · exact ⟨hl, fun _ _ => rfl⟩
      · split
        · exact ⟨hl, fun _ _ => rfl⟩
        · split
          · exact ⟨hl, fun _ _ => rfl⟩
          · exact ⟨hl, fun _ _ => rfl⟩

theorem receive_payload_failure (w w1 : TCPWire) (size : Nat) (e : WireError)
    (hp : w.readPrefix = ((size, none), w1)) (hpos : 0 < size)
    (hmax : size ≤ uint32 w1.maxMsgSize) (hm : (w1.readMessage size).1.2 = some e) :
    w.Receive = ((none, some e), (w1.readMessage size).2) := by
  have h1 : ¬ size ≤ 0 := by omega
  have h2 : ¬ size > uint32 w1.maxMsgSize := by omega
  simp only [TCPWire.Receive, hp, h1, h2, if_false]
  rcases hr : w1.readMessage size with ⟨⟨b, err⟩, w2⟩
  rw [hr] at hm
  simp only [] at hm
  subst hm
  rfl

theorem streamBytes_append (xs ys : List ReadEvent) :
    streamBytes (xs ++ ys) = streamBytes xs ++ streamBytes ys := by
  simp [streamBytes]

theorem streamBytes_chunks (cs : List (List Byte)) :
    streamBytes (cs.map ReadEvent.data) = cs.flatten := by
  induction cs with
  | nil => rfl
  | cons c cs ih =>
    simp only [streamBytes, List.map_cons, List.flatten_cons, ReadEvent.bytes] at ih ⊢
    rw [ih]

theorem streamBytes_fail (e : GoErr) (rest : List ReadEvent) :
    streamBytes (ReadEvent.fail e :: rest) = streamBytes rest := by
  simp [streamBytes, ReadEvent.bytes]

/-- The call `io.ReadFull` loses no byte: what it returns and what it leaves make up the
stream. -/
theorem readFull_count :
    ∀ (evs : List ReadEvent) (need : Nat) (acc : List Byte),
      (readFull evs need acc).1.1.length + (streamBytes (readFull evs need acc).2).length =
        acc.length + (streamBytes evs).length ∧
      ((readFull evs need acc).1.2 = none →
        (readFull evs need acc).1.1.length = acc.length + need) ∧
      (readFull evs need acc).1.1.length ≤ acc.length + need := by
  intro evs
  induction evs with
  | nil =>
    intro need acc
    cases need with
    | zero => simp [readFull]
    | succ n => simp [readFull]
  | cons ev evs ih =>
    intro need acc
    cases need with
    | zero => simp [readFull]
    | succ n =>
      cases ev with
      | data bs =>
        simp only [readFull]
        split
        · rename_i hc
          obtain ⟨h1, h2, h3⟩ := ih (n + 1 - bs.length) (acc ++ bs)
          simp only [List.length_append] at h1 h2 h3
          refine ⟨?_, ?_, ?_⟩
          · rw [h1]; simp [streamBytes, ReadEvent.bytes]; omega
          · intro hn; rw [h2 hn]; omega
          · omega
        · rename_i hc
          refine ⟨?_, ?_, ?_⟩
          · simp [streamBytes, ReadEvent.bytes]; omega
          · intro _; simp; omega
          · simp
      | fail e =>
        simp [readFull, streamBytes, ReadEvent.bytes]

theorem readPrefixLoop_count :
    ∀ (k delay : Nat) (lastErr : Option GoErr) (w w1 : TCPWire) (sz : Nat) (e : Option GoErr),
      TCPWire.readPrefixLoop k delay lastErr w = ((some sz, e), w1) →
      4 + (streamBytes w1.conn.incoming).length ≤ (streamBytes w.conn.incoming).length := by
  intro k
  induction k with
  | zero =>
    intro delay lastErr w w1 sz e h
    simp [TCPWire.readPrefixLoop] at h
  | succ k ih =>
    intro delay lastErr w w1 sz e h
    obtain ⟨h1, h2, h3⟩ := readFull_count w.conn.incoming prefixSize []
    rw [TCPWire.readPrefixLoop] at h
    simp only [] at h
    split at h
    · rename_i hn
      cases h
      have := h2 hn
      have hp : prefixSize = 4 := rfl
      simp only [List.length_nil] at this h1
      simp only []
      omega
    · split at h
      · have := ih _ _ _ _ _ _ h
        simp only [List.length_nil] at h1
        simp only [] at this
        omega
      · cases h

theorem readMessageLoop_count (size : Nat) :
    ∀ (k delay : Nat) (lastErr : Option GoErr) (buffer : List Byte) (w w1 : TCPWire)
      (b b1 : List Byte) (e : Option GoErr),
      buffer.length = size →
      TCPWire.readMessageLoop size k delay lastErr buffer w = ((some b, e, b1), w1) →
      b.length = size ∧
      size + (streamBytes w1.conn.incoming).length ≤ (streamBytes w.conn.incoming).length := by
  intro k
  induction k with
  | zero =>
    intro delay lastErr buffer w w1 b b1 e _ h
    simp [TCPWire.readMessageLoop] at h
  | succ k ih =>
    intro delay lastErr buffer w w1 b b1 e hb h
    obtain ⟨h1, h2, h3⟩ := readFull_count w.conn.incoming size []
    rw [TCPWire.readMessageLoop] at h
    simp only [] at h
    split at h
    · rename_i hn
      cases h
      have := h2 hn
      simp only [List.length_nil] at this h1
      simp only [overlay, List.length_append, List.length_drop]
      omega
    · split at h
      · have := ih _ _ _ _ _ _ _ _ (by
          simp only [overlay, List.length_append, List.length_drop]
          simp only [List.length_nil] at h3
          omega) h
        simp only [List.length_nil] at h1
        simp only [] at this
        omega
      · cases h

theorem readPrefix_success (w w1 : TCPWire) (size : Nat)
    (h : w.readPrefix = ((size, none), w1)) :
    ∃ e, TCPWire.readPrefixLoop 5 5 none w = ((some size, e), w1) := by
  unfold TCPWire.readPrefix at h
  split at h
  · rename_i heq
    cases h
    exact ⟨_, heq⟩
  · split at h
    · cases h
    · split at h
      · cases h
      · split at h
        · cases h
        · split at h <;> cases h

theorem readMessage_success (w w1 : TCPWire) (size : Nat) (b : List Byte)
    (h : w.readMessage size = ((b, none), w1)) :
    ∃ e b1, TCPWire.readMessageLoop size 5 5 none (List.replicate size 0) w =
      ((some b, e, b1), w1) := by
  unfold TCPWire.readMessage at h
  split at h
  · rename_i heq
    cases h
    exact ⟨_, _, heq⟩
  · split at h
    · cases h
    · split at h
      · cases h
      · split at h
        · cases h
        · split at h <;> cases h

theorem Receive_success (w w2 : TCPWire) (b : List Byte)
    (h : w.Receive = ((some b, none), w2)) :
    ∃ (size : Nat) (w1 : TCPWire),
      w.readPrefix = ((size, none), w1) ∧ w1.readMessage size = ((b, none), w2) := by
  unfold TCPWire.Receive at h
  split at h
  · cases h
  · rename_i size w1 heq
    split at h
    · cases h
    · split at h
      · cases h
      · split at h
        · cases h
        · rename_i heq2
          cases h
          exact ⟨size, w1, heq, heq2⟩

/-- A transient error after fewer than four bytes of the prefix read: the loop sleeps and goes
round again on the rest of the stream; the bytes read so far are not kept. -/
theorem readPrefixLoop_transient_step (w : TCPWire) (cs : List (List Byte))
    (rest : List ReadEvent) (k delay : Nat) (lastErr : Option GoErr)
    (hin : w.conn.incoming = cs.map ReadEvent.data ++ ReadEvent.fail GoErr.transient :: rest)
    (hlen : cs.flatten.length < 4) :
    TCPWire.readPrefixLoop (k + 1) delay lastErr w =
      TCPWire.readPrefixLoop k (delay * 2) (some GoErr.transient)
        { w with conn := { w.conn with incoming := rest }, slept := w.slept ++ [delay] } := by
  rw [TCPWire.readPrefixLoop]
  simp [hin, prefixSize, readFull_fail GoErr.transient rest cs 4 [] hlen]

/-- A transient error after fewer than `size` bytes of the payload read: the loop sleeps and
goes round again on the rest of the stream, with the bytes read so far at the start of the
buffer, where the next read will overwrite them. -/
theorem readMessageLoop_transient_step (w : TCPWire) (size : Nat) (cs : List (List Byte))
    (rest : List ReadEvent) (k delay : Nat) (lastErr : Option GoErr) (buffer : List Byte)
    (hin : w.conn.incoming = cs.map ReadEvent.data ++ ReadEvent.fail GoErr.transient :: rest)
    (hlen : cs.flatten.length < size) :
    TCPWire.readMessageLoop size (k + 1) delay lastErr buffer w =
      TCPWire.readMessageLoop size k (delay * 2) (some GoErr.transient)
        (overlay cs.flatten buffer)
        { w with conn := { w.conn with incoming := rest }, slept := w.slept ++ [delay] } := by
  rw [TCPWire.readMessageLoop]
  simp [hin, readFull_fail GoErr.transient rest cs size [] hlen]

theorem readPrefixLoop_chunks (w : TCPWire) (cs : List (List Byte)) (rest : List ReadEvent)
    (k delay : Nat) (lastErr : Option GoErr)
    (hin : w.conn.incoming = cs.map ReadEvent.data ++ rest) (hlen : 4 ≤ cs.flatten.length) :
    TCPWire.readPrefixLoop (k + 1) delay lastErr w =
      ((some (getUint32 (cs.flatten.take 4)), none),
        w.withIncoming ((dropChunks 4 cs).map ReadEvent.data ++ rest)) := by
  rw [TCPWire.readPrefixLoop]
  simp [hin, prefixSize, readFull_chunks rest cs 4 [] hlen, TCPWire.withIncoming]

theorem overlay_overwrites (fresh old : List Byte) (h : old.length ≤ fresh.length) :
    overlay fresh old = fresh := by
  simp [overlay, List.drop_eq_nil_of_le h]

theorem overlay_length (fresh old : List Byte) (n : Nat) (hold : old.length = n)
    (hfresh : fresh.length ≤ n) : (overlay fresh old).length = n := by
  simp only [overlay, List.length_append, List.length_drop]
  omega

theorem readMessageLoop_chunks (w : TCPWire) (size : Nat) (cs : List (List Byte))
    (rest : List ReadEvent) (k delay : Nat) (lastErr : Option GoErr) (buffer : List Byte)
    (hbuf : buffer.length = size)
    (hin : w.conn.incoming = cs.map ReadEvent.data ++ rest) (hlen : size ≤ cs.flatten.length) :
    TCPWire.readMessageLoop size (k + 1) delay lastErr buffer w =
      ((some (cs.flatten.take size), none, cs.flatten.take size),
        w.withIncoming ((dropChunks size cs).map ReadEvent.data ++ rest)) := by
  have hov : overlay (cs.flatten.take size) buffer = cs.flatten.take size :=
    overlay_overwrites _ _ (by rw [List.length_take]; omega)
  rw [TCPWire.readMessageLoop]
  simp [hin, readFull_chunks rest cs size [] hlen, TCPWire.withIncoming, hov]

theorem receive_not_frame_after_transient (w : TCPWire) (N : Nat) (P : List Byte)
    (cs1 : List (List Byte)) (rest : List ReadEvent)
    (hin : w.conn.incoming = cs1.map ReadEvent.data ++ ReadEvent.fail GoErr.transient :: rest)
    (hbytes : cs1.flatten ++ streamBytes rest = putUint32 N ++ P) (hP : P.length = N)
    (hk1 : 1 ≤ cs1.flatten.length) (hk4 : cs1.flatten.length ≠ 4)
    (hkN : cs1.flatten.length < 4 + N) :
    w.Receive.1 ≠ (some P, none) := by
  intro hcontra
  have hrec : w.Receive = ((some P, none), w.Receive.2) := by
    rw [← hcontra]
  obtain ⟨size, w1, hrp, hrm⟩ := Receive_success w _ P hrec
  obtain ⟨e1, b1, hml⟩ := readMessage_success w1 _ size P hrm
  obtain ⟨hsz, hcount2⟩ := readMessageLoop_count size 5 5 none (List.replicate size 0) w1 _ P b1
    e1 (by simp) hml
  have htotal : cs1.flatten.length + (streamBytes rest).length = 4 + N := by
    have := congrArg List.length hbytes
    simpa [putUint32_length, hP] using this
  by_cases hlt : cs1.flatten.length < 4
  · obtain ⟨e0, hpl⟩ := readPrefix_success w w1 size hrp
    rw [readPrefixLoop_transient_step w cs1 rest 4 5 none hin hlt] at hpl
    have hcount1 := readPrefixLoop_count _ _ _ _ _ _ _ hpl
    simp only [] at hcount1
    omega
  · have h4 : 4 ≤ cs1.flatten.length := by omega
    rw [readPrefix_chunks w cs1 _ hin h4] at hrp
    have hw1 : w1 = w.withIncoming ((dropChunks 4 cs1).map ReadEvent.data ++
        ReadEvent.fail GoErr.transient :: rest) := by
      have := congrArg Prod.snd hrp
      exact this.symm
    have hin1 : w1.conn.incoming = (dropChunks 4 cs1).map ReadEvent.data ++
        ReadEvent.fail GoErr.transient :: rest := by
      rw [hw1]; rfl
    have hlen1 : (dropChunks 4 cs1).flatten.length < size := by
      rw [dropChunks_join, List.length_drop]
      omega
    rw [readMessageLoop_transient_step w1 size _ rest 4 5 none _ hin1 hlen1] at hml
    obtain ⟨_, hcount3⟩ := readMessageLoop_count size _ _ _ _ _ _ _ _ _
      (overlay_length _ _ size (by simp) (Nat.le_of_lt hlen1)) hml
    simp only [] at hcount3
    omega

theorem fire_watchCh (codec : Codec Command Result) (fuel : Nat) (c : Client) (cmd : Command)
    (cw : ClientWire) (net : Net) (resp : Result) (cw1 : ClientWire) (c1 : Client) (net1 : Net)
    (h : c.fire codec fuel cmd cw net = some (resp, cw1, c1, net1)) :
    c1.watchCh = c.watchCh := by
  unfold Client.fire at h
  split at h
  · cases h
  · simp only [] at h
    split at h
    · cases h; rfl
    · split at h
      · cases h; rfl
      · cases h; rfl

theorem WatchCh_of_handle (codec : Codec Command Result) (fuel : Nat) (c : Client) (net : Net)
    (ch : Chan) (h : c.watchCh = some ch) :
    c.WatchCh codec fuel net = some ({ ch := true, err := none, started := false }, c, net) := by
  simp [Client.WatchCh, h]

theorem WatchCh_failure_keeps_handle (codec : Codec Command Result) (fuel : Nat) (c : Client)
    (net : Net) (r : WatchChResult) (c1 : Client) (net1 : Net)
    (hnone : c.watchCh = none) (h : c.WatchCh codec fuel net = some (r, c1, net1))
    (herr : r.err ≠ none) :
    r.ch = false ∧ r.started = false ∧ c1.watchCh = some Chan.make ∧
    ((r.err = some (ClientError.watchConnection ⟨ErrKind.NotEstablished, ErrCause.dial⟩) ∧
        c1.watchWire = none) ∨
      ∃ m, r.err = some (ClientError.handshake m)) := by
  unfold Client.WatchCh at h
  rw [hnone] at h
  simp only [] at h
  split at h
  · rename_i ww err net2 heq
    cases h
    refine ⟨rfl, rfl, rfl, Or.inl ?_⟩
    unfold NewClientWire at heq
    split at heq
    · cases heq; exact ⟨rfl, rfl⟩
    · cases heq
  · cases h
  · split at h
    · cases h
    · rename_i heq
      have hw := fire_watchCh _ _ _ _ _ _ _ _ _ _ heq
      split at h
      · cases h
        exact ⟨rfl, rfl, hw, Or.inr ⟨_, rfl⟩⟩
      · cases h
        exact absurd rfl herr

/-! ## Claims C21 to C23: interrupted reads, failure paths and the socket, a failed subscription -/

/-- C21: a transient error that interrupts the prefix read or the payload read of `Receive`
after some bytes of that read were consumed makes the next attempt read the full length again
from the bytes that follow: the consumed bytes are dropped.  An interrupted prefix read decodes
the length from the four bytes after the interruption; an interrupted payload read returns the
`N` bytes after the interruption; and when the stream carries one frame, interrupted after `k`
bytes with `k ≥ 1` bytes of the read under way consumed, `Receive` does not return the payload
of that frame. -/
theorem C21_transient_error_mid_read_shifts_the_stream (w : TCPWire) :
    (∀ (cs1 cs2 : List (List Byte)) (rest : List ReadEvent),
      w.conn.incoming = cs1.map ReadEvent.data ++
        ReadEvent.fail GoErr.transient :: (cs2.map ReadEvent.data ++ rest) →
      cs1.flatten.length < 4 → 4 ≤ cs2.flatten.length →
      w.readPrefix = ((getUint32 (cs2.flatten.take 4), none),
        { w with conn := { w.conn with
                           incoming := (dropChunks 4 cs2).map ReadEvent.data ++ rest },
                 slept := w.slept ++ [5] })) ∧
    (∀ (N : Nat) (w1 : TCPWire) (cs1 cs2 : List (List Byte)) (rest : List ReadEvent),
      w.readPrefix = ((N, none), w1) → 0 < N → N ≤ uint32 w1.maxMsgSize →
      w1.conn.incoming = cs1.map ReadEvent.data ++
        ReadEvent.fail GoErr.transient :: (cs2.map ReadEvent.data ++ rest) →
      cs1.flatten.length < N → N ≤ cs2.flatten.length →
      w.Receive = ((some (cs2.flatten.take N), none),
        { w1 with conn := { w1.conn with
                            incoming := (dropChunks N cs2).map ReadEvent.data ++ rest },
                  slept := w1.slept ++ [5] })) ∧
    (∀ (N : Nat) (P : List Byte) (cs1 : List (List Byte)) (rest : List ReadEvent),
      w.conn.incoming = cs1.map ReadEvent.data ++ ReadEvent.fail GoErr.transient :: rest →
      cs1.flatten ++ streamBytes rest = putUint32 N ++ P → P.length = N →
      1 ≤ cs1.flatten.length → cs1.flatten.length ≠ 4 → cs1.flatten.length < 4 + N →
      w.Receive.1 ≠ (some P, none)) := by
  refine ⟨?_, ?_, ?_⟩
  · intro cs1 cs2 rest hin h1 h2
    unfold TCPWire.readPrefix
    rw [readPrefixLoop_transient_step w cs1 _ 4 5 none hin h1,
      readPrefixLoop_chunks _ cs2 rest 3 _ _ rfl h2]
    rfl
  · intro N w1 cs1 cs2 rest hp hpos hmax hin h1 h2
    have hn1 : ¬ N ≤ 0 := by omega
    have hn2 : ¬ N > uint32 w1.maxMsgSize := by omega
    have hm : w1.readMessage N = ((cs2.flatten.take N, none),
        { w1 with conn := { w1.conn with
                            incoming := (dropChunks N cs2).map ReadEvent.data ++ rest },
                  slept := w1.slept ++ [5] }) := by
      unfold TCPWire.readMessage
      rw [readMessageLoop_transient_step w1 N cs1 _ 4 5 none _ hin h1,
        readMessageLoop_chunks _ N cs2 rest 3 _ _ _
          (overlay_length _ _ N (by simp) (Nat.le_of_lt h1)) rfl h2]
      rfl
    simp only [TCPWire.Receive, hp, hn1, hn2, if_false, hm]
  · intro N P cs1 rest hin hbytes hP hk1 hk4 hkN
    exact receive_not_frame_after_transient w N P cs1 rest hin hbytes hP hk1 hk4 hkN

theorem C21_transient_error_mid_read_shifts_the_stream_witness :
    (NewTCPWire 50 (Conn.fresh [ReadEvent.data [0, 0, 0, 2, 7, 8]] [])).Receive.1 =
      (some [7, 8], none) ∧
    (NewTCPWire 50 (Conn.fresh [ReadEvent.data [0, 0, 0, 2],
      ReadEvent.fail GoErr.transient, ReadEvent.data [7, 8]] [])).Receive.1 =
      (some [7, 8], none) ∧
    (NewTCPWire 50 (Conn.fresh [ReadEvent.data [0, 0, 0, 2, 7],
      ReadEvent.fail GoErr.transient, ReadEvent.data [8]] [])).Receive.1 ≠
      (some [7, 8], none) ∧
    (NewTCPWire 50 (Conn.fresh [ReadEvent.data [0, 0, 0, 2, 7],
      ReadEvent.fail GoErr.transient, ReadEvent.data [8]] [])).Receive.1 =
      (none, some ⟨ErrKind.Terminated, ErrCause.io GoErr.unexpectedEOF⟩) ∧
    (NewTCPWire 50 (Conn.fresh [ReadEvent.data [0, 0, 0, 2, 7],
      ReadEvent.fail GoErr.transient, ReadEvent.data [8, 0, 0, 0, 1, 9]] [])).Receive.1 =
      (some [8, 0], none) ∧
    (NewTCPWire 50 (Conn.fresh [ReadEvent.data [0],
      ReadEvent.fail GoErr.transient, ReadEvent.data [0, 0, 2, 7, 8]] [])).Receive.1 =
      (none, some ⟨ErrKind.CorruptMessage, ErrCause.tooLarge 519 50⟩) :=
  ⟨by decide, by decide,
    (C21_transient_error_mid_read_shifts_the_stream
      (NewTCPWire 50 (Conn.fresh [ReadEvent.data [0, 0, 0, 2, 7],
        ReadEvent.fail GoErr.transient, ReadEvent.data [8]] []))).2.2 2 [7, 8]
      [[0, 0, 0, 2, 7]] [ReadEvent.data [8]] rfl (by decide) rfl (by decide) (by decide)
      (by decide),
    by decide, by decide, by decide⟩

/-- C22: the failure paths of `write` and `readMessage` mark the channel Closed without calling
the socket's `Close`.  So a `Send` on an open channel that fails (always with Terminated, from
the write), and a `Receive` that fails in the payload read, leave the socket's `Close` count
where it was, and so does any number of later `Close()` calls, each of which returns early. -/
theorem C22_failure_paths_never_close_the_socket (w : TCPWire) :
    (∀ (buffer : List Byte) (e : WireError), (w.write buffer).1 = some e →
      (w.write buffer).2.status = Status.Closed ∧
      (w.write buffer).2.conn.closeCalls = w.conn.closeCalls) ∧
    (∀ (size : Nat) (e : WireError), (w.readMessage size).1.2 = some e →
      (w.readMessage size).2.status = Status.Closed ∧
      (w.readMessage size).2.conn.closeCalls = w.conn.closeCalls) ∧
    (∀ (msg : List Byte) (e : WireError), w.status = Status.Open → (w.Send msg).1 = some e →
      e.Kind = ErrKind.Terminated ∧
      (w.Send msg).2.conn.closeCalls = w.conn.closeCalls ∧
      ∀ k, (w.Send msg).2.closeTimes k = (w.Send msg).2 ∧
        ((w.Send msg).2.closeTimes k).conn.closeCalls = w.conn.closeCalls) ∧
    (∀ (size : Nat) (w1 : TCPWire) (e : WireError), w.readPrefix = ((size, none), w1) →
      0 < size → size ≤ uint32 w1.maxMsgSize → (w1.readMessage size).1.2 = some e →
      w.Receive.1 = (none, some e) ∧
      w.Receive.2.conn.closeCalls = w.conn.closeCalls ∧
      ∀ k, w.Receive.2.closeTimes k = w.Receive.2 ∧
        (w.Receive.2.closeTimes k).conn.closeCalls = w.conn.closeCalls) := by
  refine ⟨?_, ?_, ?_, ?_⟩
  · intro buffer e he
    exact ⟨((write_closeCalls w buffer).2 e he).2, (write_closeCalls w buffer).1⟩
  · intro size e he
    exact ⟨(readMessage_closeCalls w size).2 e he, (readMessage_closeCalls w size).1⟩
  · intro msg e hopen he
    have hs : w.Send msg = w.write (putPrefix msg.length ++ msg) := by
      simp [TCPWire.Send, hopen]
    rw [hs] at he ⊢
    obtain ⟨hc, hf⟩ := write_closeCalls w (putPrefix msg.length ++ msg)
    obtain ⟨hk, hst⟩ := hf e he
    refine ⟨hk, hc, fun k => ?_⟩
    rw [TCPWire.closeTimes_of_closed _ hst k]
    exact ⟨rfl, hc⟩
  · intro size w1 e hp hpos hmax hm
    rw [receive_payload_failure w w1 size e hp hpos hmax hm]
    obtain ⟨hc, hf⟩ := readMessage_closeCalls w1 size
    have hst := hf e hm
    have hc1 := (readPrefix_success_closeCalls w w1 size hp).1
    refine ⟨rfl, hc.trans hc1, fun k => ?_⟩
    rw [TCPWire.closeTimes_of_closed _ hst k]
    exact ⟨rfl, hc.trans hc1⟩

theorem C22_failure_paths_never_close_the_socket_witness :
    halfSeveredWire.status = Status.Open ∧
    (halfSeveredWire.Send [9]).1 = some ⟨ErrKind.Terminated, ErrCause.io GoErr.closedPipe⟩ ∧
    (halfSeveredWire.Send [9]).2.status = Status.Closed ∧
    ((halfSeveredWire.Send [9]).2.closeTimes 3).conn.closeCalls = 0 ∧
    (halfSeveredWire.closeTimes 3).conn.closeCalls = 1 ∧
    (NewTCPWire 50 (Conn.fresh [ReadEvent.data [0, 0, 0, 2, 7]] [])).Receive.1 =
      (none, some ⟨ErrKind.Terminated, ErrCause.io GoErr.unexpectedEOF⟩) ∧
    ((NewTCPWire 50 (Conn.fresh [ReadEvent.data [0, 0, 0, 2, 7]] [])).Receive.2.closeTimes
      3).conn.closeCalls = 0 :=
  ⟨rfl, by decide, by decide,
    (((C22_failure_paths_never_close_the_socket halfSeveredWire).2.2.1 [9]
      ⟨ErrKind.Terminated, ErrCause.io GoErr.closedPipe⟩ rfl (by decide)).2.2 3).2,
    by decide, by decide,
    (((C22_failure_paths_never_close_the_socket
        (NewTCPWire 50 (Conn.fresh [ReadEvent.data [0, 0, 0, 2, 7]] []))).2.2.2 2
      (NewTCPWire 50 (Conn.fresh [ReadEvent.data [7]] []))
      ⟨ErrKind.Terminated, ErrCause.io GoErr.unexpectedEOF⟩ (by decide) (by decide) (by decide)
      (by decide)).2.2 3).2⟩

/-- C23: a failed subscription is not atomic.  When the first `WatchCh` call (no queue handle
yet) returns an error, from the dial (NotEstablished) or from a rejected handshake, it returns
no handle and starts no background task, yet the client's queue handle stays set to the empty
queue it made before dialing.  Every later `WatchCh` call, whatever the network offers, then
returns the handle with a nil error and leaves the client and the network as they were: no
dial, no handshake, no background task; and `Fire` leaves the handle as it is, so the queue
stays empty. -/
theorem C23_failed_subscription_keeps_queue_handle (codec : Codec Command Result) (fuel : Nat)
    (c : Client) (net : Net) (r : WatchChResult) (c1 : Client) (net1 : Net)
    (hnone : c.watchCh = none) (hcall : c.WatchCh codec fuel net = some (r, c1, net1))
    (herr : r.err ≠ none) :
    r.ch = false ∧ r.started = false ∧
    ((r.err = some (ClientError.watchConnection ⟨ErrKind.NotEstablished, ErrCause.dial⟩) ∧
        c1.watchWire = none) ∨
      ∃ m, r.err = some (ClientError.handshake m)) ∧
    c1.watchCh = some { items := [], closed := false } ∧
    (∀ (codec2 : Codec Command Result) (fuel2 : Nat) (net2 : Net),
      c1.WatchCh codec2 fuel2 net2 =
        some ({ ch := true, err := none, started := false }, c1, net2)) ∧
    (∀ (codec2 : Codec Command Result) (fuel2 : Nat) (cmd : Command) (net2 : Net)
        (resp : Result) (c2 : Client) (net3 : Net),
      c1.Fire codec2 fuel2 cmd net2 = some (resp, c2, net3) →
        c2.watchCh = some { items := [], closed := false }) := by
  obtain ⟨h1, h2, h3, h4⟩ := WatchCh_failure_keeps_handle codec fuel c net r c1 net1 hnone hcall herr
  refine ⟨h1, h2, h4, h3, ?_, ?_⟩
  · intro codec2 fuel2 net2
    exact WatchCh_of_handle codec2 fuel2 c1 net2 Chan.make h3
  · intro codec2 fuel2 cmd net2 resp c2 net3 hf
    unfold Client.Fire at hf
    split at hf
    · cases hf
    · rename_i heq
      cases hf
      exact (fire_watchCh _ _ _ _ _ _ _ _ _ _ heq).trans h3

theorem C23_failed_subscription_keeps_queue_handle_witness :
    ((exampleClient healthyConn).WatchCh exampleCodec 5 (netAt 100 [])).map (fun x => x.1) =
      some { ch := false,
             err := some (ClientError.watchConnection ⟨ErrKind.NotEstablished, ErrCause.dial⟩),
             started := false } ∧
    ({ exampleClient healthyConn with
        watchCh := some Chan.make, watchRetrier := some (NewRetrier 5 5000000000 100) } :
      Client).WatchCh exampleCodec 5 (netAt 200 [some healthyConn]) =
      some ({ ch := true, err := none, started := false },
        { exampleClient healthyConn with
          watchCh := some Chan.make, watchRetrier := some (NewRetrier 5 5000000000 100) },
        netAt 200 [some healthyConn]) ∧
    ((exampleClient healthyConn).WatchCh rejectingCodec 5
        (netAt 100 [some healthyConn])).map (fun x => (x.1, x.2.1.watchCh)) =
      some ({ ch := false,
              err := some (ClientError.handshake { format := "denied", cause := none }),
              started := false }, some Chan.make) ∧
    ((exampleClient healthyConn).WatchCh exampleCodec 5
        (netAt 100 [some healthyConn])).map (fun x => x.1) =
      some { ch := true, err := none, started := true } :=
  ⟨rfl,
   (C23_failed_subscription_keeps_queue_handle exampleCodec 5 (exampleClient healthyConn)
      (netAt 100 []) _ _ _ rfl rfl (by simp)).2.2.2.2.1 exampleCodec 5
      (netAt 200 [some healthyConn]),
   rfl, rfl⟩

end SevenDB
